import Mathlib

/-!
Attendance app: roster store, attendance ledger and statistics engine.

A shallow embedding of the data-carrying part of `src/app.js` (class `AttendanceApp`):
`confirmAttendance`, `saveStudent`, `parseCSVData`, `updateStats`,
`updateAttendanceTrends` and the per-student rate of `renderStudents`, with the DOM reads
turned into explicit arguments and the toasts turned into returned values. The structure
`App` holds the fields of the object (`students`, `currentStats`, `attendanceTrends`,
`attendanceRecords`, `settings`); `App.saveStudent`, `App.parseCSVData` and
`App.confirmAttendance` chain the store update with the recomputations that the method
calls.

Conventions of the embedding
* JavaScript strings are `String`; all character-level work goes through `String.data`.
* Student ids are JavaScript numbers holding integers; they are modelled as `Int`, and a
  sum of two of them is the exact sum rounded to the nearest double (`numberAdd`), so
  `2 ^ 53 + 1` is `2 ^ 53`.
* `new Date()` is an argument: `today` is the ISO date part, `now` the full ISO instant,
  `dateStr k` the ISO date part after `setDate(getDate() - k)`. For the dates of the
  trend points the clock is modelled in full: time values in milliseconds, the ECMAScript
  day and calendar functions, the time zone of the host with its transitions, `getDate`,
  `setDate` and `toISOString` (`loopDateStr`, `updateAttendanceTrendsAt`).
* The quotient `(presentCount / length) * 100` and `toFixed(1)` are computed on doubles:
  `nearestDouble` rounds an exact quotient of naturals to the nearest double.
* `showToast(message, type)` becomes a returned `Toast`; `saveData`, rendering and
  navigation have no effect on the roster or the ledger and are not modelled.
-/

namespace AttendanceApp

/-! ## Data model -/

/-- Element of `this.students`. The field `class_` is the source's `class`. -/
structure Student where
  id : Int
  name : String
  roll_no : String
  class_ : String
  parent_phone : String
  photo : String
deriving DecidableEq, Repr

/-- Element of `attendanceData.records` as built in `confirmAttendance`.
`confidence` is the number read back from the one-decimal text of the result list,
kept in tenths of a percent. -/
structure AttendanceRecord where
  student_id : Int
  student_name : String
  status : String
  timestamp : String
  confidence : Nat
deriving DecidableEq, Repr

/-- Element of `this.attendanceRecords`: the `attendanceData` object of `confirmAttendance`. -/
structure AttendanceData where
  date : String
  records : List AttendanceRecord
  timestamp : String
  method : String
deriving DecidableEq, Repr

/-- What `confirmAttendance` reads from one `.student-attendance-item` of the result list:
the text used as `studentName` (the text of the element that the selector
`.student-info div:first-child` finds), whether the status element carries
`status--success`, and the parsed confidence (0 when the confidence line is absent). -/
structure AttendanceItem where
  studentName : String
  isPresent : Bool
  confidence : Nat
deriving DecidableEq, Repr

/-- Argument pair of `showToast(message, type)`; `type` defaults to `success`. -/
structure Toast where
  message : String
  type : String
deriving DecidableEq, Repr

/-! ## Attendance ledger: `confirmAttendance` -/

/-- The `attendanceItems.forEach` loop of `confirmAttendance` (lines 592-610): an item whose
`studentName` is the name of no student is skipped, any other item yields one record for
the first student of that name. -/
def buildRecords (students : List Student) (now : String) :
    List AttendanceItem → List AttendanceRecord
  | [] => []
  | item :: rest =>
    match students.find? (fun s => s.name == item.studentName) with
    | some student =>
      { student_id := student.id
        student_name := student.name
        status := if item.isPresent then "present" else "absent"
        timestamp := now
        confidence := item.confidence } :: buildRecords students now rest
    | none => buildRecords students now rest

/-- The `attendanceData` object of `confirmAttendance` (lines 585-610). -/
def attendanceData (students : List Student) (today now : String)
    (items : List AttendanceItem) : AttendanceData :=
  { date := today
    records := buildRecords students now items
    timestamp := now
    method := "ai_recognition" }

/-- The ledger update of `confirmAttendance` (lines 612-614): drop every record dated
`today`, then push the new `attendanceData`. Returns the new `this.attendanceRecords`. -/
def confirmAttendance (students : List Student) (attendanceRecords : List AttendanceData)
    (today now : String) (items : List AttendanceItem) : List AttendanceData :=
  attendanceRecords.filter (fun r => r.date != today) ++ [attendanceData students today now items]

/-- One call of `confirmAttendance`: the roster at the time of the call, the clock and
the items of the result list. -/
structure Commit where
  students : List Student
  today : String
  now : String
  items : List AttendanceItem
deriving Repr

/-- A sequence of `confirmAttendance` calls, applied left to right. -/
def commitAll (attendanceRecords : List AttendanceData) (calls : List Commit) :
    List AttendanceData :=
  calls.foldl (fun ledger c => confirmAttendance c.students ledger c.today c.now c.items)
    attendanceRecords

/-- An item resolves when some student of the roster carries its `studentName`
(the test `if (student)` of line 601). -/
def resolves (students : List Student) (item : AttendanceItem) : Bool :=
  (students.find? (fun s => s.name == item.studentName)).isSome

/-- The lookup of a date in the ledger: the first element whose date equals it
(`attendanceRecords.find(r => r.date === dateStr)`, line 106). -/
def sessionForDate (attendanceRecords : List AttendanceData) (date : String) :
    Option AttendanceData :=
  attendanceRecords.find? (fun r => r.date == date)

/-! ## JavaScript string helpers -/

/-- Code points removed by `String.prototype.trim` and matched by the regular-expression
class `\s`: the ECMAScript WhiteSpace and LineTerminator code points. -/
def isJsSpace (c : Char) : Bool :=
  let n := c.toNat
  n == 0x09 || n == 0x0A || n == 0x0B || n == 0x0C || n == 0x0D || n == 0x20 ||
  n == 0xA0 || n == 0x1680 || (0x2000 ≤ n && n ≤ 0x200A) || n == 0x2028 || n == 0x2029 ||
  n == 0x202F || n == 0x205F || n == 0x3000 || n == 0xFEFF

/-- Character-level `trim`: leading and trailing `isJsSpace` characters removed. -/
def trimChars (cs : List Char) : List Char :=
  ((cs.dropWhile isJsSpace).reverse.dropWhile isJsSpace).reverse

/-- JavaScript `s.trim()`. -/
def jsTrim (s : String) : String := ⟨trimChars s.data⟩

/-- JavaScript `s.toLowerCase()`, on the ASCII letters. The source only compares the
result with the ASCII keys `name`, `roll no`, `class`, `parent phone` (and their
underscore forms); no key contains `k`, the one ASCII letter that a non-ASCII character
lower-cases to, so on every comparison made by the source this agrees with the full
Unicode mapping. -/
def toLowerCase (s : String) : String := ⟨s.data.map Char.toLower⟩

/-- Worker of `splitOn`: `cur` is the current piece, reversed. -/
def splitAux (sep : Char) : List Char → List Char → List String
  | [], cur => [⟨cur.reverse⟩]
  | c :: cs, cur =>
    if c = sep then ⟨cur.reverse⟩ :: splitAux sep cs [] else splitAux sep cs (c :: cur)

/-- JavaScript `s.split(sep)` for a one-character separator. -/
def splitOn (sep : Char) (s : String) : List String := splitAux sep s.data []

/-- Character-level `replace(' ', '_')`: only the first space is replaced. -/
def replaceFirstSpace : List Char → List Char
  | [] => []
  | c :: cs => if c = ' ' then '_' :: cs else c :: replaceFirstSpace cs

/-- JavaScript `header.replace(' ', '_')` (line 885). -/
def replaceSpace (s : String) : String := ⟨replaceFirstSpace s.data⟩

/-! ## JavaScript numbers: rounding to the nearest double -/

/-- Nearest integer to `num / den`, ties to even (the IEEE default rounding). -/
def roundHalfEven (num den : Nat) : Nat :=
  let q := num / den
  let r := num % den
  if den < 2 * r ∨ (2 * r = den ∧ q % 2 = 1) then q + 1 else q

/-- Worker of `floorLog2`, with a bound on the number of halvings. -/
def floorLog2Aux : Nat → Nat → Nat
  | 0, _ => 0
  | fuel + 1, n => if n < 2 then 0 else floorLog2Aux fuel (n / 2) + 1

/-- The position of the highest set bit of `n`: the `k` with `2 ^ k ≤ n < 2 ^ (k + 1)`. -/
def floorLog2 (n : Nat) : Nat := floorLog2Aux n n

/-- The double nearest to the integer `z`, ties to even. Every integer of magnitude up to
`2 ^ 53` is a double; beyond, with `k` the position of the highest bit of the magnitude,
the doubles are the multiples of `2 ^ (k - 52)`. Overflow (a magnitude from `2 ^ 1024`) is
out of reach of the sums formed by the source, whose first operand is a double and whose
second is `1` or an array length. -/
def nearestInteger (z : Int) : Int :=
  if z.natAbs < 2 ^ 53 then z
  else
    let shift := floorLog2 z.natAbs - 52
    Int.sign z * ((roundHalfEven z.natAbs (2 ^ shift) * 2 ^ shift : Nat) : Int)

/-- JavaScript `a + b` on two numbers that hold integers: the exact sum rounded to the
nearest double. -/
def numberAdd (a b : Int) : Int := nearestInteger (a + b)

/-- `Number.isSafeInteger`: an integer of magnitude at most `2 ^ 53 - 1`. -/
def isSafeInteger (z : Int) : Prop := -(2 ^ 53) < z ∧ z < 2 ^ 53

instance (z : Int) : Decidable (isSafeInteger z) := by
  unfold isSafeInteger; infer_instance

/-! ## Roster store: `saveStudent` -/

/-- The argument of `phoneRegex.test` (line 780): `parentPhone.replace(/[\s\-\(\)]/g, '')`,
every whitespace character, hyphen and parenthesis removed. -/
def stripPhone (parentPhone : String) : String :=
  ⟨parentPhone.data.filter (fun c => !(isJsSpace c || c == '-' || c == '(' || c == ')'))⟩

/-- The part `[1-9][\d]{0,15}$` of `phoneRegex`. -/
def phoneDigits : List Char → Bool
  | [] => false
  | d :: ds => ('1' ≤ d && d ≤ '9') && ds.all Char.isDigit && ds.length ≤ 15

/-- The test `phoneRegex.test(s)` for `phoneRegex = /^[\+]?[1-9][\d]{0,15}$/` (line 779). -/
def phoneRegexTest (s : String) : Bool :=
  match s.data with
  | '+' :: rest => phoneDigits rest
  | cs => phoneDigits cs

/-- What `saveStudent` reads from the DOM: `form.dataset.studentId` (absent in add mode,
the decimal text of the edited student's id in edit mode, so that `parseInt` gives the id
back) and the values of the four inputs. -/
structure StudentForm where
  studentId : Option Int
  studentName : String
  rollNumber : String
  studentClass : String
  parentPhone : String
deriving DecidableEq, Repr

/-- Outcome of `saveStudent`: the roster afterwards, the toast shown (if any) and whether
control reached the block `Save data and update UI` (lines 808-813). -/
structure SaveResult where
  students : List Student
  toast : Option Toast
  saved : Bool
deriving DecidableEq, Repr

/-- JavaScript `Math.max(first, ...rest)` on integers. -/
def mathMax (first : Int) (rest : List Int) : Int := rest.foldl max first

/-- The `newId` of line 803: `Math.max(...ids) + 1` on a non-empty roster, `1` otherwise;
the sum is a sum of doubles. -/
def newId : List Student → Int
  | [] => 1
  | s :: rest => numberAdd (mathMax s.id (rest.map (fun t => t.id))) 1

/-- The object spread of line 798: `{ ...this.students[index], ...studentData }`. -/
def mergeStudent (old : Student) (name rollNo studentClass parentPhone : String) : Student :=
  { old with
    name := name, roll_no := rollNo, class_ := studentClass, parent_phone := parentPhone,
    photo := "default.jpg" }

/-- The assignment `this.students[index] = ...` of line 798, at the position found by
`findIndex(s => s.id === id)`: the first student with that id is replaced; `none` when
`findIndex` gives `-1`. -/
def updateFirst (id : Int) (name rollNo studentClass parentPhone : String) :
    List Student → Option (List Student)
  | [] => none
  | s :: rest =>
    if s.id = id then some (mergeStudent s name rollNo studentClass parentPhone :: rest)
    else (updateFirst id name rollNo studentClass parentPhone rest).map (fun r => s :: r)

/-- The method `saveStudent` (lines 757-814) on the roster. -/
def saveStudent (students : List Student) (form : StudentForm) : SaveResult :=
  let name := jsTrim form.studentName
  let rollNo := jsTrim form.rollNumber
  let studentClass := form.studentClass
  let parentPhone := jsTrim form.parentPhone
  if name = "" ∨ rollNo = "" ∨ studentClass = "" ∨ parentPhone = "" then
    { students := students
      toast := some ⟨"Please fill in all required fields", "error"⟩
      saved := false }
  else
    -- parseInt(form.dataset.studentId || 0)
    let selfId : Int := form.studentId.getD 0
    match students.find? (fun s => s.roll_no == rollNo && s.id != selfId) with
    | some _ =>
      { students := students
        toast := some ⟨"Roll number already exists", "error"⟩
        saved := false }
    | none =>
      if !phoneRegexTest (stripPhone parentPhone) then
        { students := students
          toast := some ⟨"Please enter a valid phone number", "error"⟩
          saved := false }
      else
        match form.studentId with
        | some id =>
          match updateFirst id name rollNo studentClass parentPhone students with
          | some updated =>
            { students := updated
              toast := some ⟨"Student updated successfully!", "success"⟩
              saved := true }
          | none => { students := students, toast := none, saved := true }
        | none =>
          { students := students ++
              [{ id := newId students, name := name, roll_no := rollNo, class_ := studentClass,
                 parent_phone := parentPhone, photo := "default.jpg" }]
            toast := some ⟨"Student added successfully!", "success"⟩
            saved := true }

/-- The lookup of a student by roll number: the first student carrying it. -/
def findByRollNo (students : List Student) (rollNo : String) : Option Student :=
  students.find? (fun s => s.roll_no == rollNo)

/-- The phone-number shape of the data model, following the words of spec.md, section 3
(`parentPhone`): an optional leading `+`, then digits only, between 1 and 16 of them. -/
def specPhoneShape (s : String) : Bool :=
  let digits := match s.data with
    | '+' :: rest => rest
    | cs => cs
  decide (1 ≤ digits.length) && decide (digits.length ≤ 16) && digits.all Char.isDigit

/-! ## Roster store: `parseCSVData` -/

/-- Outcome of `parseCSVData`: the roster afterwards, the toasts shown in order, the
`errors` array (logged when non-empty), the `newStudents` array and whether
`saveData`/`updateStats` were reached (line 911). -/
structure ImportResult where
  students : List Student
  toasts : List Toast
  errors : List String
  newStudents : List Student
  saved : Bool
deriving DecidableEq, Repr

/-- The `requiredHeaders` of line 868. -/
def requiredHeaders : List String := ["name", "roll no", "class", "parent phone"]

/-- The object `studentData` of lines 883-886 as the list of its assignments, in order:
key `header.replace(' ', '_')`, value `values[index]`. -/
def studentData (headers values : List String) : List (String × String) :=
  (headers.map replaceSpace).zip values

/-- Property read `studentData[key]`: the last assignment to `key` wins; a key never
assigned reads as `undefined`, which the source only tests for truthiness (line 889)
and which is rendered here, like the empty string, as `""`. -/
def getField (data : List (String × String)) (key : String) : String :=
  ((data.reverse.find? (fun kv => kv.1 == key)).map (fun kv => kv.2)).getD ""

/-- The `newId` of line 900, computed from the roster before the import and the
students collected so far. -/
def importId (students newStudents : List Student) : Int :=
  match students with
  | [] => numberAdd (newStudents.length : Int) 1
  | s :: rest =>
    numberAdd (numberAdd (mathMax s.id (rest.map (fun t => t.id))) 1) (newStudents.length : Int)

/-- One iteration of the row loop (lines 880-908) for `lines[i]`; returns the new
`newStudents` and `errors`. -/
def importRow (students : List Student) (headers : List String) (i : Nat) (line : String)
    (newStudents : List Student) (errors : List String) : List Student × List String :=
  let values := (splitOn ',' line).map jsTrim
  if values.length ≠ headers.length then (newStudents, errors)
  else
    let data := studentData headers values
    let name := getField data "name"
    let roll_no := getField data "roll_no"
    let class_ := getField data "class"
    let parent_phone := getField data "parent_phone"
    if name = "" ∨ roll_no = "" ∨ class_ = "" ∨ parent_phone = "" then
      (newStudents, errors ++ ["Row " ++ toString (i + 1) ++ ": Missing required fields"])
    else if students.any (fun s => s.roll_no == roll_no) then
      (newStudents,
        errors ++ ["Row " ++ toString (i + 1) ++ ": Roll number " ++ roll_no ++ " already exists"])
    else
      (newStudents ++
        [{ id := importId students newStudents, name := name, roll_no := roll_no,
           class_ := class_, parent_phone := parent_phone, photo := "default.jpg" }],
       errors)

/-- The row loop `for (let i = 1; i < lines.length; i++)` (line 879), started at index `i`
on the remaining lines. -/
def importRows (students : List Student) (headers : List String) :
    Nat → List String → List Student → List String → List Student × List String
  | _, [], newStudents, errors => (newStudents, errors)
  | i, line :: rest, newStudents, errors =>
    let r := importRow students headers i line newStudents errors
    importRows students headers (i + 1) rest r.1 r.2

/-- The method `parseCSVData` (lines 860-924) on the roster. -/
def parseCSVData (students : List Student) (csvText : String) : ImportResult :=
  let lines := (splitOn '\n' csvText).filter (fun line => jsTrim line != "")
  match lines with
  | [] | [_] =>
    { students := students
      toasts := [⟨"CSV file must have at least a header and one data row", "error"⟩]
      errors := [], newStudents := [], saved := false }
  | header :: rows =>
    let headers := (splitOn ',' header).map (fun h => toLowerCase (jsTrim h))
    let missingHeaders := requiredHeaders.filter (fun h => !headers.contains h)
    if missingHeaders.length > 0 then
      { students := students
        toasts := [⟨"Missing required columns: " ++ ", ".intercalate missingHeaders, "error"⟩]
        errors := [], newStudents := [], saved := false }
    else
      let r := importRows students headers 1 rows [] []
      let newStudents := r.1
      let errors := r.2
      { students := if newStudents.length > 0 then students ++ newStudents else students
        toasts :=
          (if newStudents.length > 0 then
            [⟨"Successfully imported " ++ toString newStudents.length ++ " students", "success"⟩]
           else []) ++
          (if errors.length > 0 then
            [⟨"Import completed with " ++ toString errors.length ++
                " errors. Check console for details.", "warning"⟩]
           else [])
        errors := errors
        newStudents := newStudents
        saved := decide (newStudents.length > 0) }

/-- No two students of the roster share a roll number. -/
def rollNosUnique (students : List Student) : Prop :=
  (students.map (fun s => s.roll_no)).Nodup

/-- The ids of the roster are pairwise distinct. -/
def idsUnique (students : List Student) : Prop :=
  (students.map (fun s => s.id)).Nodup

instance (students : List Student) : Decidable (rollNosUnique students) := by
  unfold rollNosUnique; infer_instance

instance (students : List Student) : Decidable (idsUnique students) := by
  unfold idsUnique; infer_instance

/-- Every id of the roster is a safe integer. -/
def safeIds (students : List Student) : Prop :=
  ∀ s ∈ students, isSafeInteger s.id

instance (students : List Student) : Decidable (safeIds students) := by
  unfold safeIds; infer_instance

/-! ## Example data -/

/-- A one-student roster. -/
def exampleRoster : List Student :=
  [{ id := 1, name := "Asha", roll_no := "R1", class_ := "10A", parent_phone := "+919876543210",
     photo := "default.jpg" }]

/-- A proposal whose first item names nobody of `exampleRoster`. -/
def exampleItems : List AttendanceItem :=
  [{ studentName := "Ghost", isPresent := true, confidence := 901 },
   { studentName := "Asha", isPresent := true, confidence := 912 }]

/-! ## Conditions and example data for `saveStudent` and `parseCSVData` -/

/-- The four emptiness tests of line 766 all pass: `name`, `rollNo` and `parentPhone`
after `trim()`, `studentClass` as read. -/
def fieldsFilled (form : StudentForm) : Prop :=
  jsTrim form.studentName ≠ "" ∧ jsTrim form.rollNumber ≠ "" ∧ form.studentClass ≠ "" ∧
    jsTrim form.parentPhone ≠ ""

instance (form : StudentForm) : Decidable (fieldsFilled form) := by
  unfold fieldsFilled; infer_instance

/-- Whether `saveStudent` reported an error to its caller: an `error` toast was shown. -/
def reportsError (r : SaveResult) : Bool :=
  match r.toast with
  | some t => t.type == "error"
  | none => false

/-- The toast of the duplicate check (line 774). -/
def duplicateRollToast : Toast := ⟨"Roll number already exists", "error"⟩

/-- The toast of a successful add (line 805). -/
def addedToast : Toast := ⟨"Student added successfully!", "success"⟩

/-- An add-mode form with a well-shaped phone number that starts with `0`. -/
def leadingZeroForm : StudentForm :=
  { studentId := none, studentName := "Bob", rollNumber := "R7", studentClass := "10A",
    parentPhone := "0123456789" }

/-- An add-mode form whose name has surrounding blanks. -/
def paddedNameForm : StudentForm :=
  { studentId := none, studentName := " Bob ", rollNumber := "R7", studentClass := "10A",
    parentPhone := "9876543210" }

/-- An add-mode form with a punctuated phone number. -/
def punctuatedPhoneForm : StudentForm :=
  { studentId := none, studentName := " Bob ", rollNumber := "R7", studentClass := "10A",
    parentPhone := "(+91) 98765-43210" }

/-- A roster whose only student has the id `0`. -/
def zeroIdRoster : List Student :=
  [{ id := 0, name := "Zed", roll_no := "R1", class_ := "9B", parent_phone := "5550100",
     photo := "default.jpg" }]

/-- A roster whose only student has the id `2 ^ 53 = 9007199254740992`, the first integer
whose successor is not a double. -/
def largeIdRoster : List Student :=
  [{ id := 9007199254740992, name := "Zed", roll_no := "R1", class_ := "9B",
     parent_phone := "5550100", photo := "default.jpg" }]

/-- An add-mode form without surrounding blanks, with a phone of ten digits and a roll
number that no example roster holds. -/
def plainForm : StudentForm :=
  { studentId := none, studentName := "Mira", rollNumber := "R9", studentClass := "10B",
    parentPhone := "9988776655" }

/-- A CSV text with three rows that carry the new roll numbers `R2`, `R3` and `R4`. -/
def threeRowCsv : String :=
  "Name,Roll No,Class,Parent Phone\nRavi,R2,10A,9123456780\nMira,R3,10B,9988776655\nIla,R4,10B,9000000004\n"

/-- A CSV text whose only data row repeats the roll number `R1` and has an empty name. -/
def emptyNameDuplicateCsv : String :=
  "Name,Roll No,Class,Parent Phone\n,R1,10A,9876543210\n"

/-- A CSV text whose only data row repeats the roll number `R1` and has three values
under a header of four columns. -/
def shortDuplicateCsv : String :=
  "Name,Roll No,Class,Parent Phone\nAsha,R1,10A\n"

/-- An add-mode form that reuses the roll number `R1`. -/
def duplicateRollForm : StudentForm :=
  { studentId := none, studentName := "Mira", rollNumber := "R1", studentClass := "10A",
    parentPhone := "9876543210" }

/-- An edit-mode form for the id `5`, which no student of `exampleRoster` has. -/
def unknownIdForm : StudentForm :=
  { studentId := some 5, studentName := "Mira", rollNumber := "R5", studentClass := "10A",
    parentPhone := "9876543210" }

/-- A two-student roster. -/
def twoStudentRoster : List Student :=
  [{ id := 1, name := "Asha", roll_no := "R1", class_ := "10A", parent_phone := "+919876543210",
     photo := "default.jpg" },
   { id := 2, name := "Ravi", roll_no := "R2", class_ := "10A", parent_phone := "9123456780",
     photo := "default.jpg" }]

/-- An edit-mode form for the student with id `2` that takes over the roll number `R1`. -/
def takeOverRollForm : StudentForm :=
  { studentId := some 2, studentName := "Ravi", rollNumber := "R1", studentClass := "10A",
    parentPhone := "9123456780" }

/-- An edit-mode form for the student with id `2` that keeps its roll number `R2`. -/
def keepRollForm : StudentForm :=
  { studentId := some 2, studentName := "Ravi Kumar", rollNumber := "R2", studentClass := "10B",
    parentPhone := "9123456780" }

/-- A CSV text whose two data rows carry the same new roll number `R2`. -/
def sameRollTwiceCsv : String :=
  "Name,Roll No,Class,Parent Phone\nRavi,R2,10A,9123456780\nMira,R2,10B,9988776655\n"

/-- A CSV text with two rows of new roll numbers and one row that repeats `R1`. -/
def exampleCsv : String :=
  "Name,Roll No,Class,Parent Phone\nRavi,R2,10A,9123456780\nAsha,R1,10A,1\nMira,R3,10B,9988776655\n"

/-! ## Statistics engine: `updateStats` and `updateAttendanceTrends` -/

/-- A non-negative IEEE-754 double in the normal range, as the fraction `num / den` of
two naturals (`den` is a power of two). -/
structure Double where
  num : Nat
  den : Nat
deriving DecidableEq, Repr

/-- The value of a `Double`. -/
def Double.toRat (x : Double) : ℚ := (x.num : ℚ) / (x.den : ℚ)

/-- The double nearest to `a / b` (`b > 0`), ties to even: the result of the JavaScript
division or multiplication whose exact value is `a / b`. With `la` and `lb` the positions
of the highest bits of `a` and `b`, the quotient is scaled by `2 ^ shift / 2 ^ la` into
`[2 ^ 52, 2 ^ 53)`, rounded to the 53-bit significand and scaled back. Overflow and
subnormals are out of reach of the quotients of array lengths (below `2 ^ 32`) formed by
the source. -/
def nearestDouble (a b : Nat) : Double :=
  if a = 0 then ⟨0, 1⟩
  else
    let la := floorLog2 a
    let lb := floorLog2 b
    let shift := if b * 2 ^ la ≤ a * 2 ^ lb then lb + 52 else lb + 53
    ⟨roundHalfEven (a * 2 ^ shift) (b * 2 ^ la) * 2 ^ la, 2 ^ shift⟩

/-- The JavaScript expression `(presentCount / length) * 100` of lines 87 and 696 on two
array lengths: a rounded division followed by a rounded multiplication. -/
def percentDouble (presentCount length : Nat) : Double :=
  nearestDouble (100 * (nearestDouble presentCount length).num)
    (nearestDouble presentCount length).den

/-- The integer `n` of `Number.prototype.toFixed(1)`: the one for which `n / 10 - x` is
as close to zero as possible, the larger one if there are two. -/
def toFixedTenths (x : Double) : Nat :=
  (20 * x.num + x.den) / (2 * x.den)

/-- The text returned by `toFixed(1)` for the integer `n` of `toFixedTenths`: the decimal
digits of `n` with a point before the last one. -/
def tenthsText (n : Nat) : String :=
  toString (n / 10) ++ "." ++ toString (n % 10)

/-- The value stored in `attendance_rate`: the number `0` (lines 87 and 91), or the
string returned by `toFixed(1)`, kept as its number of tenths. -/
inductive Rate where
  | zero : Rate
  | fixed (tenths : Nat) : Rate
deriving DecidableEq, Repr

/-- The numeric value of a `Rate`, in tenths of a percent. -/
def Rate.tenths : Rate → Nat
  | Rate.zero => 0
  | Rate.fixed t => t

/-- The text shown for a `Rate`: `0` for the number, the `toFixed(1)` string otherwise. -/
def Rate.text : Rate → String
  | Rate.zero => "0"
  | Rate.fixed t => tenthsText t

/-- The object `this.currentStats`. -/
structure Stats where
  today_present : Nat
  today_absent : Int
  attendance_rate : Rate
  total_days : Nat
  sms_sent_today : Nat
  ai_accuracy : Nat
deriving DecidableEq, Repr

/-- The initial `currentStats` of the constructor (lines 6-13). -/
def initialStats : Stats :=
  { today_present := 0, today_absent := 0, attendance_rate := Rate.zero, total_days := 0,
    sms_sent_today := 0, ai_accuracy := 0 }

/-- The count `records.filter(r => r.status === status).length`. -/
def countStatus (status : String) (records : List AttendanceRecord) : Nat :=
  (records.filter (fun r => r.status == status)).length

/-- The size of `new Set(xs)`: elements are inserted one by one, an element already in
the set is not inserted again. -/
def setSize (xs : List String) : Nat :=
  (xs.foldl (fun seen x => if x ∈ seen then seen else seen ++ [x]) []).length

/-- The method `updateStats` (lines 78-96); `today` is the ISO date of `new Date()`. -/
def updateStats (currentStats : Stats) (students : List Student)
    (attendanceRecords : List AttendanceData) (today : String) : Stats :=
  let todayRecords := attendanceRecords.filter (fun record => record.date == today)
  let total_days := setSize (attendanceRecords.map (fun r => r.date))
  match todayRecords with
  | first :: _ =>
    let presentCount := countStatus "present" first.records
    { currentStats with
      today_present := presentCount
      today_absent := (students.length : Int) - (presentCount : Int)
      attendance_rate :=
        if students.length > 0 then
          Rate.fixed (toFixedTenths (percentDouble presentCount students.length))
        else Rate.zero
      total_days := total_days
      sms_sent_today := first.records.length }
  | [] =>
    { currentStats with
      today_present := 0
      today_absent := (students.length : Int)
      attendance_rate := Rate.zero
      total_days := total_days
      sms_sent_today := 0 }

/-- Element of `this.attendanceTrends`. -/
structure TrendPoint where
  date : String
  present : Nat
  absent : Nat
deriving DecidableEq, Repr

/-- The body of the loop of `updateAttendanceTrends` (lines 106-113) for one `dateStr`. -/
def trendPoint (attendanceRecords : List AttendanceData) (dateStr : String) : TrendPoint :=
  match attendanceRecords.find? (fun r => r.date == dateStr) with
  | some dayRecords =>
    { date := dateStr
      present := countStatus "present" dayRecords.records
      absent := countStatus "absent" dayRecords.records }
  | none => { date := dateStr, present := 0, absent := 0 }

/-- The loop `for (let i = 6; i >= 0; i--)` of `updateAttendanceTrends`, entered with the
counter `i` and the points pushed so far. `dateStr k` is the text computed in the
iteration `i = k`: the ISO date of `new Date()` moved back `k` days by `setDate`. -/
def trendLoop (attendanceRecords : List AttendanceData) (dateStr : Nat → String) :
    Nat → List TrendPoint → List TrendPoint
  | 0, last7Days => last7Days ++ [trendPoint attendanceRecords (dateStr 0)]
  | i + 1, last7Days =>
    trendLoop attendanceRecords dateStr i
      (last7Days ++ [trendPoint attendanceRecords (dateStr (i + 1))])

/-- The method `updateAttendanceTrends` (lines 98-116): the new `this.attendanceTrends`. -/
def updateAttendanceTrends (attendanceRecords : List AttendanceData)
    (dateStr : Nat → String) : List TrendPoint :=
  trendLoop attendanceRecords dateStr 6 []

/-- Four students, as in the example of spec.md. -/
def fourStudents : List Student :=
  [{ id := 1, name := "A", roll_no := "R1", class_ := "10A", parent_phone := "9000000001",
     photo := "default.jpg" },
   { id := 2, name := "B", roll_no := "R2", class_ := "10A", parent_phone := "9000000002",
     photo := "default.jpg" },
   { id := 3, name := "C", roll_no := "R3", class_ := "10A", parent_phone := "9000000003",
     photo := "default.jpg" },
   { id := 4, name := "D", roll_no := "R4", class_ := "10A", parent_phone := "9000000004",
     photo := "default.jpg" }]

/-- The proposal `A` present, `B` present, `C` absent; `D` has no item. -/
def threeItems : List AttendanceItem :=
  [{ studentName := "A", isPresent := true, confidence := 930 },
   { studentName := "B", isPresent := true, confidence := 887 },
   { studentName := "C", isPresent := false, confidence := 0 }]

/-- The ledger after committing `threeItems` for `2024-01-10` on the empty ledger. -/
def exampleLedger : List AttendanceData :=
  confirmAttendance fourStudents [] "2024-01-10" "2024-01-10T09:00:00.000Z" threeItems

/-- A clock for the examples: today is `2024-01-10`, `k` days back (`k` up to 9) is the
day `10 - k` of January 2024. -/
def exampleDateStr (k : Nat) : String :=
  "2024-01-" ++ (if 10 - k < 10 then "0" else "") ++ toString (10 - k)

/-! ## Row-level reading of `parseCSVData` -/

/-- The lines kept by line 861: the non-blank lines of the text. -/
def csvLines (csvText : String) : List String :=
  (splitOn '\n' csvText).filter (fun line => jsTrim line != "")

/-- The `headers` of line 867, from the first non-blank line. -/
def csvHeaders (csvText : String) : List String :=
  match csvLines csvText with
  | [] => []
  | header :: _ => (splitOn ',' header).map (fun h => toLowerCase (jsTrim h))

/-- The non-blank data rows: the lines after the header line. -/
def csvRows (csvText : String) : List String := (csvLines csvText).tail

/-- A CSV text has a valid header when `parseCSVData` passes both early returns: there
are at least two non-blank lines and no required column is missing. -/
def validHeader (csvText : String) : Bool :=
  decide (2 ≤ (csvLines csvText).length) &&
    requiredHeaders.all (fun h => (csvHeaders csvText).contains h)

/-- The `values` of line 880. -/
def rowValues (line : String) : List String := (splitOn ',' line).map jsTrim

/-- A row has as many values as the header has columns (the test of line 881). -/
def rowFits (headers : List String) (line : String) : Bool :=
  decide ((rowValues line).length = headers.length)

/-- The four fields that the row loop reads from `studentData`. -/
structure Candidate where
  name : String
  roll_no : String
  class_ : String
  parent_phone : String
deriving DecidableEq, Repr

/-- The fields of a row that fits the header. -/
def rowCandidate (headers : List String) (line : String) : Candidate :=
  { name := getField (studentData headers (rowValues line)) "name"
    roll_no := getField (studentData headers (rowValues line)) "roll_no"
    class_ := getField (studentData headers (rowValues line)) "class"
    parent_phone := getField (studentData headers (rowValues line)) "parent_phone" }

/-- No field of the candidate is empty (the test of line 889 fails). -/
def Candidate.filled (c : Candidate) : Bool :=
  c.name != "" && c.roll_no != "" && c.class_ != "" && c.parent_phone != ""

/-- The row is added by the loop: it fits the header, no field is empty and its roll
number is the roll number of no student of `this.students`. -/
def rowAdded (students : List Student) (headers : List String) (line : String) : Bool :=
  rowFits headers line && (rowCandidate headers line).filled &&
    !students.any (fun s => s.roll_no == (rowCandidate headers line).roll_no)

/-- The error pushed for `lines[i]`, if any (lines 890 and 896). -/
def rowError (students : List Student) (headers : List String) (i : Nat) (line : String) :
    Option String :=
  if rowFits headers line then
    if (rowCandidate headers line).filled then
      if students.any (fun s => s.roll_no == (rowCandidate headers line).roll_no) then
        some ("Row " ++ toString (i + 1) ++ ": Roll number " ++
          (rowCandidate headers line).roll_no ++ " already exists")
      else none
    else some ("Row " ++ toString (i + 1) ++ ": Missing required fields")
  else none

/-- The student pushed to `newStudents` for a candidate (lines 901-908). -/
def Candidate.toStudent (c : Candidate) (id : Int) : Student :=
  { id := id, name := c.name, roll_no := c.roll_no, class_ := c.class_,
    parent_phone := c.parent_phone, photo := "default.jpg" }

/-- The fields of a student that come from the CSV row. -/
def Student.candidate (s : Student) : Candidate :=
  { name := s.name, roll_no := s.roll_no, class_ := s.class_, parent_phone := s.parent_phone }

/-- The add-mode form filled with the fields of a candidate. -/
def Candidate.form (c : Candidate) : StudentForm :=
  { studentId := none, studentName := c.name, rollNumber := c.roll_no,
    studentClass := c.class_, parentPhone := c.parent_phone }

/-- The rows entered one after another, in file order, through `saveStudent` in add
mode; a row that does not fit the header has no fields to enter and is passed over. -/
def addRows (headers : List String) : List Student → List String → List Student
  | students, [] => students
  | students, line :: rest =>
    if rowFits headers line then
      addRows headers (saveStudent students (rowCandidate headers line).form).students rest
    else addRows headers students rest

/-- A CSV text with one row that repeats the roll number `R1` of `exampleRoster` and one
row with the new roll number `R2`. -/
def duplicateAndNewCsv : String :=
  "Name,Roll No,Class,Parent Phone\nAsha,R1,10A,9876543210\nRavi,R2,10A,9123456780\n"

/-- A CSV text whose only data row has three values under a header of four columns. -/
def shortRowCsv : String :=
  "Name,Roll No,Class,Parent Phone\nRavi,R2,10A\n"

/-- A CSV text whose only data row has a parent phone that is no phone number. -/
def badPhoneCsv : String :=
  "Name,Roll No,Class,Parent Phone\nRavi,R2,10A,not-a-phone\n"

/-! ## Application state: the stores, the statistics and the operations on them -/

/-- The object `this.settings` (lines 18-27); `recognitionThreshold` is kept in
hundredths (`0.85` is `85`). -/
structure Settings where
  schoolName : String
  principalName : String
  schoolAddress : String
  recognitionThreshold : Nat
  antiSpoofingLevel : String
  smsEnabled : Bool
  dailyReports : Bool
  weeklyReports : Bool
deriving DecidableEq, Repr

/-- The data fields of an `AttendanceApp` object: the three stores, `currentStats` and
`attendanceTrends`. -/
structure App where
  students : List Student
  currentStats : Stats
  attendanceTrends : List TrendPoint
  attendanceRecords : List AttendanceData
  settings : Settings
deriving DecidableEq, Repr

/-- The settings assigned by the constructor. -/
def defaultSettings : Settings :=
  { schoolName := "School Name", principalName := "Principal Name",
    schoolAddress := "School Address", recognitionThreshold := 85,
    antiSpoofingLevel := "medium", smsEnabled := true, dailyReports := true,
    weeklyReports := false }

/-- The fields assigned by the constructor (lines 5-27), before `loadData` runs. -/
def initialApp : App :=
  { students := [], currentStats := initialStats, attendanceTrends := [],
    attendanceRecords := [], settings := defaultSettings }

/-- The method `saveStudent` on the whole object: the roster is replaced by the roster of
`saveStudent`, and when control reaches the block of lines 808-813, `updateStats` runs on
the new roster (`saveData`, `closeModal` and the renderers change no field). Returns the
object afterwards and the toast shown. -/
def App.saveStudent (app : App) (form : StudentForm) (today : String) : App × Option Toast :=
  let r := AttendanceApp.saveStudent app.students form
  let app₁ := { app with students := r.students }
  if r.saved then
    ({ app₁ with
        currentStats := updateStats app₁.currentStats app₁.students app₁.attendanceRecords today },
      r.toast)
  else (app₁, r.toast)

/-- The method `parseCSVData` on the whole object: the roster is replaced by the roster
of `parseCSVData`, and `updateStats` runs inside the block of lines 911-918, entered when
some student was added. Returns the object afterwards and the toasts shown. -/
def App.parseCSVData (app : App) (csvText : String) (today : String) : App × List Toast :=
  let r := AttendanceApp.parseCSVData app.students csvText
  let app₁ := { app with students := r.students }
  if r.saved then
    ({ app₁ with
        currentStats := updateStats app₁.currentStats app₁.students app₁.attendanceRecords today },
      r.toasts)
  else (app₁, r.toasts)

/-- The method `confirmAttendance` on the whole object (lines 612-619): the ledger is
replaced, then `updateStats` and `updateAttendanceTrends` run on the new ledger. -/
def App.confirmAttendance (app : App) (today now : String) (dateStr : Nat → String)
    (items : List AttendanceItem) : App :=
  let app₁ :=
    { app with
      attendanceRecords :=
        AttendanceApp.confirmAttendance app.students app.attendanceRecords today now items }
  let app₂ :=
    { app₁ with
      currentStats := updateStats app₁.currentStats app₁.students app₁.attendanceRecords today }
  { app₂ with attendanceTrends := updateAttendanceTrends app₂.attendanceRecords dateStr }

/-- The four fields of `currentStats` that are derived from the roster, the ledger and
the date: `today_present`, `today_absent`, `attendance_rate` and `total_days`. -/
def Stats.derived (s : Stats) : Nat × Int × Rate × Nat :=
  (s.today_present, s.today_absent, s.attendance_rate, s.total_days)

/-- The stored statistics of the object are what `updateStats` computes afresh from its
roster and ledger. -/
def statsFresh (app : App) (today : String) : Prop :=
  app.currentStats.derived =
    (updateStats initialStats app.students app.attendanceRecords today).derived

/-- The stored trends of the object are what `updateAttendanceTrends` computes afresh
from its ledger. -/
def trendsFresh (app : App) (dateStr : Nat → String) : Prop :=
  app.attendanceTrends = updateAttendanceTrends app.attendanceRecords dateStr

instance (app : App) (today : String) : Decidable (statsFresh app today) := by
  unfold statsFresh; infer_instance

/-! ## Per-student attendance rate of `renderStudents` -/

/-- The `studentRecords` of lines 692-694 for the student with the given id. -/
def studentRecords (attendanceRecords : List AttendanceData) (id : Int) :
    List AttendanceRecord :=
  attendanceRecords.flatMap (fun day => day.records.filter (fun record => record.student_id == id))

/-- The `attendanceRate` of line 696: the number `0` without records, the `toFixed(1)`
string of `presentCount / studentRecords.length * 100` otherwise. -/
def studentAttendanceRate (attendanceRecords : List AttendanceData) (id : Int) : Rate :=
  let records := studentRecords attendanceRecords id
  let presentCount := countStatus "present" records
  if records.length > 0 then Rate.fixed (toFixedTenths (percentDouble presentCount records.length))
  else Rate.zero

/-- An edit-mode form for the student with id `1` whose name is blank. -/
def blankNameForm : StudentForm :=
  { studentId := some 1, studentName := "   ", rollNumber := "R1", studentClass := "10A",
    parentPhone := "9876543210" }

/-- An application state with `twoStudentRoster`, the ledger `exampleLedger` and the
statistics and trends computed for the clock `exampleDateStr`. -/
def exampleApp : App :=
  { students := twoStudentRoster
    currentStats := updateStats initialStats twoStudentRoster exampleLedger "2024-01-10"
    attendanceTrends := updateAttendanceTrends exampleLedger exampleDateStr
    attendanceRecords := exampleLedger
    settings := defaultSettings }

/-- The toast of the empty-field check (line 767). -/
def missingFieldsToast : Toast := ⟨"Please fill in all required fields", "error"⟩

/-- The toast of the phone check (line 781). -/
def invalidPhoneToast : Toast := ⟨"Please enter a valid phone number", "error"⟩

/-- The toast of a successful edit (line 799). -/
def updatedToast : Toast := ⟨"Student updated successfully!", "success"⟩

/-- An edit-mode form for the student with id `2` with a phone that starts with `0`. -/
def badPhoneEditForm : StudentForm :=
  { studentId := some 2, studentName := "Ravi", rollNumber := "R2", studentClass := "10A",
    parentPhone := "0123456789" }

instance (app : App) (dateStr : Nat → String) : Decidable (trendsFresh app dateStr) := by
  unfold trendsFresh; infer_instance

/-! ## The clock of `updateAttendanceTrends`: ECMAScript time values and dates -/

/-- ECMAScript `msPerDay`. -/
def msPerDay : Int := 86400000

/-- ECMAScript `Day(t)`: the day number of the time value `t`, the number of milliseconds
since 1970-01-01T00:00:00Z (floor division). -/
def Day (t : Int) : Int := t / msPerDay

/-- ECMAScript `TimeWithinDay(t)`. -/
def TimeWithinDay (t : Int) : Int := t % msPerDay

/-- ECMAScript `DaysInYear(y)`. -/
def DaysInYear (y : Int) : Int :=
  if y % 4 ≠ 0 then 365 else if y % 100 ≠ 0 then 366 else if y % 400 ≠ 0 then 365 else 366

/-- ECMAScript `DayFromYear(y)`: the day number of the first day of year `y`. -/
def DayFromYear (y : Int) : Int :=
  365 * (y - 1970) + (y - 1969) / 4 - (y - 1901) / 100 + (y - 1601) / 400

/-- ECMAScript `YearFromTime(t)`: the largest `y` with `DayFromYear y ≤ Day t`. It is
found from the estimate `1970 + 400 * Day t / 146097` (a year has 146097 / 400 days on
average), which is off by at most one. -/
def YearFromTime (t : Int) : Int :=
  let y := 1970 + 400 * Day t / 146097
  if Day t < DayFromYear y then y - 1
  else if DayFromYear (y + 1) ≤ Day t then y + 1
  else y

/-- ECMAScript `InLeapYear(t)`. -/
def InLeapYear (t : Int) : Int := if DaysInYear (YearFromTime t) = 366 then 1 else 0

/-- ECMAScript `DayWithinYear(t)`. -/
def DayWithinYear (t : Int) : Int := Day t - DayFromYear (YearFromTime t)

/-- The day within the year on which month `m` (from `0` for January) starts, in a year
with `leap` extra days: the bounds of the table of `MonthFromTime`. -/
def monthStart (m leap : Int) : Int :=
  if m = 0 then 0 else if m = 1 then 31 else if m = 2 then 59 + leap
  else if m = 3 then 90 + leap else if m = 4 then 120 + leap else if m = 5 then 151 + leap
  else if m = 6 then 181 + leap else if m = 7 then 212 + leap else if m = 8 then 243 + leap
  else if m = 9 then 273 + leap else if m = 10 then 304 + leap else 334 + leap

/-- ECMAScript `MonthFromTime(t)`, from `0` for January to `11` for December. -/
def MonthFromTime (t : Int) : Int :=
  let d := DayWithinYear t
  let leap := InLeapYear t
  if d < 31 then 0 else if d < 59 + leap then 1 else if d < 90 + leap then 2
  else if d < 120 + leap then 3 else if d < 151 + leap then 4 else if d < 181 + leap then 5
  else if d < 212 + leap then 6 else if d < 243 + leap then 7 else if d < 273 + leap then 8
  else if d < 304 + leap then 9 else if d < 334 + leap then 10 else 11

/-- ECMAScript `DateFromTime(t)`: the day of the month, from `1`. -/
def DateFromTime (t : Int) : Int :=
  DayWithinYear t - monthStart (MonthFromTime t) (InLeapYear t) + 1

/-- ECMAScript `MakeDay(year, month, date)` on integers: the day number of the first day
of the month `month mod 12` of the year `year + floor(month / 12)`, plus `date - 1`. -/
def MakeDay (year month date : Int) : Int :=
  let ym := year + month / 12
  let mn := month % 12
  DayFromYear ym + monthStart mn (if DaysInYear ym = 366 then 1 else 0) + date - 1

/-- ECMAScript `MakeDate(day, time)`. -/
def MakeDate (day time : Int) : Int := day * msPerDay + time

/-- ECMAScript `TimeClip(time)`: `none` stands for `NaN`, the result for a magnitude above
`8.64e15`. -/
def TimeClip (time : Int) : Option Int :=
  if time.natAbs ≤ 8640000000000000 then some time else none

/-- The time zone of the host: the offset from UTC in milliseconds before the first
transition, and the transitions in ascending order, each with the UTC time value at which
it happens and the offset in force from then on. -/
structure TimeZone where
  standardOffset : Int
  transitions : List (Int × Int)
deriving DecidableEq, Repr

/-- ECMAScript `LocalTZA(t, true)`: the offset in force at the UTC time value `t`. -/
def TimeZone.offsetAtUTC (zone : TimeZone) (t : Int) : Int :=
  zone.transitions.foldl (fun offset tr => if tr.1 ≤ t then tr.2 else offset)
    zone.standardOffset

/-- ECMAScript `LocalTZA(t, false)`: the offset for the local time value `t`. A local time
that a transition skips or repeats is read with the offset before the transition, so a
transition counts only when `t` lies behind it under the old and under the new offset. -/
def TimeZone.offsetAtLocal (zone : TimeZone) (t : Int) : Int :=
  zone.transitions.foldl
    (fun offset tr => if tr.1 ≤ t - offset ∧ tr.1 ≤ t - tr.2 then tr.2 else offset)
    zone.standardOffset

/-- ECMAScript `LocalTime(t)`. -/
def LocalTime (zone : TimeZone) (t : Int) : Int := t + zone.offsetAtUTC t

/-- ECMAScript `UTC(t)`. -/
def UTC (zone : TimeZone) (t : Int) : Int := t - zone.offsetAtLocal t

/-- The method `Date.prototype.getDate` on the time value `tv`. -/
def getDate (zone : TimeZone) (tv : Int) : Int := DateFromTime (LocalTime zone tv)

/-- The method `Date.prototype.setDate(date)` on the time value `tv`: the new time value,
`none` for `NaN`. -/
def setDate (zone : TimeZone) (tv date : Int) : Option Int :=
  let t := LocalTime zone tv
  let newDate := MakeDate (MakeDay (YearFromTime t) (MonthFromTime t) date) (TimeWithinDay t)
  TimeClip (UTC zone newDate)

/-- The decimal digit for `n mod 10`. -/
def digitChar (n : Nat) : Char := Char.ofNat (48 + n % 10)

/-- The last `width` decimal digits of `n`, with leading zeros. -/
def padDigits : Nat → Nat → List Char
  | 0, _ => []
  | width + 1, n => padDigits width (n / 10) ++ [digitChar n]

/-- The date part `YYYY-MM-DD` of `toISOString`; a year outside `0 ... 9999` is written
with a sign and six digits. -/
def dateChars (tv : Int) : List Char :=
  (if 0 ≤ YearFromTime tv ∧ YearFromTime tv ≤ 9999 then padDigits 4 (YearFromTime tv).toNat
   else (if YearFromTime tv < 0 then '-' else '+') :: padDigits 6 (YearFromTime tv).natAbs) ++
  '-' :: padDigits 2 (MonthFromTime tv + 1).toNat ++
  '-' :: padDigits 2 (DateFromTime tv).toNat

/-- The time part `HH:mm:ss.sss` of `toISOString`. -/
def timeChars (tv : Int) : List Char :=
  padDigits 2 (tv / 3600000 % 24).toNat ++ ':' :: padDigits 2 (tv / 60000 % 60).toNat ++
  ':' :: padDigits 2 (tv / 1000 % 60).toNat ++ '.' :: padDigits 3 (tv % 1000).toNat

/-- The method `Date.prototype.toISOString` on a time value that is not `NaN`. -/
def toISOString (tv : Int) : String := ⟨dateChars tv ++ 'T' :: timeChars tv ++ ['Z']⟩

/-- The expression `date.toISOString().split('T')[0]` on a date with the time value `tv`
(lines 79, 104 and 581). -/
def isoDate (tv : Int) : String := (splitOn 'T' (toISOString tv)).headD ""

/-- The ISO date of the day with the day number `d`. -/
def isoDateOfDay (d : Int) : String := isoDate (d * msPerDay)

/-- The `dateStr` of lines 102-104 in the iteration `i`, where `new Date()` has the time
value `now`; `none` when `toISOString` throws a `RangeError` on `NaN`. -/
def loopDateStr (zone : TimeZone) (now : Int) (i : Nat) : Option String :=
  (setDate zone now (getDate zone now - (i : Int))).map isoDate

/-- The method `updateAttendanceTrends` with its clock: `now i` is the time value that
`new Date()` gives in the iteration `i`. The result is the new `this.attendanceTrends`, or
`none` when an iteration throws and the assignment of line 115 is not reached. -/
def updateAttendanceTrendsAt (zone : TimeZone) (now : Nat → Int)
    (attendanceRecords : List AttendanceData) : Option (List TrendPoint) :=
  if (List.range 7).all (fun i => (loopDateStr zone (now i) i).isSome) then
    some (updateAttendanceTrends attendanceRecords
      (fun i => (loopDateStr zone (now i) i).getD ""))
  else none

/-- The time zone `Europe/Berlin` around March 2025: one hour ahead of UTC until
2025-03-30T01:00:00Z, two hours from then on. -/
def berlin : TimeZone :=
  { standardOffset := 3600000, transitions := [(1743296400000, 7200000)] }

/-- A host without transitions, five and a half hours ahead of UTC (`Asia/Kolkata`). -/
def kolkata : TimeZone := { standardOffset := 19800000, transitions := [] }

/-- The time value of 2025-03-30T23:30:00.000Z. -/
def lateMarchNow : Int := 1743377400000

/-- A ledger with one session, dated `2025-03-30`, with two entries present and one
absent. -/
def marchLedger : List AttendanceData :=
  confirmAttendance fourStudents [] "2025-03-30" "2025-03-30T09:00:00.000Z" threeItems

/-! ## Ledger lemmas -/

theorem buildRecords_filter_resolves (students : List Student) (now : String)
    (items : List AttendanceItem) :
    buildRecords students now (items.filter (resolves students)) =
      buildRecords students now items := by
  induction items with
  | nil => rfl
  | cons item rest ih =>
    cases h : students.find? (fun s => s.name == item.studentName) with
    | none =>
      have hr : resolves students item = false := by simp [resolves, h]
      simp [List.filter_cons, hr, buildRecords, h, ih]
    | some st =>
      have hr : resolves students item = true := by simp [resolves, h]
      simp [List.filter_cons, hr, buildRecords, h, ih]

theorem buildRecords_names (students : List Student) (now : String)
    (items : List AttendanceItem) :
    (buildRecords students now items).map (fun r => r.student_name) =
      (items.filter (resolves students)).map (fun i => i.studentName) := by
  induction items with
  | nil => rfl
  | cons item rest ih =>
    cases h : students.find? (fun s => s.name == item.studentName) with
    | none =>
      have hr : resolves students item = false := by simp [resolves, h]
      simp [List.filter_cons, hr, buildRecords, h, ih]
    | some st =>
      have hr : resolves students item = true := by simp [resolves, h]
      have hn : st.name = item.studentName := by
        have := List.find?_some h
        simpa using this
      simp [List.filter_cons, hr, buildRecords, h, ih, hn]

theorem confirmAttendance_dates (students : List Student) (ledger : List AttendanceData)
    (today now : String) (items : List AttendanceItem) :
    (confirmAttendance students ledger today now items).map (fun r => r.date) =
      (ledger.map (fun r => r.date)).filter (fun d => d != today) ++ [today] := by
  simp [confirmAttendance, attendanceData, List.filter_map, Function.comp_def]

theorem confirmAttendance_dates_nodup (students : List Student) (ledger : List AttendanceData)
    (today now : String) (items : List AttendanceItem)
    (h : (ledger.map (fun r => r.date)).Nodup) :
    ((confirmAttendance students ledger today now items).map (fun r => r.date)).Nodup := by
  rw [confirmAttendance_dates]
  refine List.Nodup.append (h.filter _) (List.nodup_singleton _) ?_
  intro d hd hd'
  simp at hd hd'
  exact hd.2 hd'

theorem commitAll_dates_nodup (calls : List Commit) (ledger : List AttendanceData)
    (h : (ledger.map (fun r => r.date)).Nodup) :
    ((commitAll ledger calls).map (fun r => r.date)).Nodup := by
  induction calls generalizing ledger with
  | nil => simpa [commitAll] using h
  | cons c rest ih =>
    simp only [commitAll, List.foldl_cons]
    exact ih _ (confirmAttendance_dates_nodup c.students ledger c.today c.now c.items h)

theorem confirmAttendance_filter_today (students : List Student) (ledger : List AttendanceData)
    (today now : String) (items : List AttendanceItem) :
    (confirmAttendance students ledger today now items).filter (fun r => r.date == today) =
      [attendanceData students today now items] := by
  simp [confirmAttendance, attendanceData, List.filter_filter]

theorem sessionForDate_confirmAttendance (students : List Student)
    (ledger : List AttendanceData) (today now : String) (items : List AttendanceItem) :
    sessionForDate (confirmAttendance students ledger today now items) today =
      some (attendanceData students today now items) := by
  simp [sessionForDate, confirmAttendance, attendanceData, List.find?_append]

/-! ## Roster lemmas: ids -/

theorem mathMax_cons (first x : Int) (rest : List Int) :
    mathMax first (x :: rest) = mathMax (max first x) rest := rfl

theorem le_mathMax_first (first : Int) (rest : List Int) : first ≤ mathMax first rest := by
  induction rest generalizing first with
  | nil => simp [mathMax]
  | cons x rest ih =>
    rw [mathMax_cons]
    exact le_trans (le_max_left first x) (ih _)

theorem le_mathMax_of_mem (first : Int) (rest : List Int) (x : Int) (hx : x ∈ rest) :
    x ≤ mathMax first rest := by
  induction rest generalizing first with
  | nil => cases hx
  | cons y rest ih =>
    rw [mathMax_cons]
    rcases List.mem_cons.mp hx with h | h
    · subst h
      exact le_trans (le_max_right first x) (le_mathMax_first _ _)
    · exact ih _ h

theorem mathMax_mem (first : Int) (rest : List Int) :
    mathMax first rest ∈ first :: rest := by
  induction rest generalizing first with
  | nil => simp [mathMax]
  | cons x rest ih =>
    rw [mathMax_cons]
    have h := ih (max first x)
    rcases List.mem_cons.mp h with h | h
    · rcases max_choice first x with hm | hm
      · rw [h, hm]; simp
      · rw [h, hm]; simp
    · exact List.mem_cons_of_mem _ (List.mem_cons_of_mem _ h)

theorem nearestInteger_of_le (z : Int) (h1 : -(2 ^ 53) ≤ z) (h2 : z ≤ 2 ^ 53) :
    nearestInteger z = z := by
  unfold nearestInteger
  by_cases h : z.natAbs < 2 ^ 53
  · rw [if_pos h]
  · have hz : z = 2 ^ 53 ∨ z = -(2 ^ 53) := by omega
    rcases hz with hz | hz <;> subst hz <;> decide

theorem numberAdd_of_le (a b : Int) (h1 : -(2 ^ 53) ≤ a + b) (h2 : a + b ≤ 2 ^ 53) :
    numberAdd a b = a + b :=
  nearestInteger_of_le (a + b) h1 h2

theorem mathMax_safe (t : Student) (rest : List Student) (hsafe : safeIds (t :: rest)) :
    isSafeInteger (mathMax t.id (rest.map (fun u => u.id))) := by
  have hmem := mathMax_mem t.id (rest.map (fun u => u.id))
  rcases List.mem_cons.mp hmem with h | h
  · rw [h]; exact hsafe t (List.mem_cons_self _ _)
  · obtain ⟨u, hu, hue⟩ := List.mem_map.mp h
    rw [← hue]; exact hsafe u (List.mem_cons_of_mem _ hu)

theorem newId_nil : newId [] = 1 := rfl

theorem newId_cons (t : Student) (rest : List Student) (hsafe : safeIds (t :: rest)) :
    newId (t :: rest) = mathMax t.id (rest.map (fun u => u.id)) + 1 := by
  have h := mathMax_safe t rest hsafe
  unfold isSafeInteger at h
  simp only [newId]
  exact numberAdd_of_le _ _ (by omega) (by omega)

theorem newId_bounds (students : List Student) (hsafe : safeIds students) :
    -(2 ^ 53) < newId students ∧ newId students ≤ 2 ^ 53 := by
  cases students with
  | nil => rw [newId_nil]; decide
  | cons t rest =>
    have h := mathMax_safe t rest hsafe
    unfold isSafeInteger at h
    rw [newId_cons t rest hsafe]
    omega

theorem id_lt_newId (students : List Student) (hsafe : safeIds students) (s : Student)
    (hs : s ∈ students) : s.id < newId students := by
  cases students with
  | nil => cases hs
  | cons t rest =>
    rw [newId_cons t rest hsafe]
    rcases List.mem_cons.mp hs with h | h
    · subst h
      have := le_mathMax_first s.id (rest.map (fun t => t.id))
      omega
    · have := le_mathMax_of_mem t.id (rest.map (fun t => t.id)) s.id
        (List.mem_map_of_mem (fun t => t.id) h)
      omega

theorem newId_eq_max_succ (students : List Student) (hsafe : safeIds students)
    (hne : students ≠ []) :
    ∃ m ∈ students.map (fun s => s.id),
      (∀ i ∈ students.map (fun s => s.id), i ≤ m) ∧ newId students = m + 1 := by
  cases students with
  | nil => exact absurd rfl hne
  | cons t rest =>
    refine ⟨mathMax t.id (rest.map (fun (u : Student) => u.id)), ?_, ?_,
      newId_cons t rest hsafe⟩
    · simpa using mathMax_mem t.id (rest.map (fun t => t.id))
    · intro i hi
      simp only [List.map_cons, List.mem_cons] at hi
      rcases hi with h | h
      · rw [h]; exact le_mathMax_first _ _
      · exact le_mathMax_of_mem _ _ _ h

theorem importId_eq (students newStudents : List Student) (hsafe : safeIds students)
    (hroom : newId students + (newStudents.length : Int) ≤ 2 ^ 53) :
    importId students newStudents = newId students + (newStudents.length : Int) := by
  have hb := newId_bounds students hsafe
  cases students with
  | nil =>
    rw [newId_nil] at hroom ⊢
    simp only [importId]
    rw [numberAdd_of_le _ _ (by omega) (by omega)]
    omega
  | cons t rest =>
    rw [newId_cons t rest hsafe] at hroom hb ⊢
    simp only [importId]
    rw [numberAdd_of_le _ 1 (by omega) (by omega),
      numberAdd_of_le _ _ (by omega) (by omega)]

theorem idsUnique_append_of_lt (students added : List Student) (h : idsUnique students)
    (hadded : (added.map (fun s => s.id)).Nodup)
    (hlt : ∀ a ∈ added, ∀ t ∈ students, t.id < a.id) :
    idsUnique (students ++ added) := by
  unfold idsUnique at *
  rw [List.map_append]
  refine List.Nodup.append h hadded ?_
  intro i hi hi'
  obtain ⟨t, ht, rfl⟩ := List.mem_map.mp hi
  obtain ⟨a, ha, hEq⟩ := List.mem_map.mp hi'
  have := hlt a ha t ht
  omega

/-! ## Roster lemmas: the branches of `saveStudent` -/

theorem saveStudent_duplicate (students : List Student) (form : StudentForm)
    (hf : fieldsFilled form) (s : Student) (hs : s ∈ students)
    (hroll : s.roll_no = jsTrim form.rollNumber) (hid : s.id ≠ form.studentId.getD 0) :
    saveStudent students form =
      { students := students, toast := some ⟨"Roll number already exists", "error"⟩,
        saved := false } := by
  obtain ⟨h1, h2, h3, h4⟩ := hf
  have hfind : (students.find? (fun s => s.roll_no == jsTrim form.rollNumber &&
      s.id != form.studentId.getD 0)).isSome = true := by
    rw [List.find?_isSome]
    exact ⟨s, hs, by simp [hroll, hid]⟩
  obtain ⟨t, ht⟩ := Option.isSome_iff_exists.mp hfind
  simp [saveStudent, h1, h2, h3, h4, ht]

theorem saveStudent_no_duplicate (students : List Student) (form : StudentForm)
    (hf : fieldsFilled form)
    (hnone : ∀ s ∈ students, s.roll_no = jsTrim form.rollNumber → s.id = form.studentId.getD 0) :
    saveStudent students form =
      if !phoneRegexTest (stripPhone (jsTrim form.parentPhone)) then
        { students := students, toast := some ⟨"Please enter a valid phone number", "error"⟩,
          saved := false }
      else
        match form.studentId with
        | some id =>
          match updateFirst id (jsTrim form.studentName) (jsTrim form.rollNumber)
              form.studentClass (jsTrim form.parentPhone) students with
          | some updated =>
            { students := updated
              toast := some ⟨"Student updated successfully!", "success"⟩
              saved := true }
          | none => { students := students, toast := none, saved := true }
        | none =>
          { students := students ++
              [{ id := newId students, name := jsTrim form.studentName,
                 roll_no := jsTrim form.rollNumber, class_ := form.studentClass,
                 parent_phone := jsTrim form.parentPhone, photo := "default.jpg" }]
            toast := some ⟨"Student added successfully!", "success"⟩
            saved := true } := by
  obtain ⟨h1, h2, h3, h4⟩ := hf
  have hfind : students.find? (fun s => s.roll_no == jsTrim form.rollNumber &&
      s.id != form.studentId.getD 0) = none := by
    rw [List.find?_eq_none]
    intro s hs
    simp only [Bool.and_eq_true, beq_iff_eq, bne_iff_ne, ne_eq, not_and, not_not]
    exact hnone s hs
  simp only [saveStudent, h1, h2, h3, h4, hfind, or_self, if_false]

theorem phoneDigits_of_shape (d : Char) (ds : List Char) (hd : '1' ≤ d ∧ d ≤ '9')
    (hds : ∀ c ∈ ds, c.isDigit = true) (hlen : ds.length ≤ 15) :
    phoneDigits (d :: ds) = true := by
  simp only [phoneDigits, Bool.and_eq_true, decide_eq_true_eq, List.all_eq_true]
  exact ⟨⟨hd, hds⟩, hlen⟩

theorem phoneRegexTest_of_shape (s : String) (d : Char) (ds : List Char)
    (hs : s.data = d :: ds ∨ s.data = '+' :: d :: ds) (hd : '1' ≤ d ∧ d ≤ '9')
    (hds : ∀ c ∈ ds, c.isDigit = true) (hlen : ds.length ≤ 15) :
    phoneRegexTest s = true := by
  have hp := phoneDigits_of_shape d ds hd hds hlen
  rcases hs with h | h
  · unfold phoneRegexTest
    rw [h]
    split
    · next rest heq =>
      injection heq with h1 h2
      subst h1
      exact absurd hd.1 (by decide)
    · exact hp
  · unfold phoneRegexTest
    rw [h]
    exact hp

theorem stripPhone_data_ne_nil (p : String) (h : (stripPhone p).data ≠ []) : p ≠ "" := by
  intro hp
  subst hp
  exact h rfl

theorem updateFirst_eq_none (id : Int) (name rollNo studentClass parentPhone : String)
    (students : List Student) (h : ∀ s ∈ students, s.id ≠ id) :
    updateFirst id name rollNo studentClass parentPhone students = none := by
  induction students with
  | nil => rfl
  | cons s rest ih =>
    have hs : s.id ≠ id := h s (List.mem_cons_self _ _)
    simp [updateFirst, hs, ih (fun t ht => h t (List.mem_cons_of_mem _ ht))]

theorem saveStudent_add_cases (students : List Student) (form : StudentForm)
    (hadd : form.studentId = none) :
    ((saveStudent students form).students = students ∧
      (saveStudent students form).saved = false ∧
      ∃ msg, (saveStudent students form).toast = some ⟨msg, "error"⟩) ∨
    (saveStudent students form =
        { students := students ++
            [{ id := newId students, name := jsTrim form.studentName,
               roll_no := jsTrim form.rollNumber, class_ := form.studentClass,
               parent_phone := jsTrim form.parentPhone, photo := "default.jpg" }]
          toast := some addedToast
          saved := true } ∧
      fieldsFilled form ∧
      (∀ s ∈ students, s.roll_no = jsTrim form.rollNumber → s.id = 0) ∧
      phoneRegexTest (stripPhone (jsTrim form.parentPhone)) = true) := by
  by_cases hf : fieldsFilled form
  · by_cases hdup : ∃ s ∈ students, s.roll_no = jsTrim form.rollNumber ∧ s.id ≠ 0
    · obtain ⟨s, hs, hr, hid⟩ := hdup
      left
      rw [saveStudent_duplicate students form hf s hs hr (by simpa [hadd] using hid)]
      exact ⟨rfl, rfl, _, rfl⟩
    · have hnone : ∀ s ∈ students, s.roll_no = jsTrim form.rollNumber → s.id = 0 := by
        intro s hs hr
        by_contra hid
        exact hdup ⟨s, hs, hr, hid⟩
      have hsave := saveStudent_no_duplicate students form hf (by simpa [hadd] using hnone)
      by_cases hp : phoneRegexTest (stripPhone (jsTrim form.parentPhone)) = true
      · right
        refine ⟨?_, hf, hnone, hp⟩
        rw [hsave]
        simp only [hp, hadd, Bool.not_true, Bool.false_eq_true, if_false]
        rfl
      · left
        rw [hsave]
        simp only [hp, Bool.not_false, if_true, Bool.not_eq_true] 
        simp [hp]
  · left
    have h : jsTrim form.studentName = "" ∨ jsTrim form.rollNumber = "" ∨
        form.studentClass = "" ∨ jsTrim form.parentPhone = "" := by
      unfold fieldsFilled at hf
      by_contra hc
      push_neg at hc
      exact hf hc
    simp [saveStudent, h]

theorem updateFirst_rollNos_subset (e : Int) (name rollNo studentClass parentPhone : String)
    (students updated : List Student)
    (hu : updateFirst e name rollNo studentClass parentPhone students = some updated) :
    ∀ r ∈ updated.map (fun s => s.roll_no),
      r = rollNo ∨ r ∈ students.map (fun s => s.roll_no) := by
  induction students generalizing updated with
  | nil => simp [updateFirst] at hu
  | cons s rest ih =>
    by_cases hs : s.id = e
    · simp only [updateFirst, hs, if_true, Option.some.injEq] at hu
      subst hu
      intro r hr
      simp only [List.map_cons, List.mem_cons, mergeStudent] at hr ⊢
      rcases hr with h | h
      · left; exact h
      · right; right; exact h
    · simp only [updateFirst, hs, if_false, Option.map_eq_some'] at hu
      obtain ⟨u, hu1, hu2⟩ := hu
      subst hu2
      intro r hr
      simp only [List.map_cons, List.mem_cons] at hr ⊢
      rcases hr with h | h
      · right; left; exact h
      · rcases ih u hu1 r h with h' | h'
        · left; exact h'
        · right; right; exact h'

theorem updateFirst_rollNosUnique (e : Int) (name rollNo studentClass parentPhone : String)
    (students updated : List Student)
    (hu : updateFirst e name rollNo studentClass parentPhone students = some updated)
    (hids : idsUnique students) (hrolls : rollNosUnique students)
    (hself : ∀ s ∈ students, s.roll_no = rollNo → s.id = e) :
    rollNosUnique updated := by
  induction students generalizing updated with
  | nil => simp [updateFirst] at hu
  | cons s rest ih =>
    unfold idsUnique at hids
    unfold rollNosUnique at hrolls
    simp only [List.map_cons, List.nodup_cons] at hids hrolls
    by_cases hs : s.id = e
    · simp only [updateFirst, hs, if_true, Option.some.injEq] at hu
      subst hu
      unfold rollNosUnique
      simp only [List.map_cons, List.nodup_cons, mergeStudent]
      refine ⟨?_, hrolls.2⟩
      intro hmem
      obtain ⟨t, ht, htr⟩ := List.mem_map.mp hmem
      have hte : t.id = e := hself t (List.mem_cons_of_mem _ ht) htr
      exact hids.1 (List.mem_map.mpr ⟨t, ht, by rw [hte, hs]⟩)
    · simp only [updateFirst, hs, if_false, Option.map_eq_some'] at hu
      obtain ⟨u, hu1, hu2⟩ := hu
      subst hu2
      have hu' : rollNosUnique u :=
        ih u hu1 hids.2 hrolls.2 (fun t ht => hself t (List.mem_cons_of_mem _ ht))
      unfold rollNosUnique at hu' ⊢
      simp only [List.map_cons, List.nodup_cons]
      refine ⟨?_, hu'⟩
      intro hmem
      rcases updateFirst_rollNos_subset e name rollNo studentClass parentPhone rest u hu1
        s.roll_no hmem with h | h
      · exact hs (hself s (List.mem_cons_self _ _) h)
      · exact hrolls.1 h

/-- In add mode `saveStudent` keeps the roll numbers pairwise distinct when no student of
the roster has the id `0`. -/
theorem saveStudent_add_rollNosUnique (students : List Student) (form : StudentForm)
    (hadd : form.studentId = none) (hrolls : rollNosUnique students)
    (hzero : ∀ s ∈ students, s.id ≠ 0) :
    rollNosUnique (saveStudent students form).students := by
  rcases saveStudent_add_cases students form hadd with ⟨h, _⟩ | ⟨h, _, hnone, _⟩
  · rw [h]; exact hrolls
  · rw [h]
    unfold rollNosUnique at hrolls ⊢
    simp only [List.map_append, List.map_cons, List.map_nil]
    refine List.Nodup.append hrolls (List.nodup_singleton _) ?_
    intro r hr hr'
    simp only [List.mem_singleton] at hr'
    obtain ⟨t, ht, htr⟩ := List.mem_map.mp hr
    exact hzero t ht (hnone t ht (by rw [htr, hr']))

/-- In edit mode `saveStudent` keeps the roll numbers pairwise distinct on a roster with
pairwise distinct ids. -/
theorem saveStudent_edit_rollNosUnique (students : List Student) (form : StudentForm)
    (e : Int) (hedit : form.studentId = some e) (hids : idsUnique students)
    (hrolls : rollNosUnique students) :
    rollNosUnique (saveStudent students form).students := by
  by_cases hf : fieldsFilled form
  · by_cases hdup : ∃ s ∈ students, s.roll_no = jsTrim form.rollNumber ∧ s.id ≠ e
    · obtain ⟨s, hs, hr, hid⟩ := hdup
      rw [saveStudent_duplicate students form hf s hs hr (by simpa [hedit] using hid)]
      exact hrolls
    · have hnone : ∀ s ∈ students, s.roll_no = jsTrim form.rollNumber → s.id = e := by
        intro s hs hr
        by_contra hid
        exact hdup ⟨s, hs, hr, hid⟩
      rw [saveStudent_no_duplicate students form hf (by simpa [hedit] using hnone)]
      by_cases hp : phoneRegexTest (stripPhone (jsTrim form.parentPhone)) = true
      · simp only [hp, hedit, Bool.not_true, Bool.false_eq_true, if_false]
        cases hu : updateFirst e (jsTrim form.studentName) (jsTrim form.rollNumber)
          form.studentClass (jsTrim form.parentPhone) students with
        | none => exact hrolls
        | some updated =>
          exact updateFirst_rollNosUnique e _ _ _ _ students updated hu hids hrolls hnone
      · simp only [hp, Bool.not_false, if_true]
        exact hrolls
  · have h : jsTrim form.studentName = "" ∨ jsTrim form.rollNumber = "" ∨
        form.studentClass = "" ∨ jsTrim form.parentPhone = "" := by
      unfold fieldsFilled at hf
      by_contra hc
      push_neg at hc
      exact hf hc
    have hs : (saveStudent students form).students = students := by
      simp [saveStudent, h]
    rw [hs]; exact hrolls

/-! ## Roster lemmas: `parseCSVData` -/

theorem importRow_cases (students : List Student) (headers : List String) (i : Nat)
    (line : String) (newStudents : List Student) (errors : List String) :
    (importRow students headers i line newStudents errors).1 = newStudents ∨
    ∃ st : Student,
      (importRow students headers i line newStudents errors).1 = newStudents ++ [st] ∧
      st.id = importId students newStudents ∧
      ∀ s ∈ students, s.roll_no ≠ st.roll_no := by
  unfold importRow
  simp only []
  split_ifs with h1 h2 h3
  · left; rfl
  · left; rfl
  · left; rfl
  · right
    refine ⟨_, rfl, rfl, ?_⟩
    intro s hs
    simp only [List.any_eq_true, beq_iff_eq, not_exists, not_and] at h3
    exact h3 s hs

theorem importRows_added (students : List Student) (headers : List String)
    (rows : List String) :
    ∀ (i : Nat) (newStudents : List Student) (errors : List String),
      ∃ added : List Student,
        (importRows students headers i rows newStudents errors).1 = newStudents ++ added ∧
        ∀ st ∈ added, ∀ s ∈ students, s.roll_no ≠ st.roll_no := by
  induction rows with
  | nil =>
    intro i newStudents errors
    exact ⟨[], by simp [importRows], by simp⟩
  | cons line rest ih =>
    intro i newStudents errors
    simp only [importRows]
    rcases importRow_cases students headers i line newStudents errors with h | ⟨st, h, hid, hroll⟩
    · rw [h]
      exact ih (i + 1) newStudents (importRow students headers i line newStudents errors).2
    · rw [h]
      obtain ⟨added, h1, h3⟩ := ih (i + 1) (newStudents ++ [st])
        (importRow students headers i line newStudents errors).2
      refine ⟨st :: added, by simpa using h1, ?_⟩
      intro t ht
      rcases List.mem_cons.mp ht with h' | h'
      · subst h'; exact hroll
      · exact h3 t h'

theorem importRows_ids (students : List Student) (headers : List String)
    (hsafe : safeIds students) (rows : List String) :
    ∀ (i : Nat) (newStudents : List Student) (errors : List String),
      newId students + (newStudents.length : Int) + (rows.length : Int) ≤ 2 ^ 53 + 1 →
      ∃ added : List Student,
        (importRows students headers i rows newStudents errors).1 = newStudents ++ added ∧
        added.map (fun s => s.id) =
          (List.range added.length).map
            (fun (k : Nat) => newId students + (newStudents.length : Int) + (k : Int)) := by
  induction rows with
  | nil =>
    intro i newStudents errors _
    exact ⟨[], by simp [importRows], by simp⟩
  | cons line rest ih =>
    intro i newStudents errors hroom
    simp only [List.length_cons, Nat.cast_add, Nat.cast_one] at hroom
    simp only [importRows]
    rcases importRow_cases students headers i line newStudents errors with h | ⟨st, h, hid, _⟩
    · rw [h]
      exact ih (i + 1) newStudents (importRow students headers i line newStudents errors).2
        (by omega)
    · rw [h]
      obtain ⟨added, h1, h2⟩ := ih (i + 1) (newStudents ++ [st])
        (importRow students headers i line newStudents errors).2
        (by simp only [List.length_append, List.length_singleton, Nat.cast_add, Nat.cast_one]
            omega)
      refine ⟨st :: added, by simpa using h1, ?_⟩
      simp only [List.map_cons, List.length_cons, List.range_succ_eq_map, h2, hid,
        importId_eq students newStudents hsafe (by omega), List.map_map]
      simp only [List.length_append, List.length_singleton, Nat.cast_add, Nat.cast_one,
        Nat.cast_zero, add_zero, List.cons.injEq, true_and]
      apply List.map_congr_left
      intro k _
      simp only [Function.comp_apply, Nat.cast_succ]
      ring

theorem parseCSVData_fields (students : List Student) (csvText : String) :
    ((parseCSVData students csvText).students = students ∧
      (parseCSVData students csvText).newStudents = []) ∨
    ∃ (headers rows : List String),
      (parseCSVData students csvText).newStudents =
        (importRows students headers 1 rows [] []).1 ∧
      (parseCSVData students csvText).errors =
        (importRows students headers 1 rows [] []).2 ∧
      (parseCSVData students csvText).students =
        students ++ (importRows students headers 1 rows [] []).1 := by
  unfold parseCSVData
  simp only []
  split
  · left; exact ⟨rfl, rfl⟩
  · left; exact ⟨rfl, rfl⟩
  · next header rows _ _ =>
    by_cases hm : (requiredHeaders.filter (fun h =>
        !((splitOn ',' header).map (fun h => toLowerCase (jsTrim h))).contains h)).length > 0
    · left
      rw [if_pos hm]
      exact ⟨rfl, rfl⟩
    · right
      rw [if_neg hm]
      refine ⟨(splitOn ',' header).map (fun h => toLowerCase (jsTrim h)), rows, rfl, rfl, ?_⟩
      by_cases hl : (importRows students
          ((splitOn ',' header).map (fun h => toLowerCase (jsTrim h))) 1 rows [] []).1.length > 0
      · simp only [hl, if_true]
      · simp only [hl, if_false]
        have hnil : (importRows students
            ((splitOn ',' header).map (fun h => toLowerCase (jsTrim h))) 1 rows [] []).1 = [] :=
          List.length_eq_zero.mp (by omega)
        rw [hnil, List.append_nil]

theorem parseCSVData_added (students : List Student) (csvText : String) :
    (parseCSVData students csvText).students =
        students ++ (parseCSVData students csvText).newStudents ∧
    ∀ st ∈ (parseCSVData students csvText).newStudents,
      ∀ s ∈ students, s.roll_no ≠ st.roll_no := by
  rcases parseCSVData_fields students csvText with ⟨h1, h2⟩ | ⟨headers, rows, h1, _, h3⟩
  · rw [h1, h2]
    simp
  · obtain ⟨added, ha, hc⟩ := importRows_added students headers rows 1 [] []
    simp only [List.nil_append] at ha
    rw [h3, h1, ha]
    exact ⟨rfl, hc⟩

theorem parseCSVData_newStudents (students : List Student) (csvText : String) :
    (parseCSVData students csvText).newStudents = [] ∨
    (parseCSVData students csvText).newStudents =
      (importRows students (csvHeaders csvText) 1 (csvRows csvText) [] []).1 := by
  unfold parseCSVData csvHeaders csvRows csvLines
  cases hl : (splitOn '\n' csvText).filter (fun line => jsTrim line != "") with
  | nil => left; rfl
  | cons header rows =>
    cases rows with
    | nil => left; rfl
    | cons row rest =>
      simp only [List.tail_cons]
      by_cases hm : (requiredHeaders.filter (fun h =>
          !((splitOn ',' header).map (fun h => toLowerCase (jsTrim h))).contains h)).length > 0
      · left
        rw [if_pos hm]
      · right
        rw [if_neg hm]

theorem parseCSVData_ids (students : List Student) (csvText : String)
    (hsafe : safeIds students) (hrows : (csvRows csvText).length < 2 ^ 32)
    (hroom : ∀ s ∈ students, s.id + ((csvRows csvText).length : Int) < 2 ^ 53) :
    (parseCSVData students csvText).newStudents.map (fun s => s.id) =
      (List.range (parseCSVData students csvText).newStudents.length).map
        (fun (k : Nat) => newId students + (k : Int)) := by
  rcases parseCSVData_newStudents students csvText with h | h
  · rw [h]; rfl
  · have hb : newId students + (([] : List Student).length : Int) +
        ((csvRows csvText).length : Int) ≤ 2 ^ 53 + 1 := by
      cases students with
      | nil =>
        rw [newId_nil]
        simp only [List.length_nil, Nat.cast_zero]
        omega
      | cons t rest =>
        have hm := mathMax_mem t.id (rest.map (fun u => u.id))
        have hmax : mathMax t.id (rest.map (fun u => u.id)) +
            ((csvRows csvText).length : Int) < 2 ^ 53 := by
          rcases List.mem_cons.mp hm with h' | h'
          · rw [h']; exact hroom t (List.mem_cons_self _ _)
          · obtain ⟨u, hu, hue⟩ := List.mem_map.mp h'
            rw [← hue]; exact hroom u (List.mem_cons_of_mem _ hu)
        rw [newId_cons t rest hsafe]
        simp only [List.length_nil, Nat.cast_zero]
        omega
    obtain ⟨added, ha, hids⟩ := importRows_ids students (csvHeaders csvText) hsafe
      (csvRows csvText) 1 [] [] hb
    simp only [List.nil_append] at ha
    rw [h, ha]
    simpa using hids

/-! ## Claims on the attendance ledger (C1 to C3) -/

/-- C1 (counterexample): on the roster `[Asha]` and the empty ledger, a proposal whose
first item names nobody of the roster is still committed: the ledger afterwards differs
from the ledger before and holds a session for that date. -/
theorem commit_with_unknown_item_changes_ledger :
    (∃ item ∈ exampleItems, resolves exampleRoster item = false) ∧
    confirmAttendance exampleRoster [] "2024-01-10" "2024-01-10T09:00:00.000Z" exampleItems ≠ [] ∧
    (sessionForDate
      (confirmAttendance exampleRoster [] "2024-01-10" "2024-01-10T09:00:00.000Z" exampleItems)
      "2024-01-10").isSome = true := by
  decide

/-- C1 (amended): `confirmAttendance` never rejects a proposal. Items that resolve to no
student are skipped and the session is committed all the same: the ledger afterwards is
the ledger before without the sessions of that date, followed by one session of that date
which has one record per resolving item, in order, under the item's student name; the
lookup of the date finds that session. -/
theorem confirmAttendance_skips_unresolved (students : List Student)
    (ledger : List AttendanceData) (today now : String) (items : List AttendanceItem) :
    ∃ session : AttendanceData,
      confirmAttendance students ledger today now items =
        ledger.filter (fun r => r.date != today) ++ [session] ∧
      session.date = today ∧
      session.records = buildRecords students now (items.filter (resolves students)) ∧
      session.records.map (fun r => r.student_name) =
        (items.filter (resolves students)).map (fun i => i.studentName) ∧
      session.records.length = (items.filter (resolves students)).length ∧
      sessionForDate (confirmAttendance students ledger today now items) today =
        some session := by
  refine ⟨attendanceData students today now items, rfl, rfl, ?_, ?_, ?_, ?_⟩
  · exact (buildRecords_filter_resolves students now items).symm
  · exact buildRecords_names students now items
  · have h := congrArg List.length (buildRecords_names students now items)
    simpa using h
  · exact sessionForDate_confirmAttendance students ledger today now items

/-- C2: two commits on the same date, one after the other (the roster may have changed in
between): the lookup of the date afterwards is the session built from the second
proposal, its records are exactly the records built from the second proposal, and every
session of that date left in the ledger is that one. -/
theorem second_commit_replaces_first (students₁ students₂ : List Student)
    (ledger : List AttendanceData) (today now₁ now₂ : String)
    (items₁ items₂ : List AttendanceItem) :
    sessionForDate
        (confirmAttendance students₂ (confirmAttendance students₁ ledger today now₁ items₁)
          today now₂ items₂) today =
      some (attendanceData students₂ today now₂ items₂) ∧
    (attendanceData students₂ today now₂ items₂).records = buildRecords students₂ now₂ items₂ ∧
    ∀ r ∈ confirmAttendance students₂ (confirmAttendance students₁ ledger today now₁ items₁)
          today now₂ items₂,
      r.date = today → r = attendanceData students₂ today now₂ items₂ := by
  refine ⟨sessionForDate_confirmAttendance _ _ _ _ _, rfl, ?_⟩
  intro r hr hd
  have h := confirmAttendance_filter_today students₂
    (confirmAttendance students₁ ledger today now₁ items₁) today now₂ items₂
  have hm : r ∈ (confirmAttendance students₂
      (confirmAttendance students₁ ledger today now₁ items₁) today now₂ items₂).filter
      (fun r => r.date == today) := by
    simp [List.mem_filter, hr, hd]
  rw [h] at hm
  simpa using hm

/-- C3: starting from the empty ledger, after any sequence of commits no two sessions of
the ledger have the same date; and whatever the ledger was before, a commit on a date
leaves exactly one session of that date. -/
theorem one_session_per_date :
    (∀ calls : List Commit, ((commitAll [] calls).map (fun r => r.date)).Nodup) ∧
    (∀ (students : List Student) (ledger : List AttendanceData) (today now : String)
        (items : List AttendanceItem),
      ((confirmAttendance students ledger today now items).filter
        (fun r => r.date == today)).length = 1) := by
  constructor
  · intro calls
    exact commitAll_dates_nodup calls [] (by simp)
  · intro students ledger today now items
    rw [confirmAttendance_filter_today]
    rfl

/-! ## Claims on the roster store (C4 to C10) -/

/-- C4 (counterexample): two add-mode inputs that satisfy every condition of the claim
(non-empty name, roll number and class, a phone of the data-model shape, a roll number
not in the roster). The first, with the phone `0123456789`, is rejected with the
phone-number error and the roster is unchanged; the second, with the name ` Bob `, is
accepted but the student found under its roll number has the name `Bob`, not the given
value. A third input, on the roster whose only id is `2 ^ 53`, is accepted and the student
found under its roll number has the id `2 ^ 53` again, an id that was in the roster
before. -/
theorem addStudent_rejects_wellshaped_input :
    (leadingZeroForm.studentName ≠ "" ∧ leadingZeroForm.rollNumber ≠ "" ∧
      leadingZeroForm.studentClass ≠ "" ∧ specPhoneShape leadingZeroForm.parentPhone = true ∧
      (∀ s ∈ exampleRoster, s.roll_no ≠ leadingZeroForm.rollNumber) ∧
      (saveStudent exampleRoster leadingZeroForm).toast =
        some ⟨"Please enter a valid phone number", "error"⟩ ∧
      (saveStudent exampleRoster leadingZeroForm).students = exampleRoster) ∧
    (paddedNameForm.studentName ≠ "" ∧ paddedNameForm.rollNumber ≠ "" ∧
      paddedNameForm.studentClass ≠ "" ∧ specPhoneShape paddedNameForm.parentPhone = true ∧
      (∀ s ∈ exampleRoster, s.roll_no ≠ paddedNameForm.rollNumber) ∧
      ((findByRollNo (saveStudent exampleRoster paddedNameForm).students
          paddedNameForm.rollNumber).map (fun s => s.name) = some "Bob") ∧
      "Bob" ≠ paddedNameForm.studentName) ∧
    (plainForm.studentName ≠ "" ∧ plainForm.rollNumber ≠ "" ∧
      plainForm.studentClass ≠ "" ∧ specPhoneShape plainForm.parentPhone = true ∧
      (∀ s ∈ largeIdRoster, s.roll_no ≠ plainForm.rollNumber) ∧
      largeIdRoster.map (fun s => s.id) = [9007199254740992] ∧
      (findByRollNo (saveStudent largeIdRoster plainForm).students
          plainForm.rollNumber).map (fun s => s.id) = some 9007199254740992) := by
  decide

/-- C4 (amended): in add mode, when name and roll number are non-empty after trimming,
the class is non-empty, the trimmed parent phone with whitespace, hyphens and parentheses
removed is an optional `+`, a digit `1` to `9` and at most 15 further digits, the
trimmed roll number is the roll number of no student of the roster and every id of the
roster is a safe integer (of magnitude below `2 ^ 53`), then `saveStudent`
shows the success toast, the roster grows by one, and the lookup of the trimmed roll
number returns a student with the trimmed name, the trimmed roll number, the class as
given and the trimmed parent phone, whose id differs from every id of the roster before. -/
theorem addStudent_succeeds (students : List Student) (form : StudentForm)
    (d : Char) (ds : List Char)
    (hadd : form.studentId = none)
    (hname : jsTrim form.studentName ≠ "") (hroll : jsTrim form.rollNumber ≠ "")
    (hclass : form.studentClass ≠ "")
    (hphone : (stripPhone (jsTrim form.parentPhone)).data = d :: ds ∨
      (stripPhone (jsTrim form.parentPhone)).data = '+' :: d :: ds)
    (hd : '1' ≤ d ∧ d ≤ '9') (hds : ∀ c ∈ ds, c.isDigit = true) (hlen : ds.length ≤ 15)
    (hfree : ∀ s ∈ students, s.roll_no ≠ jsTrim form.rollNumber)
    (hsafe : safeIds students) :
    (saveStudent students form).toast = some addedToast ∧
    (saveStudent students form).students.length = students.length + 1 ∧
    ∃ s : Student,
      findByRollNo (saveStudent students form).students (jsTrim form.rollNumber) = some s ∧
      s.name = jsTrim form.studentName ∧ s.roll_no = jsTrim form.rollNumber ∧
      s.class_ = form.studentClass ∧ s.parent_phone = jsTrim form.parentPhone ∧
      ∀ t ∈ students, t.id ≠ s.id := by
  have hne : jsTrim form.parentPhone ≠ "" := by
    apply stripPhone_data_ne_nil
    rcases hphone with h | h <;> simp [h]
  have hre := phoneRegexTest_of_shape _ d ds hphone hd hds hlen
  have hsave := saveStudent_no_duplicate students form ⟨hname, hroll, hclass, hne⟩
    (fun s hs h => absurd h (hfree s hs))
  rw [hsave]
  simp only [hre, hadd, Bool.not_true, Bool.false_eq_true, if_false]
  refine ⟨rfl, (by simp), ⟨Student.mk (newId students) (jsTrim form.studentName)
    (jsTrim form.rollNumber) form.studentClass (jsTrim form.parentPhone) "default.jpg",
    ?_, rfl, rfl, rfl, rfl, ?_⟩⟩
  · have hnone : students.find? (fun s => s.roll_no == jsTrim form.rollNumber) = none := by
      rw [List.find?_eq_none]
      intro s hs
      simpa using hfree s hs
    simp [findByRollNo, List.find?_append, hnone]
  · intro t ht
    exact ne_of_lt (id_lt_newId students hsafe t ht)

/-- C4 (witness): `addStudent_succeeds` on `exampleRoster` and the form with the name
` Bob ` and the phone `(+91) 98765-43210`. -/
theorem addStudent_succeeds_witness :
    (saveStudent exampleRoster punctuatedPhoneForm).toast = some addedToast ∧
    (saveStudent exampleRoster punctuatedPhoneForm).students.length = exampleRoster.length + 1 ∧
    ∃ s : Student,
      findByRollNo (saveStudent exampleRoster punctuatedPhoneForm).students
        (jsTrim punctuatedPhoneForm.rollNumber) = some s ∧
      s.name = jsTrim punctuatedPhoneForm.studentName ∧
      s.roll_no = jsTrim punctuatedPhoneForm.rollNumber ∧
      s.class_ = punctuatedPhoneForm.studentClass ∧
      s.parent_phone = jsTrim punctuatedPhoneForm.parentPhone ∧
      ∀ t ∈ exampleRoster, t.id ≠ s.id :=
  addStudent_succeeds exampleRoster punctuatedPhoneForm '9' "19876543210".data rfl
    (by decide) (by decide) (by decide) (Or.inr (by decide)) (by decide) (by decide)
    (by decide) (by decide) (by decide)

/-- C5 (failing input): in `zeroIdRoster` the roll number `R1` belongs to the student
with id `0`; adding another student with the roll number `R1` and non-empty fields shows
the success toast, not the duplicate error, and the roster grows to two students, both
with the roll number `R1`. -/
theorem addStudent_duplicate_of_id_zero_accepted :
    fieldsFilled duplicateRollForm ∧
    (∃ s ∈ zeroIdRoster, s.roll_no = jsTrim duplicateRollForm.rollNumber) ∧
    (saveStudent zeroIdRoster duplicateRollForm).toast = some addedToast ∧
    (saveStudent zeroIdRoster duplicateRollForm).students.length = 2 ∧
    (saveStudent zeroIdRoster duplicateRollForm).students ≠ zeroIdRoster ∧
    (saveStudent zeroIdRoster duplicateRollForm).students.map (fun s => s.roll_no) =
      ["R1", "R1"] := by
  decide

/-- The reach of the duplicate check in add mode: with non-empty fields, when the roll
number is already the roll number of a student of the roster whose id is not `0`,
`saveStudent` shows the duplicate-roll-number error and the students list afterwards is
the list before. -/
theorem addStudent_duplicate_rejected (students : List Student) (form : StudentForm)
    (hadd : form.studentId = none) (hf : fieldsFilled form)
    (hdup : ∃ s ∈ students, s.roll_no = jsTrim form.rollNumber ∧ s.id ≠ 0) :
    (saveStudent students form).toast = some duplicateRollToast ∧
    (saveStudent students form).students = students ∧
    (saveStudent students form).saved = false := by
  obtain ⟨s, hs, hr, hid⟩ := hdup
  rw [saveStudent_duplicate students form hf s hs hr (by simpa [hadd] using hid)]
  exact ⟨rfl, rfl, rfl⟩

/-- The lemma `addStudent_duplicate_rejected` on `exampleRoster`, whose student with id
`1` owns the roll number `R1`. -/
theorem addStudent_duplicate_rejected_witness :
    (saveStudent exampleRoster duplicateRollForm).toast = some duplicateRollToast ∧
    (saveStudent exampleRoster duplicateRollForm).students = exampleRoster ∧
    (saveStudent exampleRoster duplicateRollForm).saved = false :=
  addStudent_duplicate_rejected exampleRoster duplicateRollForm rfl (by decide) (by decide)

/-- C6 (counterexample): on the roster whose only id is `2 ^ 53 = 9007199254740992`, a
successful add appends a student whose id is `2 ^ 53` again: the sum `2 ^ 53 + 1` of
line 803 is a sum of doubles and rounds to `2 ^ 53`. -/
theorem added_id_repeats_greatest_id :
    (saveStudent largeIdRoster plainForm).toast = some addedToast ∧
    largeIdRoster.map (fun s => s.id) = [9007199254740992] ∧
    (saveStudent largeIdRoster plainForm).students.map (fun s => s.id) =
      [9007199254740992, 9007199254740992] ∧
    ((saveStudent largeIdRoster plainForm).students.getLast?).map (fun s => s.id) ≠
      some (9007199254740992 + 1) := by
  decide

/-- C6 (amended): when every id of the roster is a safe integer (of magnitude below
`2 ^ 53`), after a successful add the students list is the list before followed by one
student, whose id is `1` when the roster was empty and otherwise `m + 1` for the greatest
id `m` of the roster before. -/
theorem added_student_id (students : List Student) (form : StudentForm)
    (hadd : form.studentId = none)
    (hok : (saveStudent students form).toast = some addedToast)
    (hsafe : safeIds students) :
    ∃ s : Student,
      (saveStudent students form).students = students ++ [s] ∧
      (students = [] → s.id = 1) ∧
      (students ≠ [] →
        ∃ m ∈ students.map (fun t => t.id),
          (∀ i ∈ students.map (fun t => t.id), i ≤ m) ∧ s.id = m + 1) := by
  rcases saveStudent_add_cases students form hadd with ⟨_, _, msg, hmsg⟩ | ⟨h, _⟩
  · rw [hmsg] at hok
    exact absurd hok (by simp [addedToast])
  · rw [h]
    refine ⟨_, rfl, ?_, ?_⟩
    · intro he
      subst he
      rfl
    · intro hne
      exact newId_eq_max_succ students hsafe hne

/-- C6 (witness): `added_student_id` on `exampleRoster` and a form that is accepted. -/
theorem added_student_id_witness :
    ∃ s : Student,
      (saveStudent exampleRoster paddedNameForm).students = exampleRoster ++ [s] ∧
      (exampleRoster = [] → s.id = 1) ∧
      (exampleRoster ≠ [] →
        ∃ m ∈ exampleRoster.map (fun t => t.id),
          (∀ i ∈ exampleRoster.map (fun t => t.id), i ≤ m) ∧ s.id = m + 1) :=
  added_student_id exampleRoster paddedNameForm rfl (by decide) (by decide)

/-- C7 (failing input): on `exampleRoster`, whose ids and roll numbers are pairwise
distinct, the import of a CSV text whose two rows both carry the new roll number `R2`
adds both rows; afterwards two students share `R2`. -/
theorem import_same_roll_twice_breaks_uniqueness :
    rollNosUnique exampleRoster ∧ idsUnique exampleRoster ∧
    (parseCSVData exampleRoster sameRollTwiceCsv).newStudents.length = 2 ∧
    (parseCSVData exampleRoster sameRollTwiceCsv).students.map (fun s => s.roll_no) =
      ["R1", "R2", "R2"] ∧
    ¬ rollNosUnique (parseCSVData exampleRoster sameRollTwiceCsv).students := by
  decide

/-- C8 (counterexample): the roster whose only id is `2 ^ 53 = 9007199254740992` has
pairwise distinct ids; after a successful add two students have the id `2 ^ 53`, and
after the import of three rows the ids are `2 ^ 53` three times and `2 ^ 53 + 2`: the new
ids are not distinct and not all greater than the ids that were there. -/
theorem ids_repeat_from_two_pow_53 :
    idsUnique largeIdRoster ∧
    (saveStudent largeIdRoster plainForm).toast = some addedToast ∧
    (saveStudent largeIdRoster plainForm).students.map (fun s => s.id) =
      [9007199254740992, 9007199254740992] ∧
    ¬ idsUnique (saveStudent largeIdRoster plainForm).students ∧
    validHeader threeRowCsv = true ∧
    (parseCSVData largeIdRoster threeRowCsv).students.map (fun s => s.id) =
      [9007199254740992, 9007199254740992, 9007199254740992, 9007199254740994] ∧
    ¬ idsUnique (parseCSVData largeIdRoster threeRowCsv).students := by
  decide

/-- C8 (amended): on a roster with pairwise distinct ids that are all safe integers (of
magnitude below `2 ^ 53`), a successful add leaves the students that were there in place
(the new list is the old one followed by the new student, so every old student keeps its
id), the ids are still pairwise distinct, and the new id is strictly greater than every id
that was there before. The same holds for every bulk import of a text whose number of
non-blank data rows (an array length, below `2 ^ 32`) added to any id of the roster stays
below `2 ^ 53`. -/
theorem ids_stay_unique (students : List Student) (h : idsUnique students)
    (hsafe : safeIds students) :
    (∀ form : StudentForm, form.studentId = none →
      (saveStudent students form).toast = some addedToast →
      ∃ s : Student,
        (saveStudent students form).students = students ++ [s] ∧
        idsUnique (saveStudent students form).students ∧
        ∀ t ∈ students, t.id < s.id) ∧
    (∀ csvText : String, (csvRows csvText).length < 2 ^ 32 →
      (∀ s ∈ students, s.id + ((csvRows csvText).length : Int) < 2 ^ 53) →
      ∃ added : List Student,
        (parseCSVData students csvText).students = students ++ added ∧
        idsUnique (parseCSVData students csvText).students ∧
        ∀ a ∈ added, ∀ t ∈ students, t.id < a.id) := by
  constructor
  · intro form hadd hok
    rcases saveStudent_add_cases students form hadd with ⟨_, _, msg, hmsg⟩ | ⟨hs, _⟩
    · rw [hmsg] at hok
      exact absurd hok (by simp [addedToast])
    · rw [hs]
      refine ⟨_, rfl, ?_, fun t ht => id_lt_newId students hsafe t ht⟩
      apply idsUnique_append_of_lt students _ h (by simp)
      intro a ha t ht
      simp only [List.mem_singleton] at ha
      subst ha
      exact id_lt_newId students hsafe t ht
  · intro csvText hrows hroom
    obtain ⟨h1, _⟩ := parseCSVData_added students csvText
    have h2 := parseCSVData_ids students csvText hsafe hrows hroom
    have hlt : ∀ a ∈ (parseCSVData students csvText).newStudents,
        ∀ t ∈ students, t.id < a.id := by
      intro a ha t ht
      have hmem : a.id ∈ (parseCSVData students csvText).newStudents.map (fun s => s.id) :=
        List.mem_map_of_mem (fun s => s.id) ha
      rw [h2] at hmem
      obtain ⟨k, _, hk⟩ := List.mem_map.mp hmem
      have := id_lt_newId students hsafe t ht
      omega
    refine ⟨(parseCSVData students csvText).newStudents, h1, ?_, hlt⟩
    rw [h1]
    apply idsUnique_append_of_lt students _ h _ hlt
    rw [h2]
    apply (List.nodup_range _).map
    intro a b hab
    simp only at hab
    omega

/-- C8 (witness): `ids_stay_unique` on `exampleRoster`, for an accepted add and for
`parseCSVData` on `exampleCsv`. -/
theorem ids_stay_unique_witness :
    (∃ s : Student,
      (saveStudent exampleRoster paddedNameForm).students = exampleRoster ++ [s] ∧
      idsUnique (saveStudent exampleRoster paddedNameForm).students ∧
      ∀ t ∈ exampleRoster, t.id < s.id) ∧
    (∃ added : List Student,
      (parseCSVData exampleRoster exampleCsv).students = exampleRoster ++ added ∧
      idsUnique (parseCSVData exampleRoster exampleCsv).students ∧
      ∀ a ∈ added, ∀ t ∈ exampleRoster, t.id < a.id) :=
  ⟨(ids_stay_unique exampleRoster (by decide) (by decide)).1 paddedNameForm rfl (by decide),
   (ids_stay_unique exampleRoster (by decide) (by decide)).2 exampleCsv (by decide)
      (by decide)⟩

/-- C9: in edit mode on an id `e` with non-empty fields, a roll number held by a student
whose id is not `e` makes `saveStudent` show the duplicate-roll-number error and leave the
roster as it was; and when every student holding the roll number has the id `e`, the
duplicate check does not reject the update. -/
theorem updateStudent_duplicate_check (students : List Student) (form : StudentForm) (e : Int)
    (hedit : form.studentId = some e) (hf : fieldsFilled form) :
    ((∃ s ∈ students, s.id ≠ e ∧ s.roll_no = jsTrim form.rollNumber) →
      (saveStudent students form).toast = some duplicateRollToast ∧
      (saveStudent students form).students = students) ∧
    ((∀ s ∈ students, s.roll_no = jsTrim form.rollNumber → s.id = e) →
      (saveStudent students form).toast ≠ some duplicateRollToast) := by
  constructor
  · rintro ⟨s, hs, hid, hr⟩
    rw [saveStudent_duplicate students form hf s hs hr (by simpa [hedit] using hid)]
    exact ⟨rfl, rfl⟩
  · intro hself
    rw [saveStudent_no_duplicate students form hf (by simpa [hedit] using hself)]
    by_cases hp : phoneRegexTest (stripPhone (jsTrim form.parentPhone)) = true
    · simp only [hp, hedit, Bool.not_true, Bool.false_eq_true, if_false]
      cases updateFirst e (jsTrim form.studentName) (jsTrim form.rollNumber)
        form.studentClass (jsTrim form.parentPhone) students <;> simp [duplicateRollToast]
    · simp [hp, duplicateRollToast]

/-- C9 (witness): `updateStudent_duplicate_check` on `twoStudentRoster`: the edit of the
student with id `2` that asks for the roll number `R1` of the student with id `1` is
rejected, the edit of the same student that keeps its own roll number `R2` is not. -/
theorem updateStudent_duplicate_check_witness :
    ((saveStudent twoStudentRoster takeOverRollForm).toast = some duplicateRollToast ∧
      (saveStudent twoStudentRoster takeOverRollForm).students = twoStudentRoster) ∧
    (saveStudent twoStudentRoster keepRollForm).toast ≠ some duplicateRollToast :=
  ⟨(updateStudent_duplicate_check twoStudentRoster takeOverRollForm 2 rfl (by decide)).1
      (by decide),
   (updateStudent_duplicate_check twoStudentRoster keepRollForm 2 rfl (by decide)).2
      (by decide)⟩

/-- C10 (counterexample): an edit of the id `5` on `exampleRoster`, where no student has
that id, with fields that pass every validation: no toast is shown at all, so no error is
reported, and control reaches the save block. -/
theorem updateStudent_unknown_id_no_error :
    (∀ s ∈ exampleRoster, s.id ≠ 5) ∧
    unknownIdForm.studentId = some 5 ∧
    (saveStudent exampleRoster unknownIdForm).toast = none ∧
    (saveStudent exampleRoster unknownIdForm).saved = true ∧
    reportsError (saveStudent exampleRoster unknownIdForm) = false := by
  decide

/-- C10 (amended): in edit mode on an id that no student has, the roster is unchanged
whatever the fields are; and when the fields pass the validations (non-empty, roll number
held by no student, trimmed phone with whitespace, hyphens and parentheses removed being an
optional `+`, a digit `1` to `9` and at most 15 further digits) the call shows no toast,
neither an error nor a success, and goes on to the save block. -/
theorem updateStudent_unknown_id_silent (students : List Student) (form : StudentForm)
    (e : Int) (hedit : form.studentId = some e) (hno : ∀ s ∈ students, s.id ≠ e) :
    (saveStudent students form).students = students ∧
    ∀ (d : Char) (ds : List Char), fieldsFilled form →
      (∀ s ∈ students, s.roll_no ≠ jsTrim form.rollNumber) →
      ((stripPhone (jsTrim form.parentPhone)).data = d :: ds ∨
        (stripPhone (jsTrim form.parentPhone)).data = '+' :: d :: ds) →
      ('1' ≤ d ∧ d ≤ '9') → (∀ c ∈ ds, c.isDigit = true) → ds.length ≤ 15 →
      (saveStudent students form).toast = none ∧ (saveStudent students form).saved = true := by
  have hupd := updateFirst_eq_none e (jsTrim form.studentName) (jsTrim form.rollNumber)
    form.studentClass (jsTrim form.parentPhone) students hno
  constructor
  · by_cases hf : fieldsFilled form
    · by_cases hdup : ∃ s ∈ students, s.roll_no = jsTrim form.rollNumber ∧ s.id ≠ e
      · obtain ⟨s, hs, hr, hid⟩ := hdup
        rw [saveStudent_duplicate students form hf s hs hr (by simpa [hedit] using hid)]
      · have hnone : ∀ s ∈ students, s.roll_no = jsTrim form.rollNumber → s.id = e := by
          intro s hs hr
          by_contra hid
          exact hdup ⟨s, hs, hr, hid⟩
        rw [saveStudent_no_duplicate students form hf (by simpa [hedit] using hnone)]
        by_cases hp : phoneRegexTest (stripPhone (jsTrim form.parentPhone)) = true
        · simp only [hp, hedit, hupd, Bool.not_true, Bool.false_eq_true, if_false]
        · simp [hp]
    · have h : jsTrim form.studentName = "" ∨ jsTrim form.rollNumber = "" ∨
          form.studentClass = "" ∨ jsTrim form.parentPhone = "" := by
        unfold fieldsFilled at hf
        by_contra hc
        push_neg at hc
        exact hf hc
      simp [saveStudent, h]
  · intro d ds hf hfree hphone hd hds hlen
    have hre := phoneRegexTest_of_shape _ d ds hphone hd hds hlen
    rw [saveStudent_no_duplicate students form hf (fun s hs h => absurd h (hfree s hs))]
    simp [hre, hedit, hupd]

/-- C10 (witness): `updateStudent_unknown_id_silent` on `exampleRoster` and the edit of
the id `5`. -/
theorem updateStudent_unknown_id_silent_witness :
    (saveStudent exampleRoster unknownIdForm).students = exampleRoster ∧
    (saveStudent exampleRoster unknownIdForm).toast = none ∧
    (saveStudent exampleRoster unknownIdForm).saved = true :=
  ⟨(updateStudent_unknown_id_silent exampleRoster unknownIdForm 5 rfl (by decide)).1,
   (updateStudent_unknown_id_silent exampleRoster unknownIdForm 5 rfl (by decide)).2
     '9' "876543210".data (by decide) (by decide) (Or.inl (by decide)) (by decide) (by decide)
     (by decide)⟩

/-! ## Statistics lemmas -/

theorem filter_head?_eq_find? {α : Type} (p : α → Bool) (l : List α) :
    (l.filter p).head? = l.find? p := by
  induction l with
  | nil => rfl
  | cons a l ih =>
    by_cases h : p a = true
    · simp [List.filter_cons, List.find?_cons, h]
    · simp [List.filter_cons, List.find?_cons, h, ih]

theorem updateStats_of_session (currentStats : Stats) (students : List Student)
    (attendanceRecords : List AttendanceData) (today : String) (session : AttendanceData)
    (h : sessionForDate attendanceRecords today = some session) :
    updateStats currentStats students attendanceRecords today =
      { currentStats with
        today_present := countStatus "present" session.records
        today_absent := (students.length : Int) - (countStatus "present" session.records : Int)
        attendance_rate :=
          if students.length > 0 then
            Rate.fixed (toFixedTenths
              (percentDouble (countStatus "present" session.records) students.length))
          else Rate.zero
        total_days := setSize (attendanceRecords.map (fun r => r.date))
        sms_sent_today := session.records.length } := by
  have hh := filter_head?_eq_find? (fun r : AttendanceData => r.date == today) attendanceRecords
  unfold sessionForDate at h
  rw [h] at hh
  unfold updateStats
  cases hf : attendanceRecords.filter (fun r => r.date == today) with
  | nil => rw [hf] at hh; simp at hh
  | cons first rest =>
    rw [hf] at hh
    simp only [List.head?_cons, Option.some.injEq] at hh
    subst hh
    rfl

theorem updateStats_of_no_session (currentStats : Stats) (students : List Student)
    (attendanceRecords : List AttendanceData) (today : String)
    (h : sessionForDate attendanceRecords today = none) :
    updateStats currentStats students attendanceRecords today =
      { currentStats with
        today_present := 0
        today_absent := (students.length : Int)
        attendance_rate := Rate.zero
        total_days := setSize (attendanceRecords.map (fun r => r.date))
        sms_sent_today := 0 } := by
  have hh := filter_head?_eq_find? (fun r : AttendanceData => r.date == today) attendanceRecords
  unfold sessionForDate at h
  rw [h] at hh
  unfold updateStats
  cases hf : attendanceRecords.filter (fun r => r.date == today) with
  | nil => rfl
  | cons first rest => rw [hf] at hh; simp at hh

theorem setSize_fold_invariant (xs seen : List String) (hs : seen.Nodup) :
    (xs.foldl (fun seen x => if x ∈ seen then seen else seen ++ [x]) seen).Nodup ∧
    (xs.foldl (fun seen x => if x ∈ seen then seen else seen ++ [x]) seen).toFinset =
      seen.toFinset ∪ xs.toFinset := by
  induction xs generalizing seen with
  | nil => simp [hs]
  | cons x xs ih =>
    simp only [List.foldl_cons]
    by_cases hx : x ∈ seen
    · simp only [hx, if_true]
      obtain ⟨h1, h2⟩ := ih seen hs
      refine ⟨h1, ?_⟩
      rw [h2]
      ext y
      simp only [Finset.mem_union, List.mem_toFinset, List.mem_cons]
      constructor
      · rintro (h | h)
        · left; exact h
        · right; right; exact h
      · rintro (h | h | h)
        · left; exact h
        · left; rw [h]; exact hx
        · right; exact h
    · simp only [hx, if_false]
      have hs' : (seen ++ [x]).Nodup := by
        refine List.Nodup.append hs (List.nodup_singleton x) ?_
        intro y hy hy'
        simp only [List.mem_singleton] at hy'
        exact hx (hy' ▸ hy)
      obtain ⟨h1, h2⟩ := ih (seen ++ [x]) hs'
      refine ⟨h1, ?_⟩
      rw [h2]
      ext y
      simp only [Finset.mem_union, List.mem_toFinset, List.mem_append, List.mem_singleton,
        List.mem_cons]
      tauto

theorem setSize_eq_card (xs : List String) : setSize xs = xs.toFinset.card := by
  obtain ⟨h1, h2⟩ := setSize_fold_invariant xs [] List.nodup_nil
  unfold setSize
  rw [← List.toFinset_card_of_nodup h1, h2]
  simp

theorem updateStats_total_days (currentStats : Stats) (students : List Student)
    (attendanceRecords : List AttendanceData) (today : String) :
    (updateStats currentStats students attendanceRecords today).total_days =
      setSize (attendanceRecords.map (fun r => r.date)) := by
  unfold updateStats
  cases attendanceRecords.filter (fun r => r.date == today) <;> rfl

theorem updateAttendanceTrends_eq (attendanceRecords : List AttendanceData)
    (dateStr : Nat → String) :
    updateAttendanceTrends attendanceRecords dateStr =
      [trendPoint attendanceRecords (dateStr 6), trendPoint attendanceRecords (dateStr 5),
       trendPoint attendanceRecords (dateStr 4), trendPoint attendanceRecords (dateStr 3),
       trendPoint attendanceRecords (dateStr 2), trendPoint attendanceRecords (dateStr 1),
       trendPoint attendanceRecords (dateStr 0)] := rfl

theorem trendPoint_date (attendanceRecords : List AttendanceData) (dateStr : String) :
    (trendPoint attendanceRecords dateStr).date = dateStr := by
  unfold trendPoint
  cases attendanceRecords.find? (fun r => r.date == dateStr) <;> rfl

theorem trendPoint_of_no_session (attendanceRecords : List AttendanceData) (dateStr : String)
    (h : ∀ r ∈ attendanceRecords, r.date ≠ dateStr) :
    trendPoint attendanceRecords dateStr = { date := dateStr, present := 0, absent := 0 } := by
  have hf : attendanceRecords.find? (fun r => r.date == dateStr) = none := by
    rw [List.find?_eq_none]
    intro r hr
    simpa using h r hr
  simp [trendPoint, hf]

theorem trendPoint_of_session (attendanceRecords : List AttendanceData) (dateStr : String)
    (session : AttendanceData) (h : sessionForDate attendanceRecords dateStr = some session) :
    trendPoint attendanceRecords dateStr =
      { date := dateStr
        present := countStatus "present" session.records
        absent := countStatus "absent" session.records } := by
  unfold sessionForDate at h
  simp [trendPoint, h]

/-! ## Lemmas on the rounding of `attendance_rate` -/

theorem floorLog2Aux_spec (fuel : Nat) :
    ∀ n : Nat, 0 < n → n ≤ fuel →
      2 ^ floorLog2Aux fuel n ≤ n ∧ n < 2 ^ (floorLog2Aux fuel n + 1) := by
  induction fuel with
  | zero => intro n h0 h; omega
  | succ fuel ih =>
    intro n h0 h
    unfold floorLog2Aux
    by_cases h2 : n < 2
    · simp only [h2, if_true]
      constructor
      · simpa using h0
      · simpa using h2
    · simp only [h2, if_false]
      obtain ⟨h3, h4⟩ := ih (n / 2) (by omega) (by omega)
      rw [pow_succ, pow_succ] 
      rw [pow_succ] at h4
      constructor <;> omega

theorem floorLog2_spec (n : Nat) (h : 0 < n) :
    2 ^ floorLog2 n ≤ n ∧ n < 2 ^ (floorLog2 n + 1) :=
  floorLog2Aux_spec n n h (Nat.le_refl n)

theorem roundHalfEven_spec (num den : Nat) (hden : 0 < den) :
    2 * (roundHalfEven num den * den) ≤ 2 * num + den ∧
    2 * num ≤ 2 * (roundHalfEven num den * den) + den := by
  have hdm := Nat.div_add_mod num den
  have hr := Nat.mod_lt num hden
  unfold roundHalfEven
  simp only []
  have hmul : den * (num / den) = num / den * den := Nat.mul_comm _ _
  split_ifs with hc
  · have : (num / den + 1) * den = num / den * den + den := by ring
    rw [this]
    rcases hc with hc | ⟨hc, _⟩ <;> constructor <;> omega
  · have h1 : ¬ den < 2 * (num % den) := fun h => hc (Or.inl h)
    constructor <;> omega

theorem nearestDouble_den_pos (a b : Nat) : 0 < (nearestDouble a b).den := by
  unfold nearestDouble
  simp only []
  split_ifs <;> exact Nat.pos_of_ne_zero (by positivity)

theorem nearestDouble_scaled (a b : Nat) (ha : 0 < a) (hb : 0 < b) :
    ∃ shift : Nat,
      nearestDouble a b =
        ⟨roundHalfEven (a * 2 ^ shift) (b * 2 ^ floorLog2 a) * 2 ^ floorLog2 a, 2 ^ shift⟩ ∧
      2 ^ 52 * (b * 2 ^ floorLog2 a) ≤ a * 2 ^ shift := by
  obtain ⟨ha1, _⟩ := floorLog2_spec a ha
  obtain ⟨_, hb2⟩ := floorLog2_spec b hb
  by_cases hge : b * 2 ^ floorLog2 a ≤ a * 2 ^ floorLog2 b
  · refine ⟨floorLog2 b + 52, ?_, ?_⟩
    · unfold nearestDouble
      simp only [Nat.pos_iff_ne_zero.mp ha, if_false, hge, if_true]
    · rw [pow_add]
      calc 2 ^ 52 * (b * 2 ^ floorLog2 a) ≤ 2 ^ 52 * (a * 2 ^ floorLog2 b) :=
            Nat.mul_le_mul_left _ hge
        _ = a * (2 ^ floorLog2 b * 2 ^ 52) := by ring
  · refine ⟨floorLog2 b + 53, ?_, ?_⟩
    · unfold nearestDouble
      simp only [Nat.pos_iff_ne_zero.mp ha, if_false, hge]
    · have h1 : b * 2 ^ floorLog2 a ≤ 2 ^ (floorLog2 b + 1) * a :=
        Nat.mul_le_mul (Nat.le_of_lt hb2) ha1
      rw [pow_add]
      calc 2 ^ 52 * (b * 2 ^ floorLog2 a) ≤ 2 ^ 52 * (2 ^ (floorLog2 b + 1) * a) :=
            Nat.mul_le_mul_left _ h1
        _ = a * (2 ^ floorLog2 b * 2 ^ 53) := by ring

theorem nearestDouble_error (a b : Nat) (hb : 0 < b) :
    |(nearestDouble a b).toRat - (a : ℚ) / (b : ℚ)| ≤ (a : ℚ) / (b : ℚ) / 2 ^ 53 := by
  rcases Nat.eq_zero_or_pos a with ha | ha
  · subst ha
    simp [nearestDouble, Double.toRat]
  · obtain ⟨shift, hx, hlow⟩ := nearestDouble_scaled a b ha hb
    obtain ⟨hL, _⟩ := floorLog2_spec a ha
    have hLpos : 0 < 2 ^ floorLog2 a := Nat.pos_of_ne_zero (by positivity)
    have hden : 0 < b * 2 ^ floorLog2 a := Nat.mul_pos hb hLpos
    obtain ⟨h1, h2⟩ := roundHalfEven_spec (a * 2 ^ shift) (b * 2 ^ floorLog2 a) hden
    rw [hx]
    unfold Double.toRat
    simp only []
    generalize roundHalfEven (a * 2 ^ shift) (b * 2 ^ floorLog2 a) = M at h1 h2
    have hbq : (0 : ℚ) < (b : ℚ) := by exact_mod_cast hb
    have hSq : (0 : ℚ) < (2 : ℚ) ^ shift := by positivity
    have hLq : (0 : ℚ) < (2 : ℚ) ^ floorLog2 a := by positivity
    have h1q : (2 : ℚ) * ((M : ℚ) * ((b : ℚ) * 2 ^ floorLog2 a)) ≤
        2 * ((a : ℚ) * 2 ^ shift) + (b : ℚ) * 2 ^ floorLog2 a := by exact_mod_cast h1
    have h2q : (2 : ℚ) * ((a : ℚ) * 2 ^ shift) ≤
        2 * ((M : ℚ) * ((b : ℚ) * 2 ^ floorLog2 a)) + (b : ℚ) * 2 ^ floorLog2 a := by
      exact_mod_cast h2
    have hlowq : (2 : ℚ) ^ 52 * ((b : ℚ) * 2 ^ floorLog2 a) ≤ (a : ℚ) * 2 ^ shift := by
      exact_mod_cast hlow
    push_cast
    have key : ((M : ℚ) * 2 ^ floorLog2 a) / 2 ^ shift - (a : ℚ) / (b : ℚ) =
        ((M : ℚ) * ((b : ℚ) * 2 ^ floorLog2 a) - (a : ℚ) * 2 ^ shift) / (2 ^ shift * (b : ℚ)) := by
      field_simp
      ring
    rw [key, abs_div, abs_of_pos (mul_pos hSq hbq), div_le_iff₀ (mul_pos hSq hbq)]
    have hrhs : (a : ℚ) / (b : ℚ) / 2 ^ 53 * (2 ^ shift * (b : ℚ)) =
        (a : ℚ) * 2 ^ shift / 2 ^ 53 := by
      field_simp
      ring
    have hhalf : (b : ℚ) * 2 ^ floorLog2 a / 2 ≤ (a : ℚ) * 2 ^ shift / 2 ^ 53 := by
      rw [le_div_iff₀ (by positivity)]
      have h53 : (2 : ℚ) ^ 53 = 2 * 2 ^ 52 := by norm_num
      rw [h53]
      linarith
    rw [hrhs, abs_le]
    constructor <;> linarith

theorem toFixedTenths_spec (x : Double) (hden : 0 < x.den) :
    (toFixedTenths x : ℚ) ≤ 10 * x.toRat + 1 / 2 ∧
    10 * x.toRat + 1 / 2 < (toFixedTenths x : ℚ) + 1 := by
  have h2d : 0 < 2 * x.den := by omega
  have h1 : toFixedTenths x * (2 * x.den) ≤ 20 * x.num + x.den :=
    Nat.div_mul_le_self _ _
  have h2 : 20 * x.num + x.den < 2 * x.den * (toFixedTenths x + 1) :=
    Nat.lt_mul_div_succ _ h2d
  have hdq : (0 : ℚ) < (x.den : ℚ) := by exact_mod_cast hden
  have h1q : (toFixedTenths x : ℚ) * (2 * (x.den : ℚ)) ≤ 20 * (x.num : ℚ) + (x.den : ℚ) := by
    exact_mod_cast h1
  have h2q : 20 * (x.num : ℚ) + (x.den : ℚ) < 2 * (x.den : ℚ) * ((toFixedTenths x : ℚ) + 1) := by
    exact_mod_cast h2
  unfold Double.toRat
  have e : 10 * ((x.num : ℚ) / (x.den : ℚ)) + 1 / 2 =
      (20 * (x.num : ℚ) + (x.den : ℚ)) / (2 * (x.den : ℚ)) := by
    field_simp
    ring
  rw [e]
  constructor
  · rw [le_div_iff₀ (by positivity)]
    exact h1q
  · rw [div_lt_iff₀ (by positivity)]
    linarith

theorem percentDouble_error (p n : Nat) (hn : 0 < n) :
    |(percentDouble p n).toRat - 100 * ((p : ℚ) / (n : ℚ))| ≤
      100 * ((p : ℚ) / (n : ℚ)) * (2 / 2 ^ 53 + 1 / 2 ^ 106) := by
  have h1 := nearestDouble_error p n hn
  have hd := nearestDouble_den_pos p n
  have h2 := nearestDouble_error (100 * (nearestDouble p n).num) (nearestDouble p n).den hd
  have hE : (0 : ℚ) ≤ (p : ℚ) / (n : ℚ) := by positivity
  have e1 : ((100 * (nearestDouble p n).num : Nat) : ℚ) / ((nearestDouble p n).den : ℚ) =
      100 * (nearestDouble p n).toRat := by
    unfold Double.toRat
    push_cast
    ring
  rw [e1] at h2
  unfold percentDouble
  generalize (nearestDouble (100 * (nearestDouble p n).num) (nearestDouble p n).den).toRat = v2
    at h2 ⊢
  generalize (nearestDouble p n).toRat = v1 at h1 h2
  generalize (p : ℚ) / (n : ℚ) = E at h1 hE ⊢
  rw [abs_le] at h1 h2 ⊢
  have hu : (0 : ℚ) < 1 / 2 ^ 53 := by positivity
  have hu1 : (1 : ℚ) / 2 ^ 53 < 1 := by norm_num
  have e106 : (1 : ℚ) / 2 ^ 106 = (1 / 2 ^ 53) * (1 / 2 ^ 53) := by norm_num
  have e2 : (2 : ℚ) / 2 ^ 53 = 2 * (1 / 2 ^ 53) := by ring
  rw [e106, e2]
  have h1a : E / 2 ^ 53 = E * (1 / 2 ^ 53) := by ring
  have h2a : 100 * v1 / 2 ^ 53 = 100 * v1 * (1 / 2 ^ 53) := by ring
  rw [h1a] at h1
  rw [h2a] at h2
  generalize (1 : ℚ) / 2 ^ 53 = u at *
  obtain ⟨h1l, h1r⟩ := h1
  obtain ⟨h2l, h2r⟩ := h2
  have hv1 : 0 ≤ v1 := by nlinarith
  constructor
  · nlinarith [mul_nonneg hE (le_of_lt hu), mul_nonneg (mul_nonneg hE (le_of_lt hu)) (le_of_lt hu)]
  · nlinarith [mul_nonneg hE (le_of_lt hu), mul_nonneg (mul_nonneg hE (le_of_lt hu)) (le_of_lt hu)]

theorem percent_tenths_nearest (p n : Nat) (hn : 0 < n) (hp : p < 2 ^ 32) :
    |(toFixedTenths (percentDouble p n) : ℚ) / 10 - (p : ℚ) / (n : ℚ) * 100| ≤ 1 / 20 := by
  have hden : 0 < (percentDouble p n).den := by
    unfold percentDouble
    exact nearestDouble_den_pos _ _
  obtain ⟨ht1, ht2⟩ := toFixedTenths_spec (percentDouble p n) hden
  have herr := percentDouble_error p n hn
  rw [abs_le] at herr
  obtain ⟨he1, he2⟩ := herr
  have hnq : (0 : ℚ) < (n : ℚ) := by exact_mod_cast hn
  have hpq : (p : ℚ) ≤ 2 ^ 32 := by exact_mod_cast (Nat.le_of_lt hp)
  have hp0 : (0 : ℚ) ≤ (p : ℚ) := by positivity
  have hE : (p : ℚ) / (n : ℚ) * (n : ℚ) = (p : ℚ) := by field_simp
  generalize (toFixedTenths (percentDouble p n)) = t at *
  generalize (percentDouble p n).toRat = v at *
  have hc : 1000 * (p : ℚ) * (2 / 2 ^ 53 + 1 / 2 ^ 106) < 1 / 2 := by
    have : (0 : ℚ) < 2 / 2 ^ 53 + 1 / 2 ^ 106 := by positivity
    calc 1000 * (p : ℚ) * (2 / 2 ^ 53 + 1 / 2 ^ 106)
        ≤ 1000 * 2 ^ 32 * (2 / 2 ^ 53 + 1 / 2 ^ 106) := by
          apply mul_le_mul_of_nonneg_right _ (le_of_lt this)
          linarith
      _ < 1 / 2 := by norm_num
  -- the error of `v`, multiplied by `10 * n`
  have hup : 10 * v * (n : ℚ) - 1000 * (p : ℚ) ≤
      1000 * (p : ℚ) * (2 / 2 ^ 53 + 1 / 2 ^ 106) := by
    have := mul_le_mul_of_nonneg_right he2 (le_of_lt hnq)
    nlinarith
  have hlo : -(1000 * (p : ℚ) * (2 / 2 ^ 53 + 1 / 2 ^ 106)) ≤
      10 * v * (n : ℚ) - 1000 * (p : ℚ) := by
    have := mul_le_mul_of_nonneg_right he1 (le_of_lt hnq)
    nlinarith
  have hq1 : 2 * ((t : ℚ) * (n : ℚ)) - 2000 * (p : ℚ) < (n : ℚ) + 1 := by
    have := mul_le_mul_of_nonneg_right ht1 (le_of_lt hnq)
    nlinarith
  have hq2 : -((n : ℚ) + 1) < 2 * ((t : ℚ) * (n : ℚ)) - 2000 * (p : ℚ) := by
    have := mul_lt_mul_of_pos_right ht2 hnq
    nlinarith
  have hi1 : 2 * ((t : ℤ) * (n : ℤ)) - 2000 * (p : ℤ) < (n : ℤ) + 1 := by exact_mod_cast hq1
  have hi2 : -((n : ℤ) + 1) < 2 * ((t : ℤ) * (n : ℤ)) - 2000 * (p : ℤ) := by exact_mod_cast hq2
  have hj1 : 2 * ((t : ℤ) * (n : ℤ)) - 2000 * (p : ℤ) ≤ (n : ℤ) := by omega
  have hj2 : -(n : ℤ) ≤ 2 * ((t : ℤ) * (n : ℤ)) - 2000 * (p : ℤ) := by omega
  have hk1 : 2 * ((t : ℚ) * (n : ℚ)) - 2000 * (p : ℚ) ≤ (n : ℚ) := by exact_mod_cast hj1
  have hk2 : -(n : ℚ) ≤ 2 * ((t : ℚ) * (n : ℚ)) - 2000 * (p : ℚ) := by exact_mod_cast hj2
  have key : (t : ℚ) / 10 - (p : ℚ) / (n : ℚ) * 100 =
      (2 * ((t : ℚ) * (n : ℚ)) - 2000 * (p : ℚ)) / (20 * (n : ℚ)) := by
    field_simp
    ring
  rw [key, abs_le]
  constructor
  · rw [le_div_iff₀ (by positivity)]
    linarith
  · rw [div_le_iff₀ (by positivity)]
    linarith

theorem rate_tie_example :
    toFixedTenths (percentDouble 1961 2000) = 980 ∧
    toFixedTenths (percentDouble 1 400) = 3 := by
  decide

/-! ## Row-level lemmas on `parseCSVData` -/

theorem Candidate.filled_iff (c : Candidate) :
    c.filled = true ↔
      ¬ (c.name = "" ∨ c.roll_no = "" ∨ c.class_ = "" ∨ c.parent_phone = "") := by
  simp [Candidate.filled, not_or, and_assoc]

theorem importRow_unfold (students : List Student) (headers : List String) (i : Nat)
    (line : String) (newStudents : List Student) (errors : List String) :
    importRow students headers i line newStudents errors =
      if (rowValues line).length ≠ headers.length then (newStudents, errors)
      else if (rowCandidate headers line).name = "" ∨ (rowCandidate headers line).roll_no = "" ∨
          (rowCandidate headers line).class_ = "" ∨
          (rowCandidate headers line).parent_phone = "" then
        (newStudents, errors ++ ["Row " ++ toString (i + 1) ++ ": Missing required fields"])
      else if students.any (fun s => s.roll_no == (rowCandidate headers line).roll_no) then
        (newStudents,
          errors ++ ["Row " ++ toString (i + 1) ++ ": Roll number " ++
            (rowCandidate headers line).roll_no ++ " already exists"])
      else
        (newStudents ++
          [(rowCandidate headers line).toStudent (importId students newStudents)], errors) :=
  rfl

theorem importRow_eq (students : List Student) (headers : List String) (i : Nat)
    (line : String) (newStudents : List Student) (errors : List String) :
    importRow students headers i line newStudents errors =
      (newStudents ++
        (if rowAdded students headers line then
          [(rowCandidate headers line).toStudent (importId students newStudents)]
         else []),
       errors ++ (rowError students headers i line).toList) := by
  rw [importRow_unfold]
  unfold rowAdded rowError rowFits
  by_cases h1 : (rowValues line).length = headers.length
  · by_cases h2 : (rowCandidate headers line).filled = true
    · have h2' := (Candidate.filled_iff _).mp h2
      by_cases h3 : students.any (fun s => s.roll_no == (rowCandidate headers line).roll_no) = true
      · simp [h1, h2, h2', h3]
      · simp [h1, h2, h2', h3]
    · have h2' : (rowCandidate headers line).name = "" ∨ (rowCandidate headers line).roll_no = "" ∨
          (rowCandidate headers line).class_ = "" ∨
          (rowCandidate headers line).parent_phone = "" := by
        by_contra hc
        exact h2 ((Candidate.filled_iff _).mpr hc)
      simp [h1, h2, h2']
  · simp [h1]

theorem importRows_eq (students : List Student) (headers : List String) (rows : List String) :
    ∀ (i : Nat) (newStudents : List Student) (errors : List String),
      ((importRows students headers i rows newStudents errors).1.map Student.candidate =
        newStudents.map Student.candidate ++
          (rows.filter (rowAdded students headers)).map (rowCandidate headers)) ∧
      (importRows students headers i rows newStudents errors).2 =
        errors ++ (rows.enumFrom i).filterMap
          (fun jl => rowError students headers jl.1 jl.2) := by
  induction rows with
  | nil => intro i newStudents errors; simp [importRows]
  | cons line rest ih =>
    intro i newStudents errors
    simp only [importRows]
    rw [importRow_eq]
    obtain ⟨h1, h2⟩ := ih (i + 1)
      (newStudents ++ (if rowAdded students headers line then
          [(rowCandidate headers line).toStudent (importId students newStudents)] else []))
      (errors ++ (rowError students headers i line).toList)
    rw [h1, h2]
    constructor
    · by_cases ha : rowAdded students headers line = true
      · simp [ha, List.filter_cons, Candidate.toStudent, Student.candidate]
      · simp [ha, List.filter_cons]
    · cases he : rowError students headers i line with
      | none => simp [List.enumFrom_cons, List.filterMap_cons, he]
      | some e => simp [List.enumFrom_cons, List.filterMap_cons, he]

theorem parseCSVData_of_validHeader (students : List Student) (csvText : String)
    (h : validHeader csvText = true) :
    parseCSVData students csvText =
      { students := students ++
          (importRows students (csvHeaders csvText) 1 (csvRows csvText) [] []).1
        toasts :=
          (if (importRows students (csvHeaders csvText) 1 (csvRows csvText) [] []).1.length > 0
            then
              [⟨"Successfully imported " ++
                toString (importRows students (csvHeaders csvText) 1 (csvRows csvText)
                  [] []).1.length ++ " students", "success"⟩]
            else []) ++
          (if (importRows students (csvHeaders csvText) 1 (csvRows csvText) [] []).2.length > 0
            then
              [⟨"Import completed with " ++
                toString (importRows students (csvHeaders csvText) 1 (csvRows csvText)
                  [] []).2.length ++ " errors. Check console for details.", "warning"⟩]
            else [])
        errors := (importRows students (csvHeaders csvText) 1 (csvRows csvText) [] []).2
        newStudents := (importRows students (csvHeaders csvText) 1 (csvRows csvText) [] []).1
        saved :=
          decide ((importRows students (csvHeaders csvText) 1 (csvRows csvText)
            [] []).1.length > 0) } := by
  unfold validHeader at h
  simp only [Bool.and_eq_true, decide_eq_true_eq] at h
  obtain ⟨hlen, hreq⟩ := h
  unfold parseCSVData csvHeaders csvRows at *
  unfold csvLines at *
  cases hl : (splitOn '\n' csvText).filter (fun line => jsTrim line != "") with
  | nil => rw [hl] at hlen; simp at hlen
  | cons header rows =>
    rw [hl] at hlen hreq
    cases rows with
    | nil => simp at hlen
    | cons row rest =>
      simp only [List.tail_cons] at *
      have hm : ¬ (requiredHeaders.filter (fun h =>
          !((splitOn ',' header).map (fun h => toLowerCase (jsTrim h))).contains h)).length > 0 := by
        have : requiredHeaders.filter (fun h =>
            !((splitOn ',' header).map (fun h => toLowerCase (jsTrim h))).contains h) = [] := by
          rw [List.filter_eq_nil_iff]
          intro a ha
          have := (List.all_eq_true.mp hreq) a ha
          rw [this]
          simp
        rw [this]
        simp
      rw [if_neg hm]
      by_cases hn : (importRows students
          ((splitOn ',' header).map (fun h => toLowerCase (jsTrim h))) 1 (row :: rest) [] []).1.length > 0
      · simp only [hn, if_true]
      · simp only [hn, if_false]
        have hnil : (importRows students
            ((splitOn ',' header).map (fun h => toLowerCase (jsTrim h))) 1 (row :: rest) [] []).1 = [] :=
          List.length_eq_zero.mp (by omega)
        simp [hnil]

theorem row_added_or_error (students : List Student) (headers : List String) (i : Nat)
    (line : String) :
    (rowFits headers line = true ∧
      ((rowAdded students headers line = true ∧ rowError students headers i line = none) ∨
       (rowAdded students headers line = false ∧
        ∃ e, rowError students headers i line = some e))) ∨
    (rowFits headers line = false ∧ rowAdded students headers line = false ∧
      rowError students headers i line = none) := by
  by_cases h1 : rowFits headers line = true
  · left
    refine ⟨h1, ?_⟩
    by_cases h2 : (rowCandidate headers line).filled = true
    · by_cases h3 : students.any
          (fun s => s.roll_no == (rowCandidate headers line).roll_no) = true
      · right
        exact ⟨by simp [rowAdded, h1, h2, h3],
          "Row " ++ toString (i + 1) ++ ": Roll number " ++
            (rowCandidate headers line).roll_no ++ " already exists",
          by simp [rowError, h1, h2, h3]⟩
      · left; exact ⟨by simp [rowAdded, h1, h2, h3], by simp [rowError, h1, h2, h3]⟩
    · right
      exact ⟨by simp [rowAdded, h1, h2],
        "Row " ++ toString (i + 1) ++ ": Missing required fields",
        by simp [rowError, h1, h2]⟩
  · right
    have h1' : rowFits headers line = false := by simpa using h1
    exact ⟨h1', by simp [rowAdded, h1'], by simp [rowError, h1']⟩

theorem rows_added_or_error (students : List Student) (headers : List String)
    (rows : List String) :
    ∀ i : Nat,
      (rows.filter (rowAdded students headers)).length +
        ((rows.enumFrom i).filterMap (fun jl => rowError students headers jl.1 jl.2)).length =
      (rows.filter (rowFits headers)).length := by
  induction rows with
  | nil => intro i; rfl
  | cons line rest ih =>
    intro i
    have h := ih (i + 1)
    simp only [List.enumFrom_cons, List.filter_cons, List.filterMap_cons]
    rcases row_added_or_error students headers i line with
      ⟨h1, ⟨hA, hE⟩ | ⟨hA, e, hE⟩⟩ | ⟨h1, hA, hE⟩
    · simp only [h1, hA, hE, if_true, List.length_cons]
      omega
    · simp only [h1, hA, hE, if_true, Bool.false_eq_true, if_false, List.length_cons]
      omega
    · simp only [h1, hA, hE, Bool.false_eq_true, if_false]
      exact h

/-! ## Lemmas on trimmed fields -/

theorem trimChars_eq (cs : List Char) :
    trimChars cs = List.rdropWhile isJsSpace (cs.dropWhile isJsSpace) := rfl

theorem dropWhile_cons_self {α : Type} (p : α → Bool) (a : α) (r : List α)
    (h : List.dropWhile p (a :: r) = a :: r) : p a = false := by
  by_contra hp
  have hp' : p a = true := by simpa using hp
  rw [List.dropWhile_cons, if_pos hp'] at h
  have hlen := congrArg List.length h
  have hle : (List.dropWhile p r).length ≤ r.length :=
    (List.dropWhile_sublist p).length_le
  simp only [List.length_cons] at hlen
  omega

theorem dropWhile_of_append {α : Type} (p : α → Bool) (t w : List α)
    (h : List.dropWhile p (t ++ w) = t ++ w) : List.dropWhile p t = t := by
  cases t with
  | nil => rfl
  | cons a t =>
    have hp := dropWhile_cons_self p a (t ++ w) h
    simp [List.dropWhile_cons, hp]

theorem trimChars_idempotent (cs : List Char) : trimChars (trimChars cs) = trimChars cs := by
  have hhead : List.dropWhile isJsSpace (trimChars cs) = trimChars cs := by
    obtain ⟨w, hw⟩ := List.rdropWhile_prefix isJsSpace (l := cs.dropWhile isJsSpace)
    rw [← trimChars_eq] at hw
    apply dropWhile_of_append isJsSpace (trimChars cs) w
    rw [hw]
    exact List.dropWhile_idempotent isJsSpace cs
  rw [trimChars_eq (trimChars cs), hhead, trimChars_eq, List.rdropWhile_idempotent]

theorem jsTrim_idempotent (s : String) : jsTrim (jsTrim s) = jsTrim s := by
  unfold jsTrim
  simp only [trimChars_idempotent]

theorem jsTrim_empty : jsTrim "" = "" := by decide

theorem getField_trimmed (headers values : List String) (key : String)
    (hv : ∀ v ∈ values, jsTrim v = v) :
    jsTrim (getField (studentData headers values) key) =
      getField (studentData headers values) key := by
  unfold getField
  cases hf : (studentData headers values).reverse.find? (fun kv => kv.1 == key) with
  | none => simp [jsTrim_empty]
  | some kv =>
    have hmem : kv ∈ (studentData headers values).reverse := List.mem_of_find?_eq_some hf
    rw [List.mem_reverse] at hmem
    have : kv.2 ∈ values := by
      unfold studentData at hmem
      exact (List.of_mem_zip hmem).2
    simpa using hv kv.2 this

theorem rowValues_trimmed (line : String) : ∀ v ∈ rowValues line, jsTrim v = v := by
  intro v hv
  unfold rowValues at hv
  obtain ⟨w, _, rfl⟩ := List.mem_map.mp hv
  exact jsTrim_idempotent w

theorem rowCandidate_trimmed (headers : List String) (line : String) :
    jsTrim (rowCandidate headers line).name = (rowCandidate headers line).name ∧
    jsTrim (rowCandidate headers line).roll_no = (rowCandidate headers line).roll_no ∧
    jsTrim (rowCandidate headers line).class_ = (rowCandidate headers line).class_ ∧
    jsTrim (rowCandidate headers line).parent_phone =
      (rowCandidate headers line).parent_phone :=
  ⟨getField_trimmed _ _ _ (rowValues_trimmed line), getField_trimmed _ _ _ (rowValues_trimmed line),
   getField_trimmed _ _ _ (rowValues_trimmed line), getField_trimmed _ _ _ (rowValues_trimmed line)⟩

/-! ## Lemmas on the phone check -/

theorem shape_of_phoneDigits (cs : List Char) (h : phoneDigits cs = true) :
    ∃ d ds, cs = d :: ds ∧ ('1' ≤ d ∧ d ≤ '9') ∧ (∀ c ∈ ds, c.isDigit = true) ∧
      ds.length ≤ 15 := by
  cases cs with
  | nil => simp [phoneDigits] at h
  | cons d ds =>
    simp only [phoneDigits, Bool.and_eq_true, decide_eq_true_eq, List.all_eq_true] at h
    exact ⟨d, ds, rfl, h.1.1, h.1.2, h.2⟩

theorem shape_of_phoneRegexTest (s : String) (h : phoneRegexTest s = true) :
    ∃ d ds, (s.data = d :: ds ∨ s.data = '+' :: d :: ds) ∧ ('1' ≤ d ∧ d ≤ '9') ∧
      (∀ c ∈ ds, c.isDigit = true) ∧ ds.length ≤ 15 := by
  unfold phoneRegexTest at h
  split at h
  · next rest heq =>
    obtain ⟨d, ds, h1, h2, h3, h4⟩ := shape_of_phoneDigits rest h
    exact ⟨d, ds, Or.inr (by rw [heq, h1]), h2, h3, h4⟩
  · obtain ⟨d, ds, h1, h2, h3, h4⟩ := shape_of_phoneDigits s.data h
    exact ⟨d, ds, Or.inl h1, h2, h3, h4⟩

/-! ## Lemmas on the clock: calendar, local time and `toISOString` -/

theorem DayFromYear_estimate (d : Int) :
    DayFromYear (1970 + 400 * d / 146097 - 1) ≤ d ∧
    d < DayFromYear (1970 + 400 * d / 146097 + 1 + 1) := by
  unfold DayFromYear
  generalize he : 400 * d / 146097 = e
  have h1 : 146097 * e ≤ 400 * d ∧ 400 * d < 146097 * e + 146097 := by omega
  have a1 : 4 * ((1970 + e - 1 - 1969) / 4) ≤ 1970 + e - 1 - 1969 ∧
      1970 + e - 1 - 1969 < 4 * ((1970 + e - 1 - 1969) / 4) + 4 := by omega
  have a2 : 100 * ((1970 + e - 1 - 1901) / 100) ≤ 1970 + e - 1 - 1901 ∧
      1970 + e - 1 - 1901 < 100 * ((1970 + e - 1 - 1901) / 100) + 100 := by omega
  have a3 : 400 * ((1970 + e - 1 - 1601) / 400) ≤ 1970 + e - 1 - 1601 ∧
      1970 + e - 1 - 1601 < 400 * ((1970 + e - 1 - 1601) / 400) + 400 := by omega
  have b1 : 4 * ((1970 + e + 1 + 1 - 1969) / 4) ≤ 1970 + e + 1 + 1 - 1969 ∧
      1970 + e + 1 + 1 - 1969 < 4 * ((1970 + e + 1 + 1 - 1969) / 4) + 4 := by omega
  have b2 : 100 * ((1970 + e + 1 + 1 - 1901) / 100) ≤ 1970 + e + 1 + 1 - 1901 ∧
      1970 + e + 1 + 1 - 1901 < 100 * ((1970 + e + 1 + 1 - 1901) / 100) + 100 := by omega
  have b3 : 400 * ((1970 + e + 1 + 1 - 1601) / 400) ≤ 1970 + e + 1 + 1 - 1601 ∧
      1970 + e + 1 + 1 - 1601 < 400 * ((1970 + e + 1 + 1 - 1601) / 400) + 400 := by omega
  generalize (1970 + e - 1 - 1969) / 4 = p1 at *
  generalize (1970 + e - 1 - 1901) / 100 = p2 at *
  generalize (1970 + e - 1 - 1601) / 400 = p3 at *
  generalize (1970 + e + 1 + 1 - 1969) / 4 = r1 at *
  generalize (1970 + e + 1 + 1 - 1901) / 100 = r2 at *
  generalize (1970 + e + 1 + 1 - 1601) / 400 = r3 at *
  constructor <;> linarith [h1.1, h1.2, a1.1, a1.2, a2.1, a2.2, a3.1, a3.2, b1.1, b1.2, b2.1,
    b2.2, b3.1, b3.2]

theorem YearFromTime_spec (t : Int) :
    DayFromYear (YearFromTime t) ≤ Day t ∧ Day t < DayFromYear (YearFromTime t + 1) := by
  have h := DayFromYear_estimate (Day t)
  unfold YearFromTime
  simp only []
  generalize 1970 + 400 * Day t / 146097 = y at *
  have e1 : y - 1 + 1 = y := by ring
  split_ifs with h1 h2
  · rw [e1]; exact ⟨h.1, h1⟩
  · exact ⟨h2, h.2⟩
  · exact ⟨not_lt.mp h1, not_le.mp h2⟩

theorem DayFromYear_mono (y z : Int) (h : y ≤ z) : DayFromYear y ≤ DayFromYear z := by
  unfold DayFromYear
  omega

theorem YearFromTime_largest (t y : Int) (h : DayFromYear y ≤ Day t) : y ≤ YearFromTime t := by
  by_contra hc
  have h1 : YearFromTime t + 1 ≤ y := by omega
  have h2 := DayFromYear_mono _ _ h1
  have h3 := (YearFromTime_spec t).2
  omega

theorem month_table_range (d l m : Int)
    (hm : m = (if d < 31 then 0 else if d < 59 + l then 1 else if d < 90 + l then 2
      else if d < 120 + l then 3 else if d < 151 + l then 4 else if d < 181 + l then 5
      else if d < 212 + l then 6 else if d < 243 + l then 7 else if d < 273 + l then 8
      else if d < 304 + l then 9 else if d < 334 + l then 10 else 11)) : 0 ≤ m ∧ m ≤ 11 := by
  by_cases h0 : d < 31
  · rw [if_pos h0] at hm; omega
  rw [if_neg h0] at hm
  by_cases h1 : d < 59 + l
  · rw [if_pos h1] at hm; omega
  rw [if_neg h1] at hm
  by_cases h2 : d < 90 + l
  · rw [if_pos h2] at hm; omega
  rw [if_neg h2] at hm
  by_cases h3 : d < 120 + l
  · rw [if_pos h3] at hm; omega
  rw [if_neg h3] at hm
  by_cases h4 : d < 151 + l
  · rw [if_pos h4] at hm; omega
  rw [if_neg h4] at hm
  by_cases h5 : d < 181 + l
  · rw [if_pos h5] at hm; omega
  rw [if_neg h5] at hm
  by_cases h6 : d < 212 + l
  · rw [if_pos h6] at hm; omega
  rw [if_neg h6] at hm
  by_cases h7 : d < 243 + l
  · rw [if_pos h7] at hm; omega
  rw [if_neg h7] at hm
  by_cases h8 : d < 273 + l
  · rw [if_pos h8] at hm; omega
  rw [if_neg h8] at hm
  by_cases h9 : d < 304 + l
  · rw [if_pos h9] at hm; omega
  rw [if_neg h9] at hm
  by_cases h10 : d < 334 + l
  · rw [if_pos h10] at hm; omega
  rw [if_neg h10] at hm
  omega

theorem MonthFromTime_range (t : Int) : 0 ≤ MonthFromTime t ∧ MonthFromTime t ≤ 11 :=
  month_table_range (DayWithinYear t) (InLeapYear t) (MonthFromTime t) rfl

theorem MakeDay_of_time (t k : Int) :
    MakeDay (YearFromTime t) (MonthFromTime t) (DateFromTime t - k) = Day t - k := by
  obtain ⟨h0, h11⟩ := MonthFromTime_range t
  have hq : MonthFromTime t / 12 = 0 := by omega
  have hr : MonthFromTime t % 12 = MonthFromTime t := by omega
  unfold MakeDay DateFromTime DayWithinYear InLeapYear
  simp only [hq, hr, add_zero]
  ring

theorem setDate_of_no_transition (offset now k : Int) :
    setDate ⟨offset, []⟩ now (getDate ⟨offset, []⟩ now - k) = TimeClip (now - k * msPerDay) := by
  unfold setDate getDate LocalTime UTC TimeZone.offsetAtUTC TimeZone.offsetAtLocal
  simp only [List.foldl_nil]
  rw [MakeDay_of_time]
  congr 1
  unfold MakeDate Day TimeWithinDay msPerDay
  omega

theorem splitAux_head (sep : Char) (a b : List Char) (h : sep ∉ a) :
    ∀ cur : List Char, (splitAux sep (a ++ sep :: b) cur).headD "" = ⟨cur.reverse ++ a⟩ := by
  induction a with
  | nil => intro cur; simp [splitAux]
  | cons c a ih =>
    intro cur
    have hc : c ≠ sep := fun e => h (by simp [e])
    have ha : sep ∉ a := fun e => h (by simp [e])
    have hstep : splitAux sep (c :: a ++ sep :: b) cur = splitAux sep (a ++ sep :: b) (c :: cur) := by
      simp only [List.cons_append]
      rw [splitAux, if_neg hc]
    rw [hstep, ih ha (c :: cur)]
    simp

theorem digitChar_ne (n : Nat) : digitChar n ≠ 'T' := by
  unfold digitChar
  have h : n % 10 < 10 := Nat.mod_lt _ (by decide)
  generalize n % 10 = m at h
  interval_cases m <;> decide

theorem padDigits_ne (width : Nat) : ∀ n : Nat, 'T' ∉ padDigits width n := by
  induction width with
  | zero => intro n; simp [padDigits]
  | succ w ih =>
    intro n
    simp only [padDigits, List.mem_append, List.mem_singleton, not_or]
    exact ⟨ih _, fun e => digitChar_ne n e.symm⟩

theorem dateChars_ne (tv : Int) : 'T' ∉ dateChars tv := by
  have hy : 'T' ∉ (if 0 ≤ YearFromTime tv ∧ YearFromTime tv ≤ 9999 then
      padDigits 4 (YearFromTime tv).toNat
    else (if YearFromTime tv < 0 then '-' else '+') :: padDigits 6 (YearFromTime tv).natAbs) := by
    split_ifs
    · exact padDigits_ne _ _
    · intro h
      rcases List.mem_cons.mp h with h | h
      · exact absurd h (by decide)
      · exact padDigits_ne _ _ h
    · intro h
      rcases List.mem_cons.mp h with h | h
      · exact absurd h (by decide)
      · exact padDigits_ne _ _ h
  unfold dateChars
  intro h
  rcases List.mem_append.mp h with h | h
  · rcases List.mem_append.mp h with h | h
    · exact hy h
    · rcases List.mem_cons.mp h with h | h
      · exact absurd h (by decide)
      · exact padDigits_ne _ _ h
  · rcases List.mem_cons.mp h with h | h
    · exact absurd h (by decide)
    · exact padDigits_ne _ _ h

theorem isoDate_eq (tv : Int) : isoDate tv = ⟨dateChars tv⟩ := by
  unfold isoDate toISOString splitOn
  simp only [List.append_assoc, List.cons_append]
  rw [splitAux_head 'T' (dateChars tv) _ (dateChars_ne tv) []]
  simp

theorem isoDate_of_Day (t u : Int) (h : Day t = Day u) : isoDate t = isoDate u := by
  rw [isoDate_eq, isoDate_eq]
  unfold dateChars DateFromTime MonthFromTime InLeapYear DayWithinYear YearFromTime
  rw [h]

theorem Day_sub_days (now k : Int) : Day (now - k * msPerDay) = Day now - k := by
  unfold Day msPerDay
  omega

/-! ## Claims on the statistics engine (C11 to C15) -/

/-- C11: when the ledger has a session dated today (the first one of that date),
`updateStats` sets `today_present` to the number of its entries with status `present`
and `today_absent` to the roster size minus `today_present`; when it has none,
`today_present` is `0` and `today_absent` the roster size. On four students and a session
for today with the entries present, present, absent this gives `2` and `2`. -/
theorem updateStats_today_counts :
    (∀ (currentStats : Stats) (students : List Student)
        (attendanceRecords : List AttendanceData) (today : String),
      (∀ session : AttendanceData, sessionForDate attendanceRecords today = some session →
        (updateStats currentStats students attendanceRecords today).today_present =
          countStatus "present" session.records ∧
        (updateStats currentStats students attendanceRecords today).today_absent =
          (students.length : Int) -
            ((updateStats currentStats students attendanceRecords today).today_present : Int)) ∧
      (sessionForDate attendanceRecords today = none →
        (updateStats currentStats students attendanceRecords today).today_present = 0 ∧
        (updateStats currentStats students attendanceRecords today).today_absent =
          (students.length : Int))) ∧
    (fourStudents.length = 4 ∧
      (sessionForDate exampleLedger "2024-01-10").map
          (fun s => s.records.map (fun r => r.status)) =
        some ["present", "present", "absent"] ∧
      (updateStats initialStats fourStudents exampleLedger "2024-01-10").today_present = 2 ∧
      (updateStats initialStats fourStudents exampleLedger "2024-01-10").today_absent = 2) := by
  refine ⟨?_, by decide⟩
  intro currentStats students attendanceRecords today
  constructor
  · intro session h
    rw [updateStats_of_session currentStats students attendanceRecords today session h]
    exact ⟨rfl, rfl⟩
  · intro h
    rw [updateStats_of_no_session currentStats students attendanceRecords today h]
    exact ⟨rfl, rfl⟩

/-- C11 (witness): `updateStats_today_counts` on four students and the session of
`exampleLedger` for `2024-01-10`, and on the same ledger on a day without a session. -/
theorem updateStats_today_counts_witness :
    ((updateStats initialStats fourStudents exampleLedger "2024-01-10").today_present =
        countStatus "present" (attendanceData fourStudents "2024-01-10"
          "2024-01-10T09:00:00.000Z" threeItems).records ∧
      (updateStats initialStats fourStudents exampleLedger "2024-01-10").today_absent =
        (fourStudents.length : Int) -
          ((updateStats initialStats fourStudents exampleLedger "2024-01-10").today_present :
            Int)) ∧
    ((updateStats initialStats fourStudents exampleLedger "2024-01-11").today_present = 0 ∧
      (updateStats initialStats fourStudents exampleLedger "2024-01-11").today_absent =
        (fourStudents.length : Int)) :=
  ⟨(updateStats_today_counts.1 initialStats fourStudents exampleLedger "2024-01-10").1
      (attendanceData fourStudents "2024-01-10" "2024-01-10T09:00:00.000Z" threeItems)
      (by decide),
   (updateStats_today_counts.1 initialStats fourStudents exampleLedger "2024-01-11").2
      (by decide)⟩

/-- C12: on an empty roster `updateStats` sets `attendance_rate` to the number `0`,
with or without a session for today, and the quotient is not formed. On a non-empty
roster the rate is a number of tenths nearest to `today_present / rosterSize * 100`: it
differs from that value by at most `0.05` (the division, the multiplication and
`toFixed(1)` are taken in double arithmetic; `today_present` is an array length, below
`2 ^ 32`). When the exact value lies midway between two tenths either neighbour may
result. Two present out of four students give the text `50.0`. -/
theorem attendance_rate_rounded :
    (∀ (currentStats : Stats) (attendanceRecords : List AttendanceData) (today : String),
      (updateStats currentStats [] attendanceRecords today).attendance_rate = Rate.zero) ∧
    (∀ (currentStats : Stats) (students : List Student)
        (attendanceRecords : List AttendanceData) (today : String),
      students ≠ [] →
      (updateStats currentStats students attendanceRecords today).today_present < 2 ^ 32 →
      |((updateStats currentStats students attendanceRecords today).attendance_rate.tenths : ℚ)
            / 10 -
          ((updateStats currentStats students attendanceRecords today).today_present : ℚ) /
            (students.length : ℚ) * 100| ≤ 1 / 20) ∧
    ((updateStats initialStats fourStudents exampleLedger "2024-01-10").today_present = 2 ∧
      fourStudents.length = 4 ∧
      (updateStats initialStats fourStudents exampleLedger "2024-01-10").attendance_rate.text =
        "50.0") := by
  refine ⟨?_, ?_, by decide⟩
  · intro currentStats attendanceRecords today
    cases h : sessionForDate attendanceRecords today with
    | none => rw [updateStats_of_no_session _ _ _ _ h]
    | some session =>
      rw [updateStats_of_session _ _ _ _ session h]
      rfl
  · intro currentStats students attendanceRecords today hne hp
    have hlen : 0 < students.length := List.length_pos.mpr hne
    cases h : sessionForDate attendanceRecords today with
    | none =>
      rw [updateStats_of_no_session _ _ _ _ h]
      simp [Rate.tenths]
    | some session =>
      rw [updateStats_of_session _ _ _ _ session h] at hp ⊢
      simp only [hlen, if_true, Rate.tenths, gt_iff_lt] at hp ⊢
      exact percent_tenths_nearest _ _ hlen hp

/-- C12 (witness): `attendance_rate_rounded` on four students and the session of
`exampleLedger` for `2024-01-10`. -/
theorem attendance_rate_rounded_witness :
    |((updateStats initialStats fourStudents exampleLedger "2024-01-10").attendance_rate.tenths
          : ℚ) / 10 -
        ((updateStats initialStats fourStudents exampleLedger "2024-01-10").today_present : ℚ) /
          (fourStudents.length : ℚ) * 100| ≤ 1 / 20 :=
  attendance_rate_rounded.2.1 initialStats fourStudents exampleLedger "2024-01-10"
    (by decide) (by decide)

/-- C13: whatever the ledger and the clock, `updateAttendanceTrends` builds exactly 7
points, and a point whose date is the date of no session of the ledger has `present = 0`
and `absent = 0`. -/
theorem trends_seven_points_zero_filled (attendanceRecords : List AttendanceData)
    (dateStr : Nat → String) :
    (updateAttendanceTrends attendanceRecords dateStr).length = 7 ∧
    ∀ pt ∈ updateAttendanceTrends attendanceRecords dateStr,
      (∀ r ∈ attendanceRecords, r.date ≠ pt.date) → pt.present = 0 ∧ pt.absent = 0 := by
  rw [updateAttendanceTrends_eq]
  refine ⟨rfl, ?_⟩
  intro pt hpt hno
  simp only [List.mem_cons, List.mem_singleton, List.not_mem_nil, or_false] at hpt
  rcases hpt with h | h | h | h | h | h | h <;>
  · subst h
    rw [trendPoint_date] at hno
    rw [trendPoint_of_no_session _ _ hno]
    exact ⟨rfl, rfl⟩

/-- C13 (witness): `trends_seven_points_zero_filled` on `exampleLedger`: the point of
`2024-01-09`, a date without a session, is zero-filled. -/
theorem trends_seven_points_zero_filled_witness :
    (updateAttendanceTrends exampleLedger exampleDateStr).length = 7 ∧
    (trendPoint exampleLedger (exampleDateStr 1)).present = 0 ∧
    (trendPoint exampleLedger (exampleDateStr 1)).absent = 0 :=
  ⟨(trends_seven_points_zero_filled exampleLedger exampleDateStr).1,
   (trends_seven_points_zero_filled exampleLedger exampleDateStr).2
      (trendPoint exampleLedger (exampleDateStr 1)) (by decide) (by decide)⟩

theorem Day_of_day (d : Int) : Day (d * msPerDay) = d := by
  unfold Day msPerDay
  omega

theorem loopDateStr_of_no_transition (offset now : Int) (i : Nat)
    (h0 : 0 ≤ now) (h1 : now ≤ 8640000000000000) (hi : i ≤ 6) :
    loopDateStr ⟨offset, []⟩ now i = some (isoDateOfDay (Day now - (i : Int))) := by
  unfold loopDateStr
  rw [setDate_of_no_transition]
  have hr : (now - (i : Int) * msPerDay).natAbs ≤ 8640000000000000 := by
    unfold msPerDay
    omega
  unfold TimeClip
  rw [if_pos hr]
  simp only [Option.map_some', Option.some.injEq]
  unfold isoDateOfDay
  apply isoDate_of_Day
  rw [Day_sub_days, Day_of_day]

/-- The trend points on a host whose time zone has no transition, when the seven clock
readings of the loop are time values from the epoch on that fall on the UTC day `today`:
the method returns seven points, the point at index `i` carries the ISO date of the day
`today - (6 - i)`, the last one the date of `today`, and a point whose date has a session
(the first one of that date) counts the entries of that session with the status
`present` and with the status `absent`. -/
theorem trends_without_transitions (offset today : Int) (now : Nat → Int)
    (attendanceRecords : List AttendanceData)
    (hnow : ∀ i ≤ 6, 0 ≤ now i ∧ now i ≤ 8640000000000000 ∧ Day (now i) = today) :
    ∃ pts : List TrendPoint,
      updateAttendanceTrendsAt ⟨offset, []⟩ now attendanceRecords = some pts ∧
      pts.map (fun pt => pt.date) =
        (List.range 7).map (fun (i : Nat) => isoDateOfDay (today - (6 - (i : Int)))) ∧
      (pts.getLast?).map (fun pt => pt.date) = some (isoDateOfDay today) ∧
      ∀ pt ∈ pts, ∀ session : AttendanceData,
        sessionForDate attendanceRecords pt.date = some session →
        pt.present = (session.records.filter (fun r => r.status == "present")).length ∧
        pt.absent = (session.records.filter (fun r => r.status == "absent")).length := by
  have hstr : ∀ i ≤ 6, loopDateStr ⟨offset, []⟩ (now i) i =
      some (isoDateOfDay (today - (i : Int))) := by
    intro i hi
    obtain ⟨h0, h1, hd⟩ := hnow i hi
    rw [loopDateStr_of_no_transition offset (now i) i h0 h1 hi, hd]
  have hall : (List.range 7).all
      (fun i => (loopDateStr ⟨offset, []⟩ (now i) i).isSome) = true := by
    rw [List.all_eq_true]
    intro i hi
    rw [hstr i (by have := List.mem_range.mp hi; omega)]
    rfl
  refine ⟨_, by unfold updateAttendanceTrendsAt; rw [if_pos hall], ?_, ?_, ?_⟩
  · rw [updateAttendanceTrends_eq]
    simp [trendPoint_date, List.range_succ, hstr]
  · rw [updateAttendanceTrends_eq]
    simp [trendPoint_date, hstr]
  · intro pt hpt session hs
    rw [updateAttendanceTrends_eq] at hpt
    simp only [List.mem_cons, List.mem_singleton, List.not_mem_nil, or_false] at hpt
    rcases hpt with h | h | h | h | h | h | h <;>
    · subst h
      rw [trendPoint_date] at hs
      rw [trendPoint_of_session _ _ session hs]
      exact ⟨rfl, rfl⟩

/-- The lemma `trends_without_transitions` on the host `kolkata`, the clock
2025-03-30T23:30:00.000Z and `marchLedger`. -/
theorem trends_without_transitions_example :
    ∃ pts : List TrendPoint,
      updateAttendanceTrendsAt kolkata (fun _ => lateMarchNow) marchLedger = some pts ∧
      pts.map (fun pt => pt.date) =
        (List.range 7).map (fun (i : Nat) => isoDateOfDay (Day lateMarchNow - (6 - (i : Int)))) :=
  match trends_without_transitions 19800000 (Day lateMarchNow) (fun _ => lateMarchNow)
    marchLedger
    (fun _ _ =>
      (show 0 ≤ lateMarchNow ∧ lateMarchNow ≤ 8640000000000000 ∧
          Day lateMarchNow = Day lateMarchNow from ⟨by decide, by decide, rfl⟩)) with
  | ⟨pts, h1, h2, _⟩ => ⟨pts, h1, h2⟩

/-- C14 (failing input): the host is in the time zone `Europe/Berlin` and the clock reads
2025-03-30T23:30:00.000Z, the day on which that zone moved its clocks forward. The ledger
holds one session, dated `2025-03-30`, with two entries present and one absent. Today is
`2025-03-30` and the seven days ending today are `2025-03-24` to `2025-03-30`, but the
points built by `updateAttendanceTrends` are dated `2025-03-25` to `2025-03-29`,
`2025-03-30` and `2025-03-30` again: the point at index `i` is not dated
`today - (6 - i)` days, the day `2025-03-24` is missing and the session of `2025-03-30`
is counted in two points. On a host without transitions (`kolkata`) the same clock and
ledger give the seven days ending today, the last one with 2 present and 1 absent. -/
theorem trends_repeat_a_day_across_dst :
    isoDate lateMarchNow = "2025-03-30" ∧
    (List.range 7).map (fun (i : Nat) => isoDateOfDay (Day lateMarchNow - (6 - (i : Int)))) =
      ["2025-03-24", "2025-03-25", "2025-03-26", "2025-03-27", "2025-03-28", "2025-03-29",
       "2025-03-30"] ∧
    (sessionForDate marchLedger "2025-03-30").map
        (fun s => s.records.map (fun r => r.status)) =
      some ["present", "present", "absent"] ∧
    (updateAttendanceTrendsAt berlin (fun _ => lateMarchNow) marchLedger).map
        (fun pts => pts.map (fun pt => (pt.date, pt.present, pt.absent))) =
      some [("2025-03-25", 0, 0), ("2025-03-26", 0, 0), ("2025-03-27", 0, 0),
        ("2025-03-28", 0, 0), ("2025-03-29", 0, 0), ("2025-03-30", 2, 1),
        ("2025-03-30", 2, 1)] ∧
    (updateAttendanceTrendsAt kolkata (fun _ => lateMarchNow) marchLedger).map
        (fun pts => pts.map (fun pt => (pt.date, pt.present, pt.absent))) =
      some [("2025-03-24", 0, 0), ("2025-03-25", 0, 0), ("2025-03-26", 0, 0),
        ("2025-03-27", 0, 0), ("2025-03-28", 0, 0), ("2025-03-29", 0, 0),
        ("2025-03-30", 2, 1)] := by
  decide

/-- C15: `total_days` is the number of distinct dates among the sessions of the ledger,
`0` for the empty ledger, whatever the roster, the previous statistics and the current
date are. -/
theorem total_days_counts_distinct_dates (attendanceRecords : List AttendanceData) :
    (∀ (currentStats : Stats) (students : List Student) (today : String),
      (updateStats currentStats students attendanceRecords today).total_days =
        (attendanceRecords.map (fun r => r.date)).toFinset.card) ∧
    (∀ (currentStats : Stats) (students : List Student) (today : String),
      (updateStats currentStats students [] today).total_days = 0) := by
  constructor
  · intro currentStats students today
    rw [updateStats_total_days, setSize_eq_card]
  · intro currentStats students today
    rw [updateStats_total_days]
    rfl

/-! ## Claims on the bulk import and the phone check (C16 to C20) -/

/-- C16 (failing input): the table `badPhoneCsv` has a valid header and one row whose
parent phone is `not-a-phone`. `saveStudent` in add mode rejects the fields of that row
with the phone-number error, so entering the rows through `saveStudent` leaves
`exampleRoster` as it is; `parseCSVData` adds the row, so the roster after the import
is not the roster that `saveStudent` would have produced. -/
theorem import_adds_row_that_addStudent_rejects :
    validHeader badPhoneCsv = true ∧
    csvRows badPhoneCsv = ["Ravi,R2,10A,not-a-phone"] ∧
    (saveStudent exampleRoster
        (rowCandidate (csvHeaders badPhoneCsv) "Ravi,R2,10A,not-a-phone").form).toast =
      some ⟨"Please enter a valid phone number", "error"⟩ ∧
    addRows (csvHeaders badPhoneCsv) exampleRoster (csvRows badPhoneCsv) = exampleRoster ∧
    (parseCSVData exampleRoster badPhoneCsv).newStudents.map (fun s => s.parent_phone) =
      ["not-a-phone"] ∧
    (parseCSVData exampleRoster badPhoneCsv).students ≠
      addRows (csvHeaders badPhoneCsv) exampleRoster (csvRows badPhoneCsv) := by
  decide

/-- C17 (counterexample): on the roster whose only id is `2 ^ 53 = 9007199254740992`,
importing three accepted rows issues the ids `2 ^ 53`, `2 ^ 53` and `2 ^ 53 + 2`, not
`2 ^ 53 + 1`, `2 ^ 53 + 2` and `2 ^ 53 + 3`: the sums of line 900 are sums of doubles. -/
theorem import_ids_not_consecutive_from_two_pow_53 :
    validHeader threeRowCsv = true ∧
    largeIdRoster.map (fun s => s.id) = [9007199254740992] ∧
    (parseCSVData largeIdRoster threeRowCsv).newStudents.map (fun s => s.roll_no) =
      ["R2", "R3", "R4"] ∧
    (parseCSVData largeIdRoster threeRowCsv).newStudents.map (fun s => s.id) =
      [9007199254740992, 9007199254740992, 9007199254740994] ∧
    (parseCSVData largeIdRoster threeRowCsv).newStudents.map (fun s => s.id) ≠
      [9007199254740992 + 1, 9007199254740992 + 2, 9007199254740992 + 3] := by
  decide

/-- C17 (amended): for a CSV text with a valid header, the students added by
`parseCSVData` come after the students that were there and they are the fields of the
accepted rows in file order. When every id of the roster is a safe integer (of magnitude
below `2 ^ 53`) and the number of non-blank data rows (an array length, below `2 ^ 32`)
added to any id of the roster stays below `2 ^ 53`, the `k`-th of them (counted from 1)
has the id `base + k`, where `base` is the greatest id of the roster before, or `0` when
that roster is empty. -/
theorem import_appends_in_file_order (students : List Student) (csvText : String)
    (h : validHeader csvText = true) :
    ∃ added : List Student,
      (parseCSVData students csvText).students = students ++ added ∧
      added.map Student.candidate =
        ((csvRows csvText).filter (rowAdded students (csvHeaders csvText))).map
          (rowCandidate (csvHeaders csvText)) ∧
      (safeIds students → (csvRows csvText).length < 2 ^ 32 →
        (∀ s ∈ students, s.id + ((csvRows csvText).length : Int) < 2 ^ 53) →
        ∃ base : Int,
          (students = [] → base = 0) ∧
          (students ≠ [] →
            base ∈ students.map (fun s => s.id) ∧
            ∀ i ∈ students.map (fun s => s.id), i ≤ base) ∧
          added.map (fun s => s.id) =
            (List.range added.length).map (fun (k : Nat) => base + ((k : Int) + 1))) := by
  obtain ⟨h1, _⟩ := parseCSVData_added students csvText
  refine ⟨(parseCSVData students csvText).newStudents, h1, ?_, ?_⟩
  · rw [parseCSVData_of_validHeader students csvText h]
    simpa using (importRows_eq students (csvHeaders csvText) (csvRows csvText) 1 [] []).1
  · intro hsafe hrows hroom
    have h2 := parseCSVData_ids students csvText hsafe hrows hroom
    refine ⟨newId students - 1, ?_, ?_, ?_⟩
    · intro he
      subst he
      rfl
    · intro hne
      obtain ⟨m, hm, hle, heq⟩ := newId_eq_max_succ students hsafe hne
      have : newId students - 1 = m := by omega
      rw [this]
      exact ⟨hm, hle⟩
    · rw [h2]
      apply List.map_congr_left
      intro k _
      ring

/-- C17 (witness): `import_appends_in_file_order` on `exampleRoster` and `exampleCsv`,
with the ids `1`, `2` and `3` after the import. -/
theorem import_appends_in_file_order_witness :
    (parseCSVData exampleRoster exampleCsv).students.map (fun s => s.id) = [1, 2, 3] ∧
    ∃ added : List Student,
      (parseCSVData exampleRoster exampleCsv).students = exampleRoster ++ added ∧
      added.map Student.candidate =
        ((csvRows exampleCsv).filter (rowAdded exampleRoster (csvHeaders exampleCsv))).map
          (rowCandidate (csvHeaders exampleCsv)) ∧
      ∃ base : Int,
        (exampleRoster = [] → base = 0) ∧
        (exampleRoster ≠ [] →
          base ∈ exampleRoster.map (fun s => s.id) ∧
          ∀ i ∈ exampleRoster.map (fun s => s.id), i ≤ base) ∧
        added.map (fun s => s.id) =
          (List.range added.length).map (fun (k : Nat) => base + ((k : Int) + 1)) :=
  ⟨by decide,
   match import_appends_in_file_order exampleRoster exampleCsv (by decide) with
   | ⟨added, h1, h2, h3⟩ => ⟨added, h1, h2, h3 (by decide) (by decide) (by decide)⟩⟩

/-- C18 (counterexample): on `exampleRoster`, whose student owns the roll number `R1`, a
row that repeats `R1` and has an empty name gives the single error
`Row 2: Missing required fields`, which does not name the roll number; a row that
repeats `R1` and has three values under the header of four columns gives no error at
all. Neither row is added. -/
theorem import_duplicate_roll_not_named :
    (∃ s ∈ exampleRoster, s.roll_no = "R1") ∧
    (validHeader emptyNameDuplicateCsv = true ∧
      csvRows emptyNameDuplicateCsv = [",R1,10A,9876543210"] ∧
      (rowValues ",R1,10A,9876543210")[1]? = some "R1" ∧
      (parseCSVData exampleRoster emptyNameDuplicateCsv).newStudents = [] ∧
      (parseCSVData exampleRoster emptyNameDuplicateCsv).errors =
        ["Row 2: Missing required fields"]) ∧
    (validHeader shortDuplicateCsv = true ∧
      csvRows shortDuplicateCsv = ["Asha,R1,10A"] ∧
      (rowValues "Asha,R1,10A")[1]? = some "R1" ∧
      (parseCSVData exampleRoster shortDuplicateCsv).newStudents = [] ∧
      (parseCSVData exampleRoster shortDuplicateCsv).errors = []) := by
  decide

/-- C18 (amended): for a CSV text with a valid header the roster grows by exactly the
number of students added and the errors are the messages of the rows in file order. A
row that
fits the header and carries a roll number of the roster is not added and gives exactly
one error; the missing-fields check comes first, so when no field of the row is empty
that error is `Row n: Roll number r already exists` with the roll number `r` of the row.
On `exampleRoster`, a table with one row repeating `R1` and one new row reports 1
imported student and the single error `Row 2: Roll number R1 already exists`, and the
roster is one student longer. -/
theorem import_reports_duplicate_roll :
    (∀ (students : List Student) (csvText : String), validHeader csvText = true →
      (parseCSVData students csvText).students.length =
        students.length + (parseCSVData students csvText).newStudents.length ∧
      (parseCSVData students csvText).errors =
        ((csvRows csvText).enumFrom 1).filterMap
          (fun jl => rowError students (csvHeaders csvText) jl.1 jl.2) ∧
      ∀ (i : Nat) (line : String), rowFits (csvHeaders csvText) line = true →
        (∃ s ∈ students, s.roll_no = (rowCandidate (csvHeaders csvText) line).roll_no) →
        rowAdded students (csvHeaders csvText) line = false ∧
        ∃ e : String, rowError students (csvHeaders csvText) i line = some e ∧
          ((rowCandidate (csvHeaders csvText) line).filled = true →
            e = "Row " ++ toString (i + 1) ++ ": Roll number " ++
              (rowCandidate (csvHeaders csvText) line).roll_no ++ " already exists")) ∧
    (validHeader duplicateAndNewCsv = true ∧
      (parseCSVData exampleRoster duplicateAndNewCsv).newStudents.length = 1 ∧
      (parseCSVData exampleRoster duplicateAndNewCsv).toasts =
        [⟨"Successfully imported 1 students", "success"⟩,
         ⟨"Import completed with 1 errors. Check console for details.", "warning"⟩] ∧
      (parseCSVData exampleRoster duplicateAndNewCsv).errors =
        ["Row 2: Roll number R1 already exists"] ∧
      (parseCSVData exampleRoster duplicateAndNewCsv).students.length =
        exampleRoster.length + 1) := by
  refine ⟨?_, by decide⟩
  intro students csvText h
  refine ⟨?_, ?_, ?_⟩
  · rw [(parseCSVData_added students csvText).1]
    simp
  · rw [parseCSVData_of_validHeader students csvText h]
    simpa using (importRows_eq students (csvHeaders csvText) (csvRows csvText) 1 [] []).2
  · intro i line h1 h3
    have hany : students.any
        (fun s => s.roll_no == (rowCandidate (csvHeaders csvText) line).roll_no) = true := by
      obtain ⟨s, hs, hr⟩ := h3
      rw [List.any_eq_true]
      exact ⟨s, hs, by simp [hr]⟩
    refine ⟨by simp [rowAdded, hany], ?_⟩
    by_cases h2 : (rowCandidate (csvHeaders csvText) line).filled = true
    · exact ⟨_, by simp [rowError, h1, h2, hany], fun _ => rfl⟩
    · exact ⟨"Row " ++ toString (i + 1) ++ ": Missing required fields",
        by simp [rowError, h1, h2], fun hf => absurd hf h2⟩

/-- C18 (witness): `import_reports_duplicate_roll` on `exampleRoster` and the table with
one row repeating `R1` and one new row. -/
theorem import_reports_duplicate_roll_witness :
    (parseCSVData exampleRoster duplicateAndNewCsv).students.length =
      exampleRoster.length + (parseCSVData exampleRoster duplicateAndNewCsv).newStudents.length ∧
    rowAdded exampleRoster (csvHeaders duplicateAndNewCsv) "Asha,R1,10A,9876543210" = false ∧
    ∃ e : String,
      rowError exampleRoster (csvHeaders duplicateAndNewCsv) 1 "Asha,R1,10A,9876543210" =
        some e ∧
      ((rowCandidate (csvHeaders duplicateAndNewCsv) "Asha,R1,10A,9876543210").filled = true →
        e = "Row " ++ toString (1 + 1) ++ ": Roll number " ++
          (rowCandidate (csvHeaders duplicateAndNewCsv) "Asha,R1,10A,9876543210").roll_no ++
          " already exists") :=
  ⟨(import_reports_duplicate_roll.1 exampleRoster duplicateAndNewCsv (by decide)).1,
   (import_reports_duplicate_roll.1 exampleRoster duplicateAndNewCsv (by decide)).2.2 1
      "Asha,R1,10A,9876543210" (by decide) (by decide)⟩

/-- C19 (counterexample): the table `shortRowCsv` has a valid header and one non-blank
data row, with three values under four columns; the row is neither added nor reported:
no student is added and the errors list is empty. -/
theorem import_skips_short_row_silently :
    validHeader shortRowCsv = true ∧
    (csvRows shortRowCsv).length = 1 ∧
    (parseCSVData exampleRoster shortRowCsv).newStudents.length = 0 ∧
    (parseCSVData exampleRoster shortRowCsv).errors.length = 0 ∧
    (parseCSVData exampleRoster shortRowCsv).newStudents.length +
      (parseCSVData exampleRoster shortRowCsv).errors.length ≠ (csvRows shortRowCsv).length := by
  decide

/-- C19 (amended): for a CSV text with a valid header, every non-blank data row that has
as many values as the header has columns is either added or gives exactly one entry of
the errors list, a row with another number of values is neither added nor reported, and
the number of students added plus the number of errors is the number of non-blank data
rows that fit the header. -/
theorem import_reports_every_fitting_row (students : List Student) (csvText : String)
    (h : validHeader csvText = true) :
    (parseCSVData students csvText).newStudents.length +
        (parseCSVData students csvText).errors.length =
      ((csvRows csvText).filter (rowFits (csvHeaders csvText))).length ∧
    (parseCSVData students csvText).newStudents.length =
      ((csvRows csvText).filter (rowAdded students (csvHeaders csvText))).length ∧
    (parseCSVData students csvText).errors =
      ((csvRows csvText).enumFrom 1).filterMap
        (fun jl => rowError students (csvHeaders csvText) jl.1 jl.2) ∧
    ∀ (i : Nat) (line : String),
      (rowFits (csvHeaders csvText) line = true →
        (rowAdded students (csvHeaders csvText) line = true ∧
          rowError students (csvHeaders csvText) i line = none) ∨
        (rowAdded students (csvHeaders csvText) line = false ∧
          (rowError students (csvHeaders csvText) i line).isSome = true)) ∧
      (rowFits (csvHeaders csvText) line = false →
        rowAdded students (csvHeaders csvText) line = false ∧
        rowError students (csvHeaders csvText) i line = none) := by
  have hn : (parseCSVData students csvText).newStudents.length =
      ((csvRows csvText).filter (rowAdded students (csvHeaders csvText))).length := by
    rw [parseCSVData_of_validHeader students csvText h]
    have := congrArg List.length
      (importRows_eq students (csvHeaders csvText) (csvRows csvText) 1 [] []).1
    simpa using this
  have he : (parseCSVData students csvText).errors =
      ((csvRows csvText).enumFrom 1).filterMap
        (fun jl => rowError students (csvHeaders csvText) jl.1 jl.2) := by
    rw [parseCSVData_of_validHeader students csvText h]
    simpa using (importRows_eq students (csvHeaders csvText) (csvRows csvText) 1 [] []).2
  refine ⟨?_, hn, he, ?_⟩
  · rw [hn, he]
    exact rows_added_or_error students (csvHeaders csvText) (csvRows csvText) 1
  · intro i line
    rcases row_added_or_error students (csvHeaders csvText) i line with
      ⟨h1, ⟨hA, hE⟩ | ⟨hA, e, hE⟩⟩ | ⟨h1, hA, hE⟩
    · exact ⟨fun _ => Or.inl ⟨hA, hE⟩, fun hf => absurd h1 (by simp [hf])⟩
    · exact ⟨fun _ => Or.inr ⟨hA, by simp [hE]⟩, fun hf => absurd h1 (by simp [hf])⟩
    · exact ⟨fun ht => absurd ht (by simp [h1]), fun _ => ⟨hA, hE⟩⟩

/-- C19 (witness): `import_reports_every_fitting_row` on `exampleRoster` and `exampleCsv`,
whose three rows all fit the header: two are added and one is reported. -/
theorem import_reports_every_fitting_row_witness :
    (parseCSVData exampleRoster exampleCsv).newStudents.length +
        (parseCSVData exampleRoster exampleCsv).errors.length =
      ((csvRows exampleCsv).filter (rowFits (csvHeaders exampleCsv))).length :=
  (import_reports_every_fitting_row exampleRoster exampleCsv (by decide)).1

/-- C20 (counterexample): with the other fields valid and the roll number free, the
phone `0123456789` has the shape of the data model and the add is rejected; the phone
`(+91) 98765-43210` does not have that shape, the add succeeds, and the phone stored on
the new student is `(+91) 98765-43210`, which does not have that shape either. -/
theorem phone_shape_is_not_the_acceptance_test :
    (specPhoneShape leadingZeroForm.parentPhone = true ∧
      (saveStudent exampleRoster leadingZeroForm).toast ≠ some addedToast) ∧
    (specPhoneShape punctuatedPhoneForm.parentPhone = false ∧
      (saveStudent exampleRoster punctuatedPhoneForm).toast = some addedToast ∧
      (findByRollNo (saveStudent exampleRoster punctuatedPhoneForm).students "R7").map
          (fun s => s.parent_phone) = some "(+91) 98765-43210" ∧
      specPhoneShape "(+91) 98765-43210" = false) := by
  decide

/-- C20 (amended): in add mode with name and roll number non-empty after trimming, a
non-empty class and a roll number held by no student, `saveStudent` succeeds exactly when
the trimmed parent phone with whitespace, hyphens and parentheses removed is an optional
`+`, a digit `1` to `9` and at most 15 further digits; the phone stored on the new
student is then the trimmed input, which has that shape after the same removal. -/
theorem addStudent_phone_acceptance (students : List Student) (form : StudentForm)
    (hadd : form.studentId = none)
    (hname : jsTrim form.studentName ≠ "") (hroll : jsTrim form.rollNumber ≠ "")
    (hclass : form.studentClass ≠ "")
    (hfree : ∀ s ∈ students, s.roll_no ≠ jsTrim form.rollNumber) :
    ((saveStudent students form).toast = some addedToast ↔
      ∃ d ds, ((stripPhone (jsTrim form.parentPhone)).data = d :: ds ∨
          (stripPhone (jsTrim form.parentPhone)).data = '+' :: d :: ds) ∧
        ('1' ≤ d ∧ d ≤ '9') ∧ (∀ c ∈ ds, c.isDigit = true) ∧ ds.length ≤ 15) ∧
    ((saveStudent students form).toast = some addedToast →
      ∃ s : Student, (saveStudent students form).students = students ++ [s] ∧
        s.parent_phone = jsTrim form.parentPhone ∧
        phoneRegexTest (stripPhone s.parent_phone) = true) := by
  have hcases := saveStudent_add_cases students form hadd
  constructor
  · constructor
    · intro hok
      rcases hcases with ⟨_, _, msg, hmsg⟩ | ⟨_, _, _, hp⟩
      · rw [hmsg] at hok
        exact absurd hok (by simp [addedToast])
      · exact shape_of_phoneRegexTest _ hp
    · rintro ⟨d, ds, hs, hd, hds, hlen⟩
      have hne : jsTrim form.parentPhone ≠ "" := by
        apply stripPhone_data_ne_nil
        rcases hs with h | h <;> simp [h]
      have hre := phoneRegexTest_of_shape _ d ds hs hd hds hlen
      rw [saveStudent_no_duplicate students form ⟨hname, hroll, hclass, hne⟩
        (fun s hs h => absurd h (hfree s hs))]
      simp only [hre, hadd, Bool.not_true, Bool.false_eq_true, if_false]
      rfl
  · intro hok
    rcases hcases with ⟨_, _, msg, hmsg⟩ | ⟨h, _, _, hp⟩
    · rw [hmsg] at hok
      exact absurd hok (by simp [addedToast])
    · rw [h]
      exact ⟨_, rfl, rfl, hp⟩

/-- C20 (witness): `addStudent_phone_acceptance` on `exampleRoster`: the form with the
phone `(+91) 98765-43210` is accepted, the form with the phone `0123456789` is not. -/
theorem addStudent_phone_acceptance_witness :
    (saveStudent exampleRoster punctuatedPhoneForm).toast = some addedToast ∧
    ¬ ∃ d ds, ((stripPhone (jsTrim leadingZeroForm.parentPhone)).data = d :: ds ∨
          (stripPhone (jsTrim leadingZeroForm.parentPhone)).data = '+' :: d :: ds) ∧
        ('1' ≤ d ∧ d ≤ '9') ∧ (∀ c ∈ ds, c.isDigit = true) ∧ ds.length ≤ 15 :=
  ⟨(addStudent_phone_acceptance exampleRoster punctuatedPhoneForm rfl (by decide) (by decide)
      (by decide) (by decide)).1.mpr
      ⟨'9', "19876543210".data, Or.inr (by decide), by decide, by decide, by decide⟩,
   fun hshape =>
    absurd ((addStudent_phone_acceptance exampleRoster leadingZeroForm rfl (by decide)
      (by decide) (by decide) (by decide)).1.mpr hshape) (by decide)⟩

/-! ## Lemmas on the application state -/

theorem not_fieldsFilled_iff (form : StudentForm) :
    ¬ fieldsFilled form ↔
      (jsTrim form.studentName = "" ∨ jsTrim form.rollNumber = "" ∨
        form.studentClass = "" ∨ jsTrim form.parentPhone = "") := by
  unfold fieldsFilled
  constructor
  · intro h
    by_contra hc
    push_neg at hc
    exact h hc
  · rintro h ⟨h1, h2, h3, h4⟩
    rcases h with h | h | h | h
    · exact h1 h
    · exact h2 h
    · exact h3 h
    · exact h4 h

theorem saveStudent_of_not_filled (students : List Student) (form : StudentForm)
    (h : ¬ fieldsFilled form) :
    saveStudent students form =
      { students := students, toast := some missingFieldsToast, saved := false } := by
  have h' := (not_fieldsFilled_iff form).mp h
  simp [saveStudent, h', missingFieldsToast]

theorem saveStudent_outcome (students : List Student) (form : StudentForm) :
    ((saveStudent students form).saved = false ∧
      (saveStudent students form).students = students ∧
      ((saveStudent students form).toast = some missingFieldsToast ∨
        (saveStudent students form).toast = some duplicateRollToast ∨
        (saveStudent students form).toast = some invalidPhoneToast)) ∨
    ((saveStudent students form).saved = true ∧
      ((saveStudent students form).toast = none ∨
        (saveStudent students form).toast = some updatedToast ∨
        (saveStudent students form).toast = some addedToast)) := by
  by_cases hf : fieldsFilled form
  · by_cases hdup : ∃ s ∈ students, s.roll_no = jsTrim form.rollNumber ∧
        s.id ≠ form.studentId.getD 0
    · obtain ⟨s, hs, hr, hid⟩ := hdup
      left
      rw [saveStudent_duplicate students form hf s hs hr hid]
      exact ⟨rfl, rfl, Or.inr (Or.inl rfl)⟩
    · have hnone : ∀ s ∈ students, s.roll_no = jsTrim form.rollNumber →
          s.id = form.studentId.getD 0 := by
        intro s hs hr
        by_contra hid
        exact hdup ⟨s, hs, hr, hid⟩
      rw [saveStudent_no_duplicate students form hf hnone]
      by_cases hp : phoneRegexTest (stripPhone (jsTrim form.parentPhone)) = true
      · right
        simp only [hp, Bool.not_true, Bool.false_eq_true, if_false]
        cases form.studentId with
        | none => exact ⟨rfl, Or.inr (Or.inr rfl)⟩
        | some e =>
          simp only []
          cases updateFirst e (jsTrim form.studentName) (jsTrim form.rollNumber)
            form.studentClass (jsTrim form.parentPhone) students with
          | none => exact ⟨rfl, Or.inl rfl⟩
          | some updated => exact ⟨rfl, Or.inr (Or.inl rfl)⟩
      · left
        have hp' : phoneRegexTest (stripPhone (jsTrim form.parentPhone)) = false := by
          simpa using hp
        rw [hp']
        exact ⟨rfl, rfl, Or.inr (Or.inr rfl)⟩
  · left
    rw [saveStudent_of_not_filled students form hf]
    exact ⟨rfl, rfl, Or.inl rfl⟩

theorem saveStudent_rejected_unchanged (students : List Student) (form : StudentForm)
    (h : (saveStudent students form).toast = some missingFieldsToast ∨
      (saveStudent students form).toast = some invalidPhoneToast) :
    (saveStudent students form).saved = false ∧
    (saveStudent students form).students = students := by
  rcases saveStudent_outcome students form with ⟨h1, h2, _⟩ | ⟨_, h3⟩
  · exact ⟨h1, h2⟩
  · exfalso
    rcases h with h | h <;> rcases h3 with h3 | h3 | h3 <;> rw [h] at h3 <;>
      revert h3 <;> decide

theorem appSaveStudent_toast (app : App) (form : StudentForm) (today : String) :
    (App.saveStudent app form today).2 = (saveStudent app.students form).toast := by
  unfold App.saveStudent
  simp only []
  split_ifs <;> rfl

theorem appSaveStudent_of_not_saved (app : App) (form : StudentForm) (today : String)
    (h : (saveStudent app.students form).saved = false) :
    (App.saveStudent app form today).1 =
      { app with students := (saveStudent app.students form).students } := by
  unfold App.saveStudent
  simp only [h, Bool.false_eq_true, if_false]

theorem appSaveStudent_of_saved (app : App) (form : StudentForm) (today : String)
    (h : (saveStudent app.students form).saved = true) :
    (App.saveStudent app form today).1 =
      { app with
        students := (saveStudent app.students form).students
        currentStats := updateStats app.currentStats (saveStudent app.students form).students
          app.attendanceRecords today } := by
  unfold App.saveStudent
  simp only [h, if_true]

theorem updateFirst_position (e : Int) (name rollNo studentClass parentPhone : String)
    (students updated : List Student)
    (hu : updateFirst e name rollNo studentClass parentPhone students = some updated) :
    ∃ (i : Nat) (old : Student),
      students[i]? = some old ∧ old.id = e ∧
      updated = students.set i (mergeStudent old name rollNo studentClass parentPhone) := by
  induction students generalizing updated with
  | nil => simp [updateFirst] at hu
  | cons s rest ih =>
    by_cases hs : s.id = e
    · simp only [updateFirst, hs, if_true, Option.some.injEq] at hu
      exact ⟨0, s, by simp, hs, by rw [← hu]; rfl⟩
    · simp only [updateFirst, hs, if_false, Option.map_eq_some'] at hu
      obtain ⟨u, hu1, hu2⟩ := hu
      obtain ⟨i, old, h1, h2, h3⟩ := ih u hu1
      refine ⟨i + 1, old, by simpa using h1, h2, ?_⟩
      rw [← hu2, h3]
      rfl

theorem saveStudent_of_updated (students : List Student) (form : StudentForm) (e : Int)
    (hedit : form.studentId = some e)
    (hok : (saveStudent students form).toast = some updatedToast) :
    ∃ updated : List Student,
      updateFirst e (jsTrim form.studentName) (jsTrim form.rollNumber) form.studentClass
        (jsTrim form.parentPhone) students = some updated ∧
      (saveStudent students form).students = updated := by
  by_cases hf : fieldsFilled form
  · by_cases hdup : ∃ s ∈ students, s.roll_no = jsTrim form.rollNumber ∧
        s.id ≠ form.studentId.getD 0
    · obtain ⟨s, hs, hr, hid⟩ := hdup
      rw [saveStudent_duplicate students form hf s hs hr hid] at hok
      simp [updatedToast] at hok
    · have hnone : ∀ s ∈ students, s.roll_no = jsTrim form.rollNumber →
          s.id = form.studentId.getD 0 := by
        intro s hs hr
        by_contra hid
        exact hdup ⟨s, hs, hr, hid⟩
      rw [saveStudent_no_duplicate students form hf hnone] at hok ⊢
      by_cases hp : phoneRegexTest (stripPhone (jsTrim form.parentPhone)) = true
      · simp only [hp, Bool.not_true, Bool.false_eq_true, if_false, hedit] at hok ⊢
        cases hu : updateFirst e (jsTrim form.studentName) (jsTrim form.rollNumber)
          form.studentClass (jsTrim form.parentPhone) students with
        | none => rw [hu] at hok; simp at hok
        | some updated => exact ⟨updated, rfl, rfl⟩
      · have hp' : phoneRegexTest (stripPhone (jsTrim form.parentPhone)) = false := by
          simpa using hp
        rw [hp'] at hok
        simp [updatedToast] at hok
  · rw [saveStudent_of_not_filled students form hf] at hok
    simp [updatedToast, missingFieldsToast] at hok

/-! ## Claims on validation errors and on edits (C21 and C22) -/

/-- C21: a `saveStudent` call, in add or in edit mode, that is rejected with the
empty-field error or with the phone-number error leaves the object as it was: the
students list, the attendanceRecords list and the settings (and also the statistics and
the trends) are the same before and after the call. The empty-field error is the outcome
whenever the name, the roll number or the phone is empty after trimming or the class is
empty. -/
theorem validation_error_mutates_no_store (app : App) (form : StudentForm) (today : String) :
    (((App.saveStudent app form today).2 = some missingFieldsToast ∨
        (App.saveStudent app form today).2 = some invalidPhoneToast) →
      (App.saveStudent app form today).1.students = app.students ∧
      (App.saveStudent app form today).1.attendanceRecords = app.attendanceRecords ∧
      (App.saveStudent app form today).1.settings = app.settings ∧
      (App.saveStudent app form today).1 = app) ∧
    ((jsTrim form.studentName = "" ∨ jsTrim form.rollNumber = "" ∨ form.studentClass = "" ∨
        jsTrim form.parentPhone = "") →
      (App.saveStudent app form today).2 = some missingFieldsToast) := by
  constructor
  · intro h
    rw [appSaveStudent_toast] at h
    obtain ⟨h1, h2⟩ := saveStudent_rejected_unchanged app.students form h
    have happ : (App.saveStudent app form today).1 = app := by
      rw [appSaveStudent_of_not_saved app form today h1, h2]
    rw [happ]
    exact ⟨rfl, rfl, rfl, rfl⟩
  · intro h
    rw [appSaveStudent_toast,
      saveStudent_of_not_filled app.students form ((not_fieldsFilled_iff form).mpr h)]

/-- C21 (witness): `validation_error_mutates_no_store` on `exampleApp`: an edit with a
blank name and an edit with the phone `0123456789` are rejected and change nothing. -/
theorem validation_error_mutates_no_store_witness :
    (App.saveStudent exampleApp blankNameForm "2024-01-10").1 = exampleApp ∧
    (App.saveStudent exampleApp badPhoneEditForm "2024-01-10").1 = exampleApp ∧
    (App.saveStudent exampleApp blankNameForm "2024-01-10").2 = some missingFieldsToast :=
  ⟨((validation_error_mutates_no_store exampleApp blankNameForm "2024-01-10").1
      (Or.inl (by decide))).2.2.2,
   ((validation_error_mutates_no_store exampleApp badPhoneEditForm "2024-01-10").1
      (Or.inr (by decide))).2.2.2,
   (validation_error_mutates_no_store exampleApp blankNameForm "2024-01-10").2
      (Or.inl (by decide))⟩

/-- C22: on a roster with pairwise distinct ids, a successful edit on the id `e` keeps
the length of the roster; the one position that holds the student with id `e` now holds
a student with the same id `e`, the trimmed new name, roll number and parent phone, the
new class and the photo `default.jpg`; every other position holds the student it held
before. -/
theorem edit_changes_only_the_edited_student (students : List Student) (form : StudentForm)
    (e : Int) (hids : idsUnique students) (hedit : form.studentId = some e)
    (hok : (saveStudent students form).toast = some updatedToast) :
    ∃ (i : Nat) (old : Student),
      students[i]? = some old ∧ old.id = e ∧
      (∀ (j : Nat) (s : Student), students[j]? = some s → s.id = e → j = i) ∧
      (saveStudent students form).students.length = students.length ∧
      (saveStudent students form).students[i]? =
        some (Student.mk e (jsTrim form.studentName) (jsTrim form.rollNumber)
          form.studentClass (jsTrim form.parentPhone) "default.jpg") ∧
      ∀ j : Nat, j ≠ i → (saveStudent students form).students[j]? = students[j]? := by
  obtain ⟨updated, hu, hs⟩ := saveStudent_of_updated students form e hedit hok
  obtain ⟨i, old, h1, h2, h3⟩ := updateFirst_position e _ _ _ _ students updated hu
  have hi : i < students.length := by
    by_contra hc
    rw [List.getElem?_eq_none (by omega)] at h1
    simp at h1
  refine ⟨i, old, h1, h2, ?_, ?_, ?_, ?_⟩
  · intro j s hj hse
    unfold idsUnique at hids
    have hj' : j < students.length := by
      by_contra hc
      rw [List.getElem?_eq_none (by omega)] at hj
      simp at hj
    have e1 : (students.map (fun s => s.id))[j]? = some e := by
      rw [List.getElem?_map, hj]; simp [hse]
    have e2 : (students.map (fun s => s.id))[i]? = some e := by
      rw [List.getElem?_map, h1]; simp [h2]
    have hjl : j < (students.map (fun s => s.id)).length := by simpa using hj'
    have hil : i < (students.map (fun s => s.id)).length := by simpa using hi
    rw [List.getElem?_eq_getElem hjl] at e1
    rw [List.getElem?_eq_getElem hil] at e2
    have hije : (students.map (fun s => s.id))[j] = (students.map (fun s => s.id))[i] := by
      rw [Option.some.inj e1, Option.some.inj e2]
    exact (List.Nodup.getElem_inj_iff hids).mp hije
  · rw [hs, h3, List.length_set]
  · rw [hs, h3, List.getElem?_set_self hi]
    simp [mergeStudent, h2]
  · intro j hj
    rw [hs, h3, List.getElem?_set_ne (Ne.symm hj)]

/-- C22 (witness): `edit_changes_only_the_edited_student` on `twoStudentRoster` and the
edit of the student with id `2` that keeps its roll number. -/
theorem edit_changes_only_the_edited_student_witness :
    ∃ (i : Nat) (old : Student),
      twoStudentRoster[i]? = some old ∧ old.id = 2 ∧
      (∀ (j : Nat) (s : Student), twoStudentRoster[j]? = some s → s.id = 2 → j = i) ∧
      (saveStudent twoStudentRoster keepRollForm).students.length = twoStudentRoster.length ∧
      (saveStudent twoStudentRoster keepRollForm).students[i]? =
        some (Student.mk 2 (jsTrim keepRollForm.studentName) (jsTrim keepRollForm.rollNumber)
          keepRollForm.studentClass (jsTrim keepRollForm.parentPhone) "default.jpg") ∧
      ∀ j : Nat, j ≠ i →
        (saveStudent twoStudentRoster keepRollForm).students[j]? = twoStudentRoster[j]? :=
  edit_changes_only_the_edited_student twoStudentRoster keepRollForm 2 (by decide) rfl
    (by decide)

/-! ## Lemmas on the freshness of the statistics -/

theorem updateStats_derived (s₁ s₂ : Stats) (students : List Student)
    (attendanceRecords : List AttendanceData) (today : String) :
    (updateStats s₁ students attendanceRecords today).derived =
      (updateStats s₂ students attendanceRecords today).derived := by
  unfold updateStats
  cases attendanceRecords.filter (fun record => record.date == today) <;> rfl

theorem appParseCSVData_of_saved (app : App) (csvText : String) (today : String)
    (h : (parseCSVData app.students csvText).saved = true) :
    (App.parseCSVData app csvText today).1 =
      { app with
        students := (parseCSVData app.students csvText).students
        currentStats := updateStats app.currentStats (parseCSVData app.students csvText).students
          app.attendanceRecords today } := by
  unfold App.parseCSVData
  simp only [h, if_true]

theorem appParseCSVData_of_not_saved (app : App) (csvText : String) (today : String)
    (h : (parseCSVData app.students csvText).saved = false) :
    (App.parseCSVData app csvText today).1 = app := by
  have hs : (parseCSVData app.students csvText).students = app.students := by
    rcases parseCSVData_fields app.students csvText with ⟨h1, _⟩ | ⟨headers, rows, h1, _, h3⟩
    · exact h1
    · have hnew : (parseCSVData app.students csvText).newStudents = [] := by
        by_contra hne
        have hpos : 0 < (parseCSVData app.students csvText).newStudents.length :=
          List.length_pos.mpr hne
        revert h hpos
        unfold parseCSVData
        simp only []
        split
        · simp
        · simp
        · split_ifs <;> simp
      rw [(parseCSVData_added app.students csvText).1, hnew, List.append_nil]
  unfold App.parseCSVData
  simp only [h, Bool.false_eq_true, if_false, hs]

/-! ## Lemmas on the per-student attendance rate -/

theorem studentRecords_eq_filter (attendanceRecords : List AttendanceData) (id : Int) :
    studentRecords attendanceRecords id =
      (attendanceRecords.flatMap (fun day => day.records)).filter
        (fun record => record.student_id == id) := by
  unfold studentRecords
  induction attendanceRecords with
  | nil => rfl
  | cons day rest ih => simp [List.flatMap_cons, List.filter_append, ih]

theorem percent_tenths_le (p n : Nat) (hn : 0 < n) (hp : p ≤ n) :
    toFixedTenths (percentDouble p n) ≤ 1000 := by
  have hden : 0 < (percentDouble p n).den := by
    unfold percentDouble
    exact nearestDouble_den_pos _ _
  obtain ⟨ht1, _⟩ := toFixedTenths_spec (percentDouble p n) hden
  have herr := percentDouble_error p n hn
  rw [abs_le] at herr
  obtain ⟨_, he2⟩ := herr
  have hnq : (0 : ℚ) < (n : ℚ) := by exact_mod_cast hn
  have hE0 : (0 : ℚ) ≤ (p : ℚ) / (n : ℚ) := by positivity
  have hE1 : (p : ℚ) / (n : ℚ) ≤ 1 := by
    rw [div_le_one hnq]
    exact_mod_cast hp
  generalize (p : ℚ) / (n : ℚ) = E at *
  generalize (percentDouble p n).toRat = v at *
  have hu : (0 : ℚ) ≤ 2 / 2 ^ 53 + 1 / 2 ^ 106 := by positivity
  have hsmall : 1000 * ((2 : ℚ) / 2 ^ 53 + 1 / 2 ^ 106) < 1 / 2 := by norm_num
  have hEu : 100 * E * (2 / 2 ^ 53 + 1 / 2 ^ 106) ≤ 100 * (2 / 2 ^ 53 + 1 / 2 ^ 106) := by
    have := mul_le_mul_of_nonneg_right hE1 hu
    linarith
  have hq : (toFixedTenths (percentDouble p n) : ℚ) < 1001 := by linarith
  have hq' : toFixedTenths (percentDouble p n) < 1001 := by exact_mod_cast hq
  omega

/-! ## Claim on the freshness of the statistics (C23) -/

/-- C23 (counterexample): on the object as the constructor leaves it (no student, empty
ledger, `attendanceTrends = []`), adding a student succeeds and refreshes the statistics,
but the stored trends are still the empty list, while `updateAttendanceTrends` computes
seven points from the resulting ledger. -/
theorem add_leaves_trends_untouched :
    (App.saveStudent initialApp paddedNameForm "2024-01-10").2 = some addedToast ∧
    (App.saveStudent initialApp paddedNameForm "2024-01-10").1.students.length = 1 ∧
    statsFresh (App.saveStudent initialApp paddedNameForm "2024-01-10").1 "2024-01-10" ∧
    (App.saveStudent initialApp paddedNameForm "2024-01-10").1.attendanceTrends = [] ∧
    (updateAttendanceTrends
      (App.saveStudent initialApp paddedNameForm "2024-01-10").1.attendanceRecords
      exampleDateStr).length = 7 ∧
    ¬ trendsFresh (App.saveStudent initialApp paddedNameForm "2024-01-10").1 exampleDateStr := by
  decide

/-- C23 (amended): for a fixed current date, after every `saveStudent` call that reaches
the save block, after every `parseCSVData` call that adds a student and after every
`confirmAttendance` call, the stored `today_present`, `today_absent`, `attendance_rate`
and `total_days` are what `updateStats` computes afresh from the resulting roster and
ledger. The stored trends are recomputed by `confirmAttendance` only, where they are what
`updateAttendanceTrends` computes afresh; `saveStudent` and `parseCSVData` leave the
ledger and the stored trends as they were, so the trends are fresh after the call
whenever they were fresh before it. A call that does not reach the save block leaves
the object as it was. -/
theorem stats_fresh_after_mutation (app : App) (today : String) (dateStr : Nat → String) :
    (∀ form : StudentForm,
      ((saveStudent app.students form).saved = true →
        statsFresh (App.saveStudent app form today).1 today ∧
        (App.saveStudent app form today).1.attendanceRecords = app.attendanceRecords ∧
        (App.saveStudent app form today).1.attendanceTrends = app.attendanceTrends ∧
        (trendsFresh app dateStr → trendsFresh (App.saveStudent app form today).1 dateStr)) ∧
      ((saveStudent app.students form).saved = false →
        (App.saveStudent app form today).1 = app)) ∧
    (∀ csvText : String,
      ((parseCSVData app.students csvText).saved = true →
        statsFresh (App.parseCSVData app csvText today).1 today ∧
        (App.parseCSVData app csvText today).1.attendanceRecords = app.attendanceRecords ∧
        (App.parseCSVData app csvText today).1.attendanceTrends = app.attendanceTrends ∧
        (trendsFresh app dateStr →
          trendsFresh (App.parseCSVData app csvText today).1 dateStr)) ∧
      ((parseCSVData app.students csvText).saved = false →
        (App.parseCSVData app csvText today).1 = app)) ∧
    (∀ (now : String) (items : List AttendanceItem),
      statsFresh (App.confirmAttendance app today now dateStr items) today ∧
      trendsFresh (App.confirmAttendance app today now dateStr items) dateStr) := by
  refine ⟨?_, ?_, ?_⟩
  · intro form
    constructor
    · intro h
      rw [appSaveStudent_of_saved app form today h]
      refine ⟨?_, rfl, rfl, fun hf => hf⟩
      unfold statsFresh
      exact updateStats_derived _ _ _ _ _
    · intro h
      rcases saveStudent_outcome app.students form with ⟨_, h2, _⟩ | ⟨h1, _⟩
      · rw [appSaveStudent_of_not_saved app form today h, h2]
      · rw [h] at h1
        exact absurd h1 (by simp)
  · intro csvText
    constructor
    · intro h
      rw [appParseCSVData_of_saved app csvText today h]
      refine ⟨?_, rfl, rfl, fun hf => hf⟩
      unfold statsFresh
      exact updateStats_derived _ _ _ _ _
    · intro h
      exact appParseCSVData_of_not_saved app csvText today h
  · intro now items
    constructor
    · unfold statsFresh App.confirmAttendance
      exact updateStats_derived _ _ _ _ _
    · rfl

/-- C23 (witness): `stats_fresh_after_mutation` on `exampleApp`, whose trends are fresh:
after an accepted edit, after an import that adds a student and after a commit the
statistics and the trends are fresh. -/
theorem stats_fresh_after_mutation_witness :
    (statsFresh (App.saveStudent exampleApp keepRollForm "2024-01-10").1 "2024-01-10" ∧
      trendsFresh (App.saveStudent exampleApp keepRollForm "2024-01-10").1 exampleDateStr) ∧
    (statsFresh (App.parseCSVData exampleApp exampleCsv "2024-01-10").1 "2024-01-10" ∧
      trendsFresh (App.parseCSVData exampleApp exampleCsv "2024-01-10").1 exampleDateStr) ∧
    (statsFresh (App.confirmAttendance exampleApp "2024-01-10" "2024-01-10T10:00:00.000Z"
        exampleDateStr exampleItems) "2024-01-10" ∧
      trendsFresh (App.confirmAttendance exampleApp "2024-01-10" "2024-01-10T10:00:00.000Z"
        exampleDateStr exampleItems) exampleDateStr) :=
  ⟨⟨(((stats_fresh_after_mutation exampleApp "2024-01-10" exampleDateStr).1 keepRollForm).1
        (by decide)).1,
    (((stats_fresh_after_mutation exampleApp "2024-01-10" exampleDateStr).1 keepRollForm).1
        (by decide)).2.2.2 (by decide)⟩,
   ⟨(((stats_fresh_after_mutation exampleApp "2024-01-10" exampleDateStr).2.1 exampleCsv).1
        (by decide)).1,
    (((stats_fresh_after_mutation exampleApp "2024-01-10" exampleDateStr).2.1 exampleCsv).1
        (by decide)).2.2.2 (by decide)⟩,
   (stats_fresh_after_mutation exampleApp "2024-01-10" exampleDateStr).2.2
      "2024-01-10T10:00:00.000Z" exampleItems⟩

/-! ## Claim on the per-student attendance rate (C24) -/

/-- C24: the entries collected for a student are the entries with that `student_id`
taken from the sessions in ledger order, in entry order inside a session. Without
entries the rate is the number `0`. With entries the rate is a number of tenths between
`0` and `100`, and it is nearest to `presentCount / totalCount * 100`: it differs from
that value by at most `0.05` (double arithmetic and `toFixed(1)`; `totalCount` is an
array length, below `2 ^ 32`). -/
theorem student_rate_rounded (attendanceRecords : List AttendanceData) (id : Int) :
    studentRecords attendanceRecords id =
      (attendanceRecords.flatMap (fun day => day.records)).filter
        (fun record => record.student_id == id) ∧
    (studentRecords attendanceRecords id = [] →
      studentAttendanceRate attendanceRecords id = Rate.zero) ∧
    ((studentAttendanceRate attendanceRecords id).tenths : ℚ) / 10 ≤ 100 ∧
    (0 : ℚ) ≤ ((studentAttendanceRate attendanceRecords id).tenths : ℚ) / 10 ∧
    (studentRecords attendanceRecords id ≠ [] →
      (studentRecords attendanceRecords id).length < 2 ^ 32 →
      |((studentAttendanceRate attendanceRecords id).tenths : ℚ) / 10 -
          (countStatus "present" (studentRecords attendanceRecords id) : ℚ) /
            ((studentRecords attendanceRecords id).length : ℚ) * 100| ≤ 1 / 20) := by
  have hle : countStatus "present" (studentRecords attendanceRecords id) ≤
      (studentRecords attendanceRecords id).length := List.length_filter_le _ _
  refine ⟨studentRecords_eq_filter attendanceRecords id, ?_, ?_, by positivity, ?_⟩
  · intro h
    simp [studentAttendanceRate, h]
  · by_cases hpos : 0 < (studentRecords attendanceRecords id).length
    · have h := percent_tenths_le _ _ hpos hle
      have hq : ((toFixedTenths (percentDouble
          (countStatus "present" (studentRecords attendanceRecords id))
          (studentRecords attendanceRecords id).length) : Nat) : ℚ) ≤ 1000 := by
        exact_mod_cast h
      simp only [studentAttendanceRate, hpos, gt_iff_lt, if_true, Rate.tenths]
      linarith
    · simp only [studentAttendanceRate, hpos, gt_iff_lt, if_false, Rate.tenths]
      norm_num
  · intro hne hlt
    have hpos : 0 < (studentRecords attendanceRecords id).length := List.length_pos.mpr hne
    simp only [studentAttendanceRate, hpos, gt_iff_lt, if_true, Rate.tenths]
    exact percent_tenths_nearest _ _ hpos (lt_of_le_of_lt hle hlt)

/-- C24 (witness): `student_rate_rounded` on `exampleLedger` and the student with id `1`,
who has one entry, a present one: the rate is `100.0`. -/
theorem student_rate_rounded_witness :
    |((studentAttendanceRate exampleLedger 1).tenths : ℚ) / 10 -
        (countStatus "present" (studentRecords exampleLedger 1) : ℚ) /
          ((studentRecords exampleLedger 1).length : ℚ) * 100| ≤ 1 / 20 ∧
    (studentAttendanceRate exampleLedger 1).text = "100.0" ∧
    studentAttendanceRate exampleLedger 9 = Rate.zero :=
  ⟨(student_rate_rounded exampleLedger 1).2.2.2.2 (by decide) (by decide), by decide,
   (student_rate_rounded exampleLedger 9).2.1 (by decide)⟩

end AttendanceApp
